import Mathlib

/-!
# KalTest: `TKalDetCradle`

A shallow embedding of `src/kaltracklib/TKalDetCradle.cxx` and theorems about it.

Conventions of the embedding.

* Objects reached through pointers (`TObject *`) live in a heap, a map from
  addresses to objects; the cradle's `TObjArray` is the list of the addresses it
  holds, in slot order.  Two slots may hold the same address.
* `Double_t` is an arbitrary linearly ordered field `R`; `Int_t` is `Int`.
* Code of the collaborating classes (surfaces, material model, tracks, the
  library sort) is not part of this file: every such operation is a field of a
  record of external operations, called exactly where the source calls it.
* A run that dereferences a null pointer (an `At(i)` outside the array) ends in
  `Except.error Fault.nullDeref`.
-/

namespace KalTest

/-! ## Heap objects -/

/-- Address of a heap object. -/
abbrev Ptr := Nat

/-- A measurement layer as far as the cradle touches it: the index written by
`SetIndex`, the parent pointer written by `SetParentPtr`, and everything else
(surface geometry, material, sorting policy) in `body`. -/
structure TVMeasLayer (α : Type) where
  fIndex : Int
  fParentPtr : Option Ptr
  body : α

/-- The heap of measurement layers. -/
abbrev Heap (α : Type) := Ptr → TVMeasLayer α

/-- `mlp->SetIndex(i)`. -/
def SetIndex {α : Type} (heap : Heap α) (mlp : Ptr) (i : Int) : Heap α :=
  fun q => if q = mlp then { heap q with fIndex := i } else heap q

/-- `mlp->SetParentPtr(parent)`. -/
def SetParentPtr {α : Type} (heap : Heap α) (mlp : Ptr) (parent : Ptr) : Heap α :=
  fun q => if q = mlp then { heap q with fParentPtr := some parent } else heap q

/-- A detector group (`TVKalDetector`): its own address, the layers it holds in
iteration order, and its parent pointer. -/
structure TVKalDetector where
  self : Ptr
  layers : List Ptr
  fParentPtr : Option Ptr
deriving DecidableEq

/-- The cradle (`TKalDetCradle`): its address, the content of its `TObjArray`
and its four flags. -/
structure TKalDetCradle where
  self : Ptr
  fCont : List Ptr
  fIsMSON : Bool
  fIsDEDXON : Bool
  fDone : Bool
  fIsClosed : Bool
deriving DecidableEq

namespace TKalDetCradle

/-- The constructor: an empty array, both material effects on, dirty, open. -/
def ctor (self : Ptr) : TKalDetCradle :=
  { self := self, fCont := [], fIsMSON := true, fIsDEDXON := true,
    fDone := false, fIsClosed := false }

/-- The call `IsMSOn()`. -/
def IsMSOn (c : TKalDetCradle) : Bool := c.fIsMSON

/-- The call `IsDEDXOn()`. -/
def IsDEDXOn (c : TKalDetCradle) : Bool := c.fIsDEDXON

/-- The call `IsClosed()`. -/
def IsClosed (c : TKalDetCradle) : Bool := c.fIsClosed

/-- `At(i)`: the address in slot `i`, or none (a null pointer) outside the array. -/
def At (c : TKalDetCradle) (i : Int) : Option Ptr :=
  if 0 ≤ i then c.fCont.get? i.toNat else none

end TKalDetCradle

/-! ## Install -/

/-- Everything `Install` reads or writes. -/
structure InstallState (α : Type) where
  cradle : TKalDetCradle
  heap : Heap α
  det : TVKalDetector

/-- One round of the `while ((mlp = next()))` loop of `Install`. -/
def installStep {α : Type} (s : InstallState α) (mlp : Ptr) : InstallState α :=
  { cradle := { s.cradle with fCont := s.cradle.fCont ++ [mlp] },
    heap := SetParentPtr s.heap mlp s.det.self,
    det := { s.det with fParentPtr := some s.cradle.self } }

/-- `TKalDetCradle::Install`.  `Except.error s` is a run that reached `abort()`
with the objects in state `s`; `Except.ok s` a run that returned. -/
def Install {α : Type} (s : InstallState α) : Except (InstallState α) (InstallState α) :=
  if s.cradle.IsClosed then
    .error s
  else
    let s1 := s.det.layers.foldl installStep s
    .ok { s1 with cradle := { s1.cradle with fDone := false } }

/-! ## Update -/

/-- The loop of `Update` that numbers the layers: `mlp->SetIndex(i++)` for each
slot in turn. -/
def setIndices {α : Type} : List Ptr → Int → Heap α → Heap α
  | [], _, heap => heap
  | mlp :: rest, i, heap => setIndices rest (i + 1) (SetIndex heap mlp i)

/-- What `Update` reads or writes: the cradle and the layer objects. -/
structure CradleState (α : Type) where
  cradle : TKalDetCradle
  heap : Heap α

/-- `TKalDetCradle::Update`.  `sort heap l` is what `UnSort(); Sort();` leaves in
the array when it held `l`: the library sort, which compares the objects the
addresses point to. -/
def Update {α : Type} (sort : Heap α → List Ptr → List Ptr) (s : CradleState α) :
    CradleState α :=
  let sorted := sort s.heap s.cradle.fCont
  { cradle := { s.cradle with fDone := true, fCont := sorted },
    heap := setIndices sorted 0 s.heap }

/-- The contract of the library sort: the array afterwards holds the same
addresses, ordered by the layers' sorting predicate `le`. -/
def SortContract {α : Type} (le : α → α → Prop) (sort : Heap α → List Ptr → List Ptr) : Prop :=
  ∀ (heap : Heap α) (l : List Ptr),
    (sort heap l).Perm l ∧ (sort heap l).Pairwise (fun p q => le (heap p).body (heap q).body)

/-! ## Vectors, matrices and the collaborating classes -/

/-- The three-vector `TVector3`. -/
structure TVector3 (R : Type) where
  x : R
  y : R
  z : R
deriving DecidableEq

namespace TVector3

variable {R : Type}

/-- The default constructor: the null vector. -/
def zero [Zero R] : TVector3 R := ⟨0, 0, 0⟩

/-- Difference of two vectors, `a - b`. -/
def sub [Sub R] (a b : TVector3 R) : TVector3 R := ⟨a.x - b.x, a.y - b.y, a.z - b.z⟩

/-- Scalar product, `a.Dot(b)`. -/
def Dot [Add R] [Mul R] (a b : TVector3 R) : R := a.x * b.x + a.y * b.y + a.z * b.z

/-- Length, `a.Mag()`, with the square root of the maths library passed in. -/
def Mag [Add R] [Mul R] (sqrt : R → R) (a : TVector3 R) : R := sqrt (a.Dot a)

end TVector3

/-- The matrix class `TKalMatrix`, with `r` rows and `c` columns. -/
abbrev TKalMatrix (R : Type) (r c : Nat) := Matrix (Fin r) (Fin c) R

/-- Operations of the collaborating classes, none of which is defined in
`TKalDetCradle.cxx`.  `α` is a layer (a `TVMeasLayer` that is also a
`TVSurface`), `Track` a helical `TVTrack`, `RK` a `TRungeKuttaTrack`; `n` is the
number of track parameters.  An argument the callee takes by reference and may
write is returned next to the result.  An optional trailing argument left out at
the call site is `none`. -/
structure Ext (R : Type) (n : Nat) (α Track RK : Type) where
  /-- The square root used by `TVector3::Mag`. -/
  sqrt : R → R
  /-- `surface.CalcXingPointWith(hel, xx, phi, mode, eps)`: return value, `xx`, `phi`. -/
  CalcXingPointWith : α → Track → TVector3 R → R → Int → Option R → Int × TVector3 R × R
  /-- `surface.GetOutwardNormal(x)`. -/
  GetOutwardNormal : α → TVector3 R → TVector3 R
  /-- `surface.CalcXingPointWith(rk, rkxx, step, mode)`: return value, `rkxx`, `step`. -/
  CalcXingPointWithRK : α → RK → TVector3 R → R → Int → Int × TVector3 R × R
  /-- `ml.CalcQms(isout, hel, fid, Qms)`: the matrix left in `Qms`. -/
  CalcQms : α → Bool → Track → R → TKalMatrix R n n → TKalMatrix R n n
  /-- `ml.GetEnergyLoss(isout, hel, fid)`. -/
  GetEnergyLoss : α → Bool → Track → R → R
  /-- `hel.CalcDxDphi(phi)`. -/
  CalcDxDphi : Track → R → TKalMatrix R 3 1
  /-- `hel.MoveTo(x, fid, &DF)` (trailing arguments `none`) and
  `hel.MoveTo(x, fid, &DF, 0, flag)` (`some flag`): the moved track, `fid`, `DF`. -/
  MoveTo : Track → TVector3 R → R → TKalMatrix R n n → Option Bool →
    Track × R × TKalMatrix R n n
  /-- `hel.PutInto(sv)`: the state vector left in `sv`. -/
  PutInto : Track → TKalMatrix R n 1 → TKalMatrix R n 1
  /-- `hel.SetTo(sv, pivot)`. -/
  SetTo : Track → TKalMatrix R n 1 → TVector3 R → Track
  /-- `hel.GetPivot()`. -/
  GetPivot : Track → TVector3 R
  /-- A default-constructed `TRungeKuttaTrack`. -/
  rkNew : RK
  /-- `rk.SetFromTrack(hel)`. -/
  SetFromTrack : RK → Track → RK
  /-- `rk.MoveTo(rkxx, step, DF)`: the moved track, `step`, `DF`. -/
  RKMoveTo : RK → TVector3 R → R → TKalMatrix R n n → RK × R × TKalMatrix R n n
  /-- `rk.SetToTrack(hel)`: the helix left in `hel`. -/
  SetToTrack : RK → Track → Track
  /-- `rk.GetPivot()`. -/
  RKGetPivot : RK → TVector3 R
  /-- `rk.PutInto(sv)`. -/
  RKPutInto : RK → TKalMatrix R n 1 → TKalMatrix R n 1

/-- What the transport reads of the site it starts from. -/
structure TKalTrackSite (R : Type) where
  /-- `GetHit().GetMeasLayer()`, the address of the layer of the hit. -/
  measLayer : Ptr
  /-- `GetGlobalPivot()`. -/
  globalPivot : TVector3 R

/-! ## The transport loops -/

/-- How a run can end without returning. -/
inductive Fault where
  /-- A null pointer was dereferenced: `At(i)` with `i` outside the array. -/
  | nullDeref
  /-- The loop of the embedding ran out of fuel (shown never to happen). -/
  | fuel
deriving DecidableEq

/-- What a run did, in the order it did it.  Layers are named by their slot in
the array. -/
inductive Event (R : Type) (n : Nat) where
  /-- The crossing search of the loop on the layer in slot `layer`, with the
  deflection angle `seed` passed in, the search `mode`, and the value returned. -/
  | xing (layer : Int) (seed : R) (mode : Int) (ret : Int)
  /-- The crossing search of `Transport2` with the Runge-Kutta track on the layer
  in slot `layer`, with the initial `step`, the search `mode`, and the value returned. -/
  | xingRK (layer : Int) (step : R) (mode : Int) (ret : Int)
  /-- The visit of slot `layer` was skipped; `far` tells the far-side test did it. -/
  | skip (layer : Int) (far : Bool)
  /-- A call `CalcQms(isout, hel, fid, Qms)` on the layer in slot `layer`. -/
  | qms (layer : Int) (isout : Bool) (fid : R)
  /-- An accepted step to the layer in slot `layer`: the Jacobian segment `DF`
  and the scattering contribution `Qms` used to update `F` and `Q`. -/
  | step (layer : Int) (DF Qms : TKalMatrix R n n)
  /-- A call `GetEnergyLoss(isout, hel, fid)` on the layer in slot `layer`, and
  the value `delta` it returned, which was added to `sv(2,0)`. -/
  | eloss (layer : Int) (isout : Bool) (fid : R) (delta : R)

/-- The accepted steps of a run, oldest first: each one's `(DF, Qms)`. -/
def acceptedSteps {R : Type} {n : Nat} :
    List (Event R n) → List (TKalMatrix R n n × TKalMatrix R n n)
  | [] => []
  | .step _ DF Qms :: rest => (DF, Qms) :: acceptedSteps rest
  | _ :: rest => acceptedSteps rest

/-- Whether an event is a call of the material model (`CalcQms` or `GetEnergyLoss`). -/
def materialCall {R : Type} {n : Nat} : Event R n → Bool
  | .qms _ _ _ => true
  | .eloss _ _ _ _ => true
  | _ => false

/-- Whether a run made an accepted step to the layer in slot `layer`. -/
def visitAccepted {R : Type} {n : Nat} (layer : Int) (log : List (Event R n)) : Bool :=
  log.any fun e =>
    match e with
    | .step l _ _ => decide (l = layer)
    | _ => false

/-- Whether a run skipped a visit of the layer in slot `layer`. -/
def visitSkipped {R : Type} {n : Nat} (layer : Int) (log : List (Event R n)) : Bool :=
  log.any fun e =>
    match e with
    | .skip l _ => decide (l = layer)
    | _ => false

/-- The condition of `for (ito = fridx; (di>0 && ito<=toidx)||(di<0 && ito>=toidx); ito += di)`. -/
def loopCond (di toidx ito : Int) : Prop :=
  (di > 0 ∧ ito ≤ toidx) ∨ (di < 0 ∧ ito ≥ toidx)

instance (di toidx ito : Int) : Decidable (loopCond di toidx ito) :=
  inferInstanceAs (Decidable ((di > 0 ∧ ito ≤ toidx) ∨ (di < 0 ∧ ito ≥ toidx)))

/-- The layer loop `for (...; ...; ito += di) body`, run for at most `fuel` rounds.
A `continue` in the source is a `body` that returns early. -/
def forLoop {σ : Type} (body : Int → σ → Except Fault σ) (di toidx : Int) :
    Nat → Int → σ → Except Fault σ
  | 0, ito, s => if loopCond di toidx ito then .error .fuel else .ok s
  | fuel + 1, ito, s =>
    if loopCond di toidx ito then
      match body ito s with
      | .error e => .error e
      | .ok s1 => forLoop body di toidx fuel (ito + di) s1
    else .ok s

/-- The statement `int mode = ito!=fridx ? di : 0;`. -/
def searchMode (fridx di ito : Int) : Int := if ito ≠ fridx then di else 0

/-- The statement `if (sdim == 6) DF(5, 5) = 1.;`. -/
def fixT0 {R : Type} [One R] {n : Nat} (DF : TKalMatrix R n n) : TKalMatrix R n n :=
  Matrix.of fun i j => if n = 6 ∧ i.val = 5 ∧ j.val = 5 then 1 else DF i j

/-- The statement `sv(2,0) += delta;`. -/
def addKappa {R : Type} [Add R] {n : Nat} (sv : TKalMatrix R n 1) (delta : R) :
    TKalMatrix R n 1 :=
  Matrix.of fun i j => if i.val = 2 ∧ j.val = 0 then sv i j + delta else sv i j

/-- `if (!fDone) Update();` -/
def lazyUpdate {α : Type} (sort : Heap α → List Ptr → List Ptr) (s : CradleState α) :
    CradleState α :=
  if s.cradle.fDone then s else Update sort s

section Loops

variable {R : Type} [LinearOrderedField R] {n : Nat} {α Track RK : Type}

/-- The locals of `Transport` that do not change during the loop. -/
structure HelConsts (R : Type) where
  fridx : Int
  toidx : Int
  di : Int
  xfrom : TVector3 R
  xto : TVector3 R
  isout : Bool
  eps : R

/-- The variables the loop of `Transport` writes, and the record of what it did. -/
structure HelVars (R : Type) (n : Nat) (Track : Type) where
  hel : Track
  xx : TVector3 R
  fid : R
  DF : TKalMatrix R n n
  F : TKalMatrix R n n
  Q : TKalMatrix R n n
  sv : TKalMatrix R n 1
  ifr : Int
  log : List (Event R n)

/-- The far-side test `(xx-xfrom).Mag() - kMergin > (xto-xfrom).Mag()` with
`kMergin = 1.0`. -/
def farSide (E : Ext R n α Track RK) (k : HelConsts R) (xx : TVector3 R) : Prop :=
  (xx.sub k.xfrom).Mag E.sqrt - 1 > (k.xto.sub k.xfrom).Mag E.sqrt

instance (E : Ext R n α Track RK) (k : HelConsts R) (xx : TVector3 R) :
    Decidable (farSide E k xx) :=
  inferInstanceAs (Decidable
    ((xx.sub k.xfrom).Mag E.sqrt - 1 > (k.xto.sub k.xfrom).Mag E.sqrt))

/-- Lines 282-310 of `Transport`: an accepted crossing `xx`, `fid` of the layer in
slot `ito`, with `ml` the layer in slot `ifr` and `log1` the record so far. -/
def helAccept (E : Ext R n α Track RK) (c : TKalDetCradle) (k : HelConsts R) (ito : Int)
    (ml : α) (xx : TVector3 R) (fid : R) (log1 : List (Event R n)) (v : HelVars R n Track) :
    HelVars R n Track :=
  let ms : Bool := c.IsMSOn && decide (ito ≠ k.fridx)
  let Qms : TKalMatrix R n n := if ms then E.CalcQms ml k.isout v.hel fid 0 else 0
  let log2 := if ms then log1 ++ [Event.qms v.ifr k.isout fid] else log1
  let m := E.MoveTo v.hel xx fid v.DF none
  let DF := fixT0 m.2.2
  let F := DF * v.F
  let DFt := DF.transpose
  let Q := DF * (v.Q + Qms) * DFt
  let log3 := log2 ++ [Event.step ito DF Qms]
  let de : Bool := c.IsDEDXOn && decide (ito ≠ k.fridx)
  let sv1 := E.PutInto m.1 v.sv
  let delta := E.GetEnergyLoss ml k.isout m.1 m.2.1
  let sv2 := addKappa sv1 delta
  { hel := if de then E.SetTo m.1 sv2 (E.GetPivot m.1) else m.1,
    xx := xx,
    fid := 0,
    DF := DF,
    F := F,
    Q := Q,
    sv := if de then sv2 else v.sv,
    ifr := ito,
    log := if de then log3 ++ [Event.eloss v.ifr k.isout m.2.1 delta] else log3 }

/-- The body of the layer loop of `Transport` (lines 259-314). -/
def transportBody (E : Ext R n α Track RK) (s : CradleState α) (k : HelConsts R) (ito : Int)
    (v : HelVars R n Track) : Except Fault (HelVars R n Track) :=
  let fid_temp := v.fid
  let mode : Int := searchMode k.fridx k.di ito
  match s.cradle.At ito with
  | none => .error .nullDeref
  | some sp =>
    let r := E.CalcXingPointWith (s.heap sp).body v.hel v.xx v.fid mode (some k.eps)
    let log1 := v.log ++ [Event.xing ito v.fid mode r.1]
    if r.1 ≠ 0 then
      if farSide E k r.2.1 then
        .ok { v with xx := r.2.1, fid := fid_temp, log := log1 ++ [Event.skip ito true] }
      else
        match s.cradle.At v.ifr with
        | none => .error .nullDeref
        | some mp => .ok (helAccept E s.cradle k ito (s.heap mp).body r.2.1 r.2.2 log1 v)
    else
      .ok { v with xx := r.2.1, fid := fid_temp, log := log1 ++ [Event.skip ito false] }

/-- What a transport hands back: the return value, the cradle and layers (sorted
and numbered if the call had to), the output arguments `x0`, `sv`, `F`, `Q`, the
track behind `help`, and the record of what the run did. -/
structure TransportResult (R : Type) (n : Nat) (α Track : Type) where
  status : Int
  state : CradleState α
  x0 : TVector3 R
  sv : TKalMatrix R n 1
  F : TKalMatrix R n n
  Q : TKalMatrix R n n
  hel : Track
  log : List (Event R n)

/-- The locals of `Transport` before the loop (lines 200-234): indices, direction,
reference points and the out-going flag.  `uniformB` is
`TBField::IsUsingUniformBfield()`. -/
def helConsts (E : Ext R n α Track RK) (uniformB : Bool) (s1 : CradleState α)
    (site : TKalTrackSite R) (ml_to : Ptr) (help : Track) : HelConsts R :=
  let fridx := (s1.heap site.measLayer).fIndex
  let toidx := (s1.heap ml_to).fIndex
  let di : Int := if fridx > toidx then -1 else 1
  let sfp := (s1.heap ml_to).body
  let eps : R := if uniformB then 1 / 100000000 else 1 / 100000
  let r := E.CalcXingPointWith sfp help TVector3.zero 0 0 (some eps)
  let xto := r.2.1
  let fito := r.2.2
  let dxdphi := E.CalcDxDphi help fito
  let dxdphiv : TVector3 R := ⟨dxdphi 0 0, dxdphi 1 0, dxdphi 2 0⟩
  let isout : Bool := decide ((-fito) * dxdphiv.Dot (E.GetOutwardNormal sfp xto) < 0)
  { fridx := fridx, toidx := toidx, di := di, xfrom := site.globalPivot, xto := xto,
    isout := isout, eps := eps }

/-- The internal `TKalDetCradle::Transport` (site to layer, helical track, lines
184-329).  The values `x0`, `F`, `Q` hold on entry are arguments, though the code
overwrites all three. -/
def Transport (E : Ext R n α Track RK) (sort : Heap α → List Ptr → List Ptr) (uniformB : Bool)
    (s : CradleState α) (site : TKalTrackSite R) (ml_to : Ptr) (_x0 : TVector3 R)
    (sv : TKalMatrix R n 1) (_F _Q : TKalMatrix R n n) (help : Track) :
    Except Fault (TransportResult R n α Track) :=
  let s1 := lazyUpdate sort s
  let k := helConsts E uniformB s1 site ml_to help
  let v0 : HelVars R n Track :=
    { hel := help, xx := TVector3.zero, fid := 0, DF := 0, F := 1, Q := 0, sv := sv,
      ifr := k.fridx, log := [] }
  match forLoop (transportBody E s1 k) k.di k.toidx ((k.toidx - k.fridx).natAbs + 1)
      k.fridx v0 with
  | .error e => .error e
  | .ok v =>
    .ok { status := 0, state := s1, x0 := E.GetPivot v.hel, sv := E.PutInto v.hel v.sv,
          F := v.F, Q := v.Q, hel := v.hel, log := v.log }

/-- The pointer `trackPtr` of `Transport2`: null, `&hel` or `&rk`. -/
inductive TrackRef where
  | null
  | hel
  | rk
deriving DecidableEq

/-- The variables the loop of `Transport2` writes, and the record of what it did. -/
structure RKVars (R : Type) (n : Nat) (Track RK : Type) where
  hel : Track
  rk : RK
  xx : TVector3 R
  fid : R
  DF : TKalMatrix R n n
  F : TKalMatrix R n n
  Q : TKalMatrix R n n
  sv : TKalMatrix R n 1
  ifr : Int
  trackPtr : TrackRef
  log : List (Event R n)

/-- Lines 417-462 of `Transport2`, after the crossing search: `hel`, `rk`, `fid`
are the variables after the search, `xing` the point to move to (`xx` on the
source layer, `rkxx` elsewhere), `step` the step of the Runge-Kutta search. -/
def rkAccept (E : Ext R n α Track RK) (c : TKalDetCradle) (fridx di ito : Int) (ml : α)
    (rk : RK) (xx xing : TVector3 R) (fid step : R) (log1 : List (Event R n))
    (v : RKVars R n Track RK) : RKVars R n Track RK :=
  let isout : Bool := decide (di > 0)
  let ms : Bool := c.IsMSOn && decide (ito ≠ fridx)
  let Qms : TKalMatrix R n n := if ms then E.CalcQms ml isout v.hel fid 0 else 0
  let log2 := if ms then log1 ++ [Event.qms v.ifr isout fid] else log1
  let mh := E.MoveTo v.hel xing fid v.DF (some false)
  let mr := E.RKMoveTo rk xing step v.DF
  let hel1 : Track := if ito = fridx then mh.1 else E.SetToTrack mr.1 v.hel
  let rk1 : RK := if ito = fridx then rk else mr.1
  let fid1 : R := if ito = fridx then mh.2.1 else fid
  let DF := fixT0 (if ito = fridx then mh.2.2 else mr.2.2)
  let F := DF * v.F
  let DFt := DF.transpose
  let Q := DF * (v.Q + Qms) * DFt
  let log3 := log2 ++ [Event.step ito DF Qms]
  let de : Bool := c.IsDEDXOn && decide (ito ≠ fridx)
  let sv1 := E.PutInto hel1 v.sv
  let delta := E.GetEnergyLoss ml isout hel1 fid1
  let sv2 := addKappa sv1 delta
  { hel := if de then E.SetTo hel1 sv2 (E.GetPivot hel1) else hel1,
    rk := rk1,
    xx := xx,
    fid := fid1,
    DF := DF,
    F := F,
    Q := Q,
    sv := if de then sv2 else v.sv,
    ifr := ito,
    trackPtr := if ito = fridx then TrackRef.hel else TrackRef.rk,
    log := if de then log3 ++ [Event.eloss v.ifr isout fid1 delta] else log3 }

/-- The body of the layer loop of `Transport2` (lines 379-462). -/
def transport2Body (E : Ext R n α Track RK) (s : CradleState α) (fridx di : Int) (ito : Int)
    (v : RKVars R n Track RK) : Except Fault (RKVars R n Track RK) :=
  let mode : Int := searchMode fridx di ito
  match s.cradle.At v.ifr with
  | none => .error .nullDeref
  | some mp =>
    let ml := (s.heap mp).body
    let step : R := 1 / 100
    match s.cradle.At ito with
    | none => .error .nullDeref
    | some sp =>
      if ito = fridx then
        let r := E.CalcXingPointWith (s.heap sp).body v.hel v.xx v.fid mode none
        .ok (rkAccept E s.cradle fridx di ito ml v.rk r.2.1 r.2.1 r.2.2 step
          (v.log ++ [Event.xing ito v.fid mode r.1]) v)
      else
        let rk1 := E.SetFromTrack v.rk v.hel
        let r := E.CalcXingPointWithRK (s.heap sp).body rk1 TVector3.zero step mode
        .ok (rkAccept E s.cradle fridx di ito ml rk1 v.xx r.2.1 v.fid r.2.2
          (v.log ++ [Event.xingRK ito step mode r.1]) v)

/-- `TKalDetCradle::Transport2` (site to layer, Runge-Kutta track after the first
step, lines 332-471). -/
def Transport2 (E : Ext R n α Track RK) (sort : Heap α → List Ptr → List Ptr)
    (s : CradleState α) (site : TKalTrackSite R) (ml_to : Ptr) (_x0 : TVector3 R)
    (sv : TKalMatrix R n 1) (_F _Q : TKalMatrix R n n) (help : Track) :
    Except Fault (TransportResult R n α Track) :=
  let s1 := lazyUpdate sort s
  let fridx := (s1.heap site.measLayer).fIndex
  let toidx := (s1.heap ml_to).fIndex
  let di : Int := if fridx > toidx then -1 else 1
  let v0 : RKVars R n Track RK :=
    { hel := help, rk := E.rkNew, xx := TVector3.zero, fid := 0, DF := 0, F := 1, Q := 0,
      sv := sv, ifr := fridx, trackPtr := TrackRef.null, log := [] }
  match forLoop (transport2Body E s1 fridx di) di toidx ((toidx - fridx).natAbs + 1)
      fridx v0 with
  | .error e => .error e
  | .ok v =>
    match v.trackPtr with
    | TrackRef.null => .error .nullDeref
    | TrackRef.hel =>
      .ok { status := 0, state := s1, x0 := E.GetPivot v.hel, sv := E.PutInto v.hel v.sv,
            F := v.F, Q := v.Q, hel := v.hel, log := v.log }
    | TrackRef.rk =>
      .ok { status := 0, state := s1, x0 := E.RKGetPivot v.rk, sv := E.RKPutInto v.rk v.sv,
            F := v.F, Q := v.Q, hel := v.hel, log := v.log }

/-- Both indices the transport reads after `if (!fDone) Update();` are slots of
the array: the layer of the site it starts from and the layer to reach. -/
def IndicesInRange (sort : Heap α → List Ptr → List Ptr) (s : CradleState α) (fromLayer : Ptr)
    (ml_to : Ptr) : Prop :=
  let s1 := lazyUpdate sort s
  (0 ≤ (s1.heap fromLayer).fIndex ∧ (s1.heap fromLayer).fIndex < s1.cradle.fCont.length) ∧
  (0 ≤ (s1.heap ml_to).fIndex ∧ (s1.heap ml_to).fIndex < s1.cradle.fCont.length)

instance (sort : Heap α → List Ptr → List Ptr) (s : CradleState α) (fromLayer ml_to : Ptr) :
    Decidable (IndicesInRange sort s fromLayer ml_to) :=
  inferInstanceAs (Decidable
    ((0 ≤ ((lazyUpdate sort s).heap fromLayer).fIndex ∧
        ((lazyUpdate sort s).heap fromLayer).fIndex < (lazyUpdate sort s).cradle.fCont.length) ∧
      (0 ≤ ((lazyUpdate sort s).heap ml_to).fIndex ∧
        ((lazyUpdate sort s).heap ml_to).fIndex < (lazyUpdate sort s).cradle.fCont.length)))

/-- The ordered product `DF_n * ... * DF_2 * DF_1` of the segments `DF_1, ..., DF_n`
given oldest first: the latest one is the leftmost factor. -/
def orderedProduct (segs : List (TKalMatrix R n n)) : TKalMatrix R n n :=
  segs.reverse.prod

/-- The recurrence `Q <- DF * (Q + Qms) * DF^T` folded over steps given oldest
first, from the start value `Q0`. -/
def foldNoise (Q0 : TKalMatrix R n n) (steps : List (TKalMatrix R n n × TKalMatrix R n n)) :
    TKalMatrix R n n :=
  steps.foldl (fun Q st => st.1 * (Q + st.2) * st.1.transpose) Q0

end Loops

/-! ## The entry points that take a site -/

section Sites

variable {R : Type} [LinearOrderedField R] {n : Nat} {α Track RK Frame Str : Type}

/-- What the site-to-site transport reads and writes of the site it goes to. -/
structure TKalTrackSiteTo (R Frame : Type) where
  /-- `GetHit().GetMeasLayer()`, the address of the layer of the hit. -/
  measLayer : Ptr
  /-- `GetDimension()`. -/
  dimension : Int
  /-- `GetHit().GetBfield()`. -/
  hitBfield : R
  /-- `GetGlobalPivot()`. -/
  globalPivot : TVector3 R
  /-- `GetPivot()`; written by `SetPivot`. -/
  pivot : TVector3 R
  /-- The frame written by `SetFrame`. -/
  frame : Frame
  /-- The field written by `SetBfield`. -/
  bfield : R

/-- Operations of the collaborating classes that only the site-to-site transport
calls.  `Frame` is a `TTrackFrame`, `Str` a `TStraightTrack`. -/
structure SiteExt (R : Type) (n : Nat) (Track Frame Str : Type) where
  /-- `hel.GetFrame()`. -/
  GetFrame : Track → Frame
  /-- `frame.Transform(x, TTrackFrame::kLocalToGlobal)`. -/
  Transform : Frame → TVector3 R → TVector3 R
  /-- `hel.GetMagField()`. -/
  GetMagField : Track → R
  /-- The constructor `TStraightTrack strtrk(sv, x0)`. -/
  StraightTrack : TKalMatrix R n 1 → TVector3 R → Str
  /-- `strtrk.MoveTo(x, fid, &DF)`: the moved track, `fid`, `DF`. -/
  StrMoveTo : Str → TVector3 R → R → TKalMatrix R n n → Str × R × TKalMatrix R n n
  /-- `strtrk.PutInto(sv)`: the state vector left in `sv`. -/
  StrPutInto : Str → TKalMatrix R n 1 → TKalMatrix R n 1

/-- The public `TKalDetCradle::Transport` from a site to a layer (lines 158-170).
`created` is the track `from.GetCurState().CreateTrack()` makes; the static
`fUseRKTrack` is an argument, though the code does not read it. -/
def TransportToLayer (E : Ext R n α Track RK) (sort : Heap α → List Ptr → List Ptr)
    (_fUseRKTrack uniformB : Bool) (s : CradleState α) (site : TKalTrackSite R)
    (created : Track) (ml_to : Ptr) (x0 : TVector3 R) (sv : TKalMatrix R n 1)
    (F Q : TKalMatrix R n n) : Except Fault (TransportResult R n α Track) :=
  let s1 := lazyUpdate sort s
  let help := created
  Transport E sort uniformB s1 site ml_to x0 sv F Q help

/-- The layer transport the site-to-site `Transport` calls (lines 108-113): the
one the static `fUseRKTrack` selects, entered with a default `x0`. -/
def layerTransport (E : Ext R n α Track RK) (sort : Heap α → List Ptr → List Ptr)
    (fUseRKTrack uniformB : Bool) (s1 : CradleState α) (site : TKalTrackSite R)
    (ml_to : Ptr) (sv : TKalMatrix R n 1) (F Q : TKalMatrix R n n) (help : Track) :
    Except Fault (TransportResult R n α Track) :=
  if fUseRKTrack then
    Transport2 E sort s1 site ml_to TVector3.zero sv F Q help
  else
    Transport E sort uniformB s1 site ml_to TVector3.zero sv F Q help

/-- What the site-to-site transport hands back: the cradle and layers, the site
it went to, the output arguments `sv`, `F`, `Q`, and the record of the layer
transport it ran. -/
structure SiteResult (R : Type) (n : Nat) (α Frame : Type) where
  state : CradleState α
  toSite : TKalTrackSiteTo R Frame
  sv : TKalMatrix R n 1
  F : TKalMatrix R n n
  Q : TKalMatrix R n n
  log : List (Event R n)

/-- Lines 152-155: `if(!TBField::IsUsingUniformBfield())` then `SetFrame` and `SetBfield` on the
site gone to. -/
def setFrameAndField (S : SiteExt R n Track Frame Str) (uniformB : Bool) (hel : Track)
    (toSite : TKalTrackSiteTo R Frame) : TKalTrackSiteTo R Frame :=
  if uniformB then toSite else { toSite with frame := S.GetFrame hel, bfield := S.GetMagField hel }

/-- Lines 115-155 of the site-to-site `Transport`: the move from the expected hit
to the actual hit, after the layer transport returned `r`. -/
def moveToHit (E : Ext R n α Track RK) (S : SiteExt R n Track Frame Str) (uniformB : Bool)
    (toSite : TKalTrackSiteTo R Frame) (r : TransportResult R n α Track) : SiteResult R n α Frame :=
  let hel := r.hel
  if toSite.dimension > 1 then
    if toSite.hitBfield ≠ 0 then
      let m := E.MoveTo hel toSite.globalPivot 0 0 (some false)
      { state := r.state, toSite := setFrameAndField S uniformB m.1 toSite, sv := E.PutInto m.1 r.sv,
        F := m.2.2 * r.F, Q := r.Q, log := r.log }
    else
      let strtrk := S.StraightTrack r.sv r.x0
      let m := S.StrMoveTo strtrk toSite.pivot 0 0
      { state := r.state, toSite := setFrameAndField S uniformB hel toSite, sv := S.StrPutInto m.1 r.sv,
        F := m.2.2 * r.F, Q := r.Q, log := r.log }
  else
    let x0g := if uniformB then r.x0 else S.Transform (S.GetFrame hel) r.x0
    { state := r.state, toSite := setFrameAndField S uniformB hel { toSite with pivot := x0g },
      sv := r.sv, F := r.F, Q := r.Q, log := r.log }

/-- The site-to-site `TKalDetCradle::Transport` (lines 85-156).  `created` is the
track `from.GetCurState().CreateTrack()` makes. -/
def TransportToSite (E : Ext R n α Track RK) (S : SiteExt R n Track Frame Str)
    (sort : Heap α → List Ptr → List Ptr) (fUseRKTrack uniformB : Bool) (s : CradleState α)
    (site : TKalTrackSite R) (created : Track) (toSite : TKalTrackSiteTo R Frame)
    (sv : TKalMatrix R n 1) (F Q : TKalMatrix R n n) : Except Fault (SiteResult R n α Frame) :=
  let s1 := lazyUpdate sort s
  let help := created
  let ml_to := toSite.measLayer
  match layerTransport E sort fUseRKTrack uniformB s1 site ml_to sv F Q help with
  | .error e => .error e
  | .ok r => .ok (moveToHit E S uniformB toSite r)

end Sites

/-! ## Reading the record of a run -/

/-- The slot an event names. -/
def eventLayer {R : Type} {n : Nat} : Event R n → Int
  | .xing l _ _ _ => l
  | .xingRK l _ _ _ => l
  | .skip l _ => l
  | .qms l _ _ => l
  | .step l _ _ => l
  | .eloss l _ _ _ => l

/-- The out-going flag a call of the material model was given. -/
def eventIsout {R : Type} {n : Nat} : Event R n → Option Bool
  | .qms _ isout _ => some isout
  | .eloss _ isout _ _ => some isout
  | _ => none

/-- The slots a run visited, in order: one per crossing search of the loop. -/
def visited {R : Type} {n : Nat} : List (Event R n) → List Int
  | [] => []
  | .xing l _ _ _ :: rest => l :: visited rest
  | .xingRK l _ _ _ :: rest => l :: visited rest
  | _ :: rest => visited rest

/-- Whether a crossing search of the loop on the layer in slot `layer` returned 0. -/
def searchFailed {R : Type} {n : Nat} (layer : Int) (log : List (Event R n)) : Bool :=
  log.any fun e =>
    match e with
    | .xing l _ _ ret => decide (l = layer ∧ ret = 0)
    | .xingRK l _ _ ret => decide (l = layer ∧ ret = 0)
    | _ => false

/-- Whether a run searched a crossing with the Runge-Kutta track. -/
def usesRK {R : Type} {n : Nat} (log : List (Event R n)) : Bool :=
  log.any fun e =>
    match e with
    | .xingRK _ _ _ _ => true
    | _ => false

/-- The deflection angles the crossing searches of the helical loop were given as
starting guess, oldest first. -/
def searchSeeds {R : Type} {n : Nat} : List (Event R n) → List R
  | [] => []
  | .xing _ seed _ _ :: rest => seed :: searchSeeds rest
  | _ :: rest => searchSeeds rest

/-- The increment `Int_t di = fridx > toidx ? -1 : 1;`. -/
def increment (fridx toidx : Int) : Int := if fridx > toidx then -1 else 1

/-- The indices `fridx, fridx + di, ..., toidx`, in this order. -/
def visitOrder (fridx toidx : Int) : List Int :=
  (List.range ((toidx - fridx).natAbs + 1)).map
    fun j : Nat => fridx + increment fridx toidx * (j : Int)

/-- Running `body` on each index of a list in turn, stopping at the first fault. -/
def visitAll {σ : Type} (body : Int → σ → Except Fault σ) : List Int → σ → Except Fault σ
  | [], s => .ok s
  | i :: rest, s =>
    match body i s with
    | .error e => .error e
    | .ok s1 => visitAll body rest s1

/-! ## A test bench

A concrete detector on which the definitions above are run: planes `x = pos`
met by a track that moves along the x axis, with three track parameters
(position, slope, curvature), over the rationals. -/

namespace Bench

/-- A layer of the bench: the plane `x = pos`, ordered by `policy`; a layer with
`crosses = false` is a surface the track never meets. -/
structure Layer where
  policy : ℚ
  pos : ℚ
  crosses : Bool
deriving DecidableEq

/-- The sorting predicate of the bench layers: by increasing `policy`. -/
def le (a b : Layer) : Prop := a.policy ≤ b.policy

instance (a b : Layer) : Decidable (le a b) :=
  inferInstanceAs (Decidable (a.policy ≤ b.policy))

/-- A track of the bench: the x coordinate of its pivot and its curvature. -/
structure Track where
  pivot : ℚ
  kappa : ℚ
deriving DecidableEq

/-- The square root on 0, 1, 4, 9, 16 and 25, the only values the bench takes it of. -/
def sqrt (x : ℚ) : ℚ :=
  if x = 1 then 1 else if x = 4 then 2 else if x = 9 then 3 else if x = 16 then 4
  else if x = 25 then 5 else 0

/-- The Jacobian segment of a move by `d` along the axis. -/
def drift (d : ℚ) : TKalMatrix ℚ 3 3 := !![1, d, 0; 0, 1, 0; 0, 0, 1]

/-- The scattering contribution every bench layer reports. -/
def qms : TKalMatrix ℚ 3 3 := !![0, 0, 0; 0, 1, 0; 0, 0, 0]

/-- The state vector of a bench track: position, the slope kept from `sv`, curvature. -/
def putInto (t : Track) (sv : TKalMatrix ℚ 3 1) : TKalMatrix ℚ 3 1 :=
  !![t.pivot; sv 1 0; t.kappa]

/-- The collaborating classes of the bench.  A crossing search on a layer that is
not crossed returns 0, leaves `xx` and adds 1 to the deflection angle; on a layer
that is crossed it returns 1, the point `(pos, 0, 0)` and the distance to it. -/
def ext : Ext ℚ 3 Layer Track Track where
  sqrt := sqrt
  CalcXingPointWith := fun l hel xx phi _ _ =>
    if l.crosses then (1, ⟨l.pos, 0, 0⟩, l.pos - hel.pivot) else (0, xx, phi + 1)
  GetOutwardNormal := fun _ _ => ⟨1, 0, 0⟩
  CalcXingPointWithRK := fun l _ xx step _ =>
    if l.crosses then (1, ⟨l.pos, 0, 0⟩, step) else (0, xx, step)
  CalcQms := fun _ _ _ _ _ => qms
  GetEnergyLoss := fun _ _ _ _ => -(1 / 4)
  CalcDxDphi := fun _ _ => !![1; 0; 0]
  MoveTo := fun hel x fid _ _ => ({ hel with pivot := x.x }, fid, drift (x.x - hel.pivot))
  PutInto := putInto
  SetTo := fun _ sv pivot => { pivot := pivot.x, kappa := sv 2 0 }
  GetPivot := fun hel => ⟨hel.pivot, 0, 0⟩
  rkNew := { pivot := 0, kappa := 0 }
  SetFromTrack := fun _ hel => hel
  RKMoveTo := fun rk x step _ => ({ rk with pivot := x.x }, step, drift (x.x - rk.pivot))
  SetToTrack := fun rk _ => rk
  RKGetPivot := fun rk => ⟨rk.pivot, 0, 0⟩
  RKPutInto := putInto

/-- A library sort that keeps the order of layers that compare equal. -/
def stableSort (heap : Heap Layer) (l : List Ptr) : List Ptr :=
  l.insertionSort (fun p q => le (heap p).body (heap q).body)

/-- A library sort that reverses the order of layers that compare equal. -/
def reversingSort (heap : Heap Layer) (l : List Ptr) : List Ptr :=
  l.reverse.insertionSort (fun p q => le (heap p).body (heap q).body)

/-- The layers of the bench.  At addresses 10, 11, 12 the planes `x = 1`, `x = 2`,
`x = 3`, numbered 0, 1, 2, and at 13 a surface that is never crossed, numbered 3.
At 20, 21, 22 the planes `x = 1`, `x = 4`, `x = 2`, numbered 0, 1, 2 in the order
of their policies 1, 2, 3: the second is met on the far side.  At 30 and 31 two
planes with the same policy, not yet numbered. -/
def heap : Heap Layer := fun p =>
  if p = 10 then { fIndex := 0, fParentPtr := some 1, body := ⟨1, 1, true⟩ }
  else if p = 11 then { fIndex := 1, fParentPtr := some 1, body := ⟨2, 2, true⟩ }
  else if p = 12 then { fIndex := 2, fParentPtr := some 1, body := ⟨3, 3, true⟩ }
  else if p = 13 then { fIndex := 3, fParentPtr := some 1, body := ⟨4, 4, false⟩ }
  else if p = 20 then { fIndex := 0, fParentPtr := some 2, body := ⟨1, 1, true⟩ }
  else if p = 21 then { fIndex := 1, fParentPtr := some 2, body := ⟨2, 4, true⟩ }
  else if p = 22 then { fIndex := 2, fParentPtr := some 2, body := ⟨3, 2, true⟩ }
  else if p = 30 then { fIndex := -1, fParentPtr := some 3, body := ⟨5, 5, true⟩ }
  else if p = 31 then { fIndex := -1, fParentPtr := some 3, body := ⟨5, 6, true⟩ }
  else { fIndex := -1, fParentPtr := none, body := ⟨0, 0, false⟩ }

/-- A sorted cradle holding the layers at 10, 11, 12, 13, with the given toggles. -/
def cradle (ms dedx : Bool) : TKalDetCradle :=
  { self := 0, fCont := [10, 11, 12, 13], fIsMSON := ms, fIsDEDXON := dedx, fDone := true,
    fIsClosed := false }

/-- The bench with both material effects on. -/
def state : CradleState Layer := { cradle := cradle true true, heap := heap }

/-- The bench with both material effects off. -/
def stateOff : CradleState Layer := { cradle := cradle false false, heap := heap }

/-- A site on the layer at address 10 whose pivot is the origin. -/
def site : TKalTrackSite ℚ := { measLayer := 10, globalPivot := ⟨0, 0, 0⟩ }

/-- The track of the site: pivot at the origin, curvature 1. -/
def track : Track := { pivot := 0, kappa := 1 }

/-- A sorted cradle holding the layers at 20, 21, 22, both material effects on. -/
def stateFar : CradleState Layer :=
  { cradle := { self := 0, fCont := [20, 21, 22], fIsMSON := true, fIsDEDXON := true,
                fDone := true, fIsClosed := false },
    heap := heap }

/-- A site on the layer at address 20 whose pivot is the origin. -/
def siteFar : TKalTrackSite ℚ := { measLayer := 20, globalPivot := ⟨0, 0, 0⟩ }

/-- A cradle holding the two layers at 30 and 31, which compare equal, just
installed: dirty and not yet sorted. -/
def stateTie : CradleState Layer :=
  { cradle := { self := 0, fCont := [30, 31], fIsMSON := true, fIsDEDXON := true,
                fDone := false, fIsClosed := false },
    heap := heap }

/-- A dirty cradle holding the layers at 12, 10, 11, in the order of installation. -/
def stateDirty : CradleState Layer :=
  { cradle := { self := 0, fCont := [12, 10, 11], fIsMSON := true, fIsDEDXON := true,
                fDone := false, fIsClosed := false },
    heap := heap }

/-- A state vector on entry. -/
def sv0 : TKalMatrix ℚ 3 1 := !![0; 0; 1]

/-- A matrix left in `F` or `Q` by an earlier call. -/
def stale : TKalMatrix ℚ 3 3 := !![7, 7, 7; 7, 7, 7; 7, 7, 7]

/-- The bench with a material model that depends on the layer: the layer at
`x = pos` reports the scattering contribution `pos * qms` and the energy-loss
delta `-pos / 4`. -/
def extMat : Ext ℚ 3 Layer Track Track :=
  { ext with
    CalcQms := fun l _ _ _ _ => !![0, 0, 0; 0, l.pos, 0; 0, 0, 0]
    GetEnergyLoss := fun l _ _ _ => -(l.pos / 4) }

/-- The collaborating classes of the site-to-site transport on the bench: a frame
is an offset along the axis, a straight track is a bench track. -/
def siteExt : SiteExt ℚ 3 Track ℚ Track where
  GetFrame := fun hel => hel.pivot
  Transform := fun f x => ⟨x.x + f, x.y, x.z⟩
  GetMagField := fun _ => 3
  StraightTrack := fun sv x0 => { pivot := x0.x, kappa := sv 2 0 }
  StrMoveTo := fun t x fid _ => ({ t with pivot := x.x }, fid, drift (x.x - t.pivot))
  StrPutInto := putInto

/-- A site with a one-dimensional hit on the layer at address 12. -/
def toSite1 : TKalTrackSiteTo ℚ ℚ :=
  { measLayer := 12, dimension := 1, hitBfield := 3, globalPivot := ⟨5, 0, 0⟩,
    pivot := ⟨4, 0, 0⟩, frame := 0, bfield := 0 }

/-- A site with a two-dimensional hit on the layer at address 12, in a field. -/
def toSite2 : TKalTrackSiteTo ℚ ℚ :=
  { measLayer := 12, dimension := 2, hitBfield := 3, globalPivot := ⟨5, 0, 0⟩,
    pivot := ⟨4, 0, 0⟩, frame := 0, bfield := 0 }

/-- A detector group holding the layers at 30 and 31, not yet installed. -/
def det : TVKalDetector := { self := 3, layers := [30, 31], fParentPtr := none }

/-- An open cradle holding the layers at 10 and 11, about to install `det`. -/
def installState : InstallState Layer :=
  { cradle := { self := 0, fCont := [10, 11], fIsMSON := true, fIsDEDXON := true,
                fDone := true, fIsClosed := false },
    heap := heap, det := det }

/-- A site on the layer at address 30 whose pivot is the origin. -/
def siteNew : TKalTrackSite ℚ := { measLayer := 30, globalPivot := ⟨0, 0, 0⟩ }

/-- The loop constants of a helical transport from slot 0 to slot 1 on the bench. -/
def consts01 : HelConsts ℚ :=
  { fridx := 0, toidx := 1, di := 1, xfrom := ⟨0, 0, 0⟩, xto := ⟨2, 0, 0⟩, isout := true,
    eps := 1 / 100000000 }

/-- The loop variables of that transport after its step to the source layer. -/
def afterSource : HelVars ℚ 3 Track :=
  { hel := ⟨1, 1⟩, xx := ⟨1, 0, 0⟩, fid := 0, DF := drift 1, F := drift 1, Q := 0, sv := sv0,
    ifr := 0, log := [] }

/-- The loop variables of `Transport2` from slot 0 after its step to the source
layer. -/
def afterSourceRK : RKVars ℚ 3 Track Track :=
  { hel := ⟨1, 1⟩, rk := ⟨0, 0⟩, xx := ⟨1, 0, 0⟩, fid := 1, DF := drift 1, F := drift 1,
    Q := 0, sv := sv0, ifr := 0, trackPtr := TrackRef.hel, log := [] }

/-- The objects as `Install` leaves them on `installState`: the array holds the
layers at 10, 11, 30, 31 and the cradle is dirty. -/
def installed : InstallState Layer :=
  match Install installState with
  | .ok s => s
  | .error s => s

/-- A site with a one-dimensional hit on the layer at address 10. -/
def toSiteOld : TKalTrackSiteTo ℚ ℚ :=
  { measLayer := 10, dimension := 1, hitBfield := 3, globalPivot := ⟨1, 0, 0⟩,
    pivot := ⟨1, 0, 0⟩, frame := 0, bfield := 0 }

end Bench

/-! # Theorems -/

section LoopLemmas

variable {R : Type} [LinearOrderedField R] {n : Nat} {α Track RK : Type}

theorem At_isSome (c : TKalDetCradle) (i : Int) (h0 : 0 ≤ i) (h1 : i < c.fCont.length) :
    ∃ p, c.At i = some p := by
  have hlt : i.toNat < c.fCont.length := by omega
  refine ⟨c.fCont.get ⟨i.toNat, hlt⟩, ?_⟩
  simp [TKalDetCradle.At, h0, List.get?_eq_get hlt]

/-- A loop whose body returns and keeps `P` returns, with `P` kept, when the fuel
covers the rounds left. -/
theorem forLoop_spec {σ : Type} (body : Int → σ → Except Fault σ) (di toidx : Int)
    (P : Int → σ → Prop) (hdi : di = 1 ∨ di = -1)
    (hbody : ∀ ito s, P ito s → loopCond di toidx ito →
      ∃ s1, body ito s = .ok s1 ∧ P (ito + di) s1) :
    ∀ (fuel : Nat) (ito : Int) (s : σ), P ito s →
      (loopCond di toidx ito → ((toidx - ito) * di).toNat + 1 ≤ fuel) →
      ∃ ito1 s1, forLoop body di toidx fuel ito s = .ok s1 ∧ P ito1 s1 ∧
        ¬ loopCond di toidx ito1 := by
  intro fuel
  induction fuel with
  | zero =>
    intro ito s hP hfuel
    have hc : ¬ loopCond di toidx ito := fun h => by have := hfuel h; omega
    exact ⟨ito, s, by simp [forLoop, hc], hP, hc⟩
  | succ fuel ih =>
    intro ito s hP hfuel
    by_cases hc : loopCond di toidx ito
    · obtain ⟨s1, hb, hP1⟩ := hbody ito s hP hc
      have hm := hfuel hc
      have hnext : loopCond di toidx (ito + di) →
          ((toidx - (ito + di)) * di).toNat + 1 ≤ fuel := by
        intro hc1
        unfold loopCond at hc hc1
        rcases hdi with h | h <;> subst h <;> omega
      obtain ⟨ito1, s2, hrun, hP2, hc2⟩ := ih (ito + di) s1 hP1 hnext
      exact ⟨ito1, s2, by simp [forLoop, hc, hb, hrun], hP2, hc2⟩
    · exact ⟨ito, s, by simp [forLoop, hc], hP, hc⟩

omit [LinearOrderedField R] in
theorem acceptedSteps_append (l1 l2 : List (Event R n)) :
    acceptedSteps (l1 ++ l2) = acceptedSteps l1 ++ acceptedSteps l2 := by
  induction l1 with
  | nil => rfl
  | cons e l ih => cases e <;> simp [acceptedSteps, ih]

end LoopLemmas

section TransportLemmas

variable {R : Type} [LinearOrderedField R] {n : Nat} {α Track RK : Type}

/-- What an accepted step of `Transport` does to `F`, `Q`, the remembered layer,
the deflection angle and the record of accepted steps. -/
theorem helAccept_spec (E : Ext R n α Track RK) (c : TKalDetCradle) (k : HelConsts R)
    (ito : Int) (ml : α) (xx : TVector3 R) (fid : R) (log1 : List (Event R n))
    (v : HelVars R n Track) :
    ∃ DF Qms : TKalMatrix R n n,
      acceptedSteps (helAccept E c k ito ml xx fid log1 v).log =
        acceptedSteps log1 ++ [(DF, Qms)] ∧
      (helAccept E c k ito ml xx fid log1 v).F = DF * v.F ∧
      (helAccept E c k ito ml xx fid log1 v).Q = DF * (v.Q + Qms) * DF.transpose ∧
      (helAccept E c k ito ml xx fid log1 v).ifr = ito ∧
      (helAccept E c k ito ml xx fid log1 v).fid = 0 ∧
      ((c.IsMSOn && decide (ito ≠ k.fridx)) = false → Qms = 0) := by
  refine ⟨fixT0 (E.MoveTo v.hel xx fid v.DF none).2.2,
    if (c.IsMSOn && decide (ito ≠ k.fridx)) = true then E.CalcQms ml k.isout v.hel fid 0 else 0,
    ?_, rfl, rfl, rfl, rfl, ?_⟩
  · cases hm : (c.IsMSOn && decide (ito ≠ k.fridx)) <;>
      cases hd : (c.IsDEDXOn && decide (ito ≠ k.fridx)) <;>
      simp only [helAccept, hm, hd] <;>
      simp [acceptedSteps_append, acceptedSteps]
  · intro h
    rw [h]
    simp

/-- A visit whose crossing search returns 0 is skipped. -/
theorem transportBody_noXing (E : Ext R n α Track RK) (s : CradleState α) (k : HelConsts R)
    (ito : Int) (v : HelVars R n Track) (sp : Ptr) (hsp : s.cradle.At ito = some sp)
    (h0 : (E.CalcXingPointWith (s.heap sp).body v.hel v.xx v.fid (searchMode k.fridx k.di ito)
      (some k.eps)).1 = 0) :
    transportBody E s k ito v = .ok
      { v with
        xx := (E.CalcXingPointWith (s.heap sp).body v.hel v.xx v.fid
          (searchMode k.fridx k.di ito) (some k.eps)).2.1,
        log := v.log ++ [Event.xing ito v.fid (searchMode k.fridx k.di ito) 0] ++
          [Event.skip ito false] } := by
  simp only [transportBody, hsp, h0, ne_eq, not_true_eq_false, if_false]

/-- A visit whose crossing fails the far-side test is skipped. -/
theorem transportBody_far (E : Ext R n α Track RK) (s : CradleState α) (k : HelConsts R)
    (ito : Int) (v : HelVars R n Track) (sp : Ptr) (hsp : s.cradle.At ito = some sp)
    (h0 : (E.CalcXingPointWith (s.heap sp).body v.hel v.xx v.fid (searchMode k.fridx k.di ito)
      (some k.eps)).1 ≠ 0)
    (hfar : farSide E k (E.CalcXingPointWith (s.heap sp).body v.hel v.xx v.fid
      (searchMode k.fridx k.di ito) (some k.eps)).2.1) :
    transportBody E s k ito v = .ok
      { v with
        xx := (E.CalcXingPointWith (s.heap sp).body v.hel v.xx v.fid
          (searchMode k.fridx k.di ito) (some k.eps)).2.1,
        log := v.log ++ [Event.xing ito v.fid (searchMode k.fridx k.di ito)
          (E.CalcXingPointWith (s.heap sp).body v.hel v.xx v.fid
            (searchMode k.fridx k.di ito) (some k.eps)).1] ++ [Event.skip ito true] } := by
  simp only [transportBody, hsp, ne_eq, h0, not_false_eq_true, if_true, hfar]

/-- A visit whose crossing passes the far-side test is an accepted step. -/
theorem transportBody_accept (E : Ext R n α Track RK) (s : CradleState α) (k : HelConsts R)
    (ito : Int) (v : HelVars R n Track) (sp mp : Ptr) (hsp : s.cradle.At ito = some sp)
    (hmp : s.cradle.At v.ifr = some mp)
    (h0 : (E.CalcXingPointWith (s.heap sp).body v.hel v.xx v.fid (searchMode k.fridx k.di ito)
      (some k.eps)).1 ≠ 0)
    (hfar : ¬ farSide E k (E.CalcXingPointWith (s.heap sp).body v.hel v.xx v.fid
      (searchMode k.fridx k.di ito) (some k.eps)).2.1) :
    transportBody E s k ito v = .ok
      (helAccept E s.cradle k ito (s.heap mp).body
        (E.CalcXingPointWith (s.heap sp).body v.hel v.xx v.fid
          (searchMode k.fridx k.di ito) (some k.eps)).2.1
        (E.CalcXingPointWith (s.heap sp).body v.hel v.xx v.fid
          (searchMode k.fridx k.di ito) (some k.eps)).2.2
        (v.log ++ [Event.xing ito v.fid (searchMode k.fridx k.di ito)
          (E.CalcXingPointWith (s.heap sp).body v.hel v.xx v.fid
            (searchMode k.fridx k.di ito) (some k.eps)).1]) v) := by
  simp only [transportBody, hsp, hmp, ne_eq, h0, not_false_eq_true, if_true, hfar, if_false]

/-- The loop of `Transport` returns when both indices are slots of the array, and
what it returns satisfies every property that holds at the start and that a
skipped visit and an accepted step keep. -/
theorem transport_loop (E : Ext R n α Track RK) (s : CradleState α) (k : HelConsts R)
    (I : HelVars R n Track → Prop)
    (hdi : k.di = if k.fridx > k.toidx then -1 else 1)
    (hfr : 0 ≤ k.fridx ∧ k.fridx < s.cradle.fCont.length)
    (hto : 0 ≤ k.toidx ∧ k.toidx < s.cradle.fCont.length)
    (hskip : ∀ (v : HelVars R n Track) (ito : Int) (xx : TVector3 R) (mode ret : Int)
      (far : Bool), I v →
      I { v with xx := xx, log := v.log ++ [Event.xing ito v.fid mode ret] ++
            [Event.skip ito far] })
    (hacc : ∀ (v : HelVars R n Track) (ito : Int) (ml : α) (xx : TVector3 R) (fid : R)
      (mode ret : Int), I v →
      I (helAccept E s.cradle k ito ml xx fid (v.log ++ [Event.xing ito v.fid mode ret]) v))
    (v0 : HelVars R n Track) (h0 : I v0) (hifr : v0.ifr = k.fridx) :
    ∃ v, forLoop (transportBody E s k) k.di k.toidx ((k.toidx - k.fridx).natAbs + 1)
      k.fridx v0 = .ok v ∧ I v := by
  have hdi2 : k.di = 1 ∨ k.di = -1 := by
    rw [hdi]; split <;> simp
  have key := forLoop_spec (transportBody E s k) k.di k.toidx
    (fun ito v => ((k.di = 1 → k.fridx ≤ ito) ∧ (k.di = -1 → ito ≤ k.fridx)) ∧
      (0 ≤ v.ifr ∧ v.ifr < s.cradle.fCont.length) ∧ I v) hdi2
    (by
      rintro ito v ⟨⟨hup, hdown⟩, ⟨hi0, hi1⟩, hI⟩ hc
      have hito : 0 ≤ ito ∧ ito < s.cradle.fCont.length := by
        unfold loopCond at hc
        rcases hdi2 with h | h
        · have := hup h; omega
        · have := hdown h; omega
      obtain ⟨sp, hsp⟩ := At_isSome s.cradle ito hito.1 hito.2
      obtain ⟨mp, hmp⟩ := At_isSome s.cradle v.ifr hi0 hi1
      have hnext : (k.di = 1 → k.fridx ≤ ito + k.di) ∧ (k.di = -1 → ito + k.di ≤ k.fridx) := by
        constructor <;> intro h
        · have := hup h; omega
        · have := hdown h; omega
      by_cases hx : (E.CalcXingPointWith (s.heap sp).body v.hel v.xx v.fid
          (searchMode k.fridx k.di ito) (some k.eps)).1 = 0
      · exact ⟨_, transportBody_noXing E s k ito v sp hsp hx, hnext, ⟨hi0, hi1⟩,
          hskip v ito _ _ _ false hI⟩
      · by_cases hfar : farSide E k (E.CalcXingPointWith (s.heap sp).body v.hel v.xx v.fid
            (searchMode k.fridx k.di ito) (some k.eps)).2.1
        · exact ⟨_, transportBody_far E s k ito v sp hsp hx hfar, hnext, ⟨hi0, hi1⟩,
            hskip v ito _ _ _ true hI⟩
        · refine ⟨_, transportBody_accept E s k ito v sp mp hsp hmp hx hfar, hnext, ?_,
            hacc v ito _ _ _ _ _ hI⟩
          obtain ⟨_, _, _, _, _, hifr1, _⟩ := helAccept_spec E s.cradle k ito (s.heap mp).body
            (E.CalcXingPointWith (s.heap sp).body v.hel v.xx v.fid
              (searchMode k.fridx k.di ito) (some k.eps)).2.1
            (E.CalcXingPointWith (s.heap sp).body v.hel v.xx v.fid
              (searchMode k.fridx k.di ito) (some k.eps)).2.2
            (v.log ++ [Event.xing ito v.fid (searchMode k.fridx k.di ito)
              (E.CalcXingPointWith (s.heap sp).body v.hel v.xx v.fid
                (searchMode k.fridx k.di ito) (some k.eps)).1]) v
          rw [hifr1]
          exact hito)
    ((k.toidx - k.fridx).natAbs + 1) k.fridx v0
    ⟨⟨fun _ => le_refl _, fun _ => le_refl _⟩, by rw [hifr]; exact hfr, h0⟩
    (by
      intro _
      rcases hdi2 with h | h <;> rw [h] <;> omega)
  obtain ⟨_, v, hrun, ⟨_, _, hI⟩, _⟩ := key
  exact ⟨v, hrun, hI⟩

/-- What a step of `Transport2` does to `F`, `Q`, the remembered layer, the track
pointer and the record of accepted steps. -/
theorem rkAccept_spec (E : Ext R n α Track RK) (c : TKalDetCradle) (fridx di ito : Int)
    (ml : α) (rk : RK) (xx xing : TVector3 R) (fid step : R) (log1 : List (Event R n))
    (v : RKVars R n Track RK) :
    ∃ DF Qms : TKalMatrix R n n,
      acceptedSteps (rkAccept E c fridx di ito ml rk xx xing fid step log1 v).log =
        acceptedSteps log1 ++ [(DF, Qms)] ∧
      (rkAccept E c fridx di ito ml rk xx xing fid step log1 v).F = DF * v.F ∧
      (rkAccept E c fridx di ito ml rk xx xing fid step log1 v).Q =
        DF * (v.Q + Qms) * DF.transpose ∧
      (rkAccept E c fridx di ito ml rk xx xing fid step log1 v).ifr = ito ∧
      (rkAccept E c fridx di ito ml rk xx xing fid step log1 v).trackPtr ≠ TrackRef.null ∧
      ((c.IsMSOn && decide (ito ≠ fridx)) = false → Qms = 0) := by
  refine ⟨fixT0 (if ito = fridx then (E.MoveTo v.hel xing fid v.DF (some false)).2.2
      else (E.RKMoveTo rk xing step v.DF).2.2),
    if (c.IsMSOn && decide (ito ≠ fridx)) = true then
      E.CalcQms ml (decide (di > 0)) v.hel fid 0 else 0,
    ?_, rfl, rfl, rfl, ?_, ?_⟩
  · cases hm : (c.IsMSOn && decide (ito ≠ fridx)) <;>
      cases hd : (c.IsDEDXOn && decide (ito ≠ fridx)) <;>
      simp only [rkAccept, hm, hd] <;>
      simp [acceptedSteps_append, acceptedSteps]
  · simp only [rkAccept]
    split <;> simp
  · intro h
    rw [h]
    simp

/-- The body of the loop of `Transport2` returns when both slots it reads exist. -/
theorem transport2Body_ok (E : Ext R n α Track RK) (s : CradleState α) (fridx di ito : Int)
    (v : RKVars R n Track RK) (sp mp : Ptr) (hsp : s.cradle.At ito = some sp)
    (hmp : s.cradle.At v.ifr = some mp) :
    ∃ (rk : RK) (xx xing : TVector3 R) (fid step : R) (ev : Event R n),
      ((∃ seed ret, ev = Event.xing ito seed (searchMode fridx di ito) ret) ∨
        (∃ st ret, ev = Event.xingRK ito st (searchMode fridx di ito) ret)) ∧
      transport2Body E s fridx di ito v = .ok
        (rkAccept E s.cradle fridx di ito (s.heap mp).body rk xx xing fid step
          (v.log ++ [ev]) v) := by
  by_cases h : ito = fridx
  · refine ⟨v.rk,
      (E.CalcXingPointWith (s.heap sp).body v.hel v.xx v.fid (searchMode fridx di ito) none).2.1,
      (E.CalcXingPointWith (s.heap sp).body v.hel v.xx v.fid (searchMode fridx di ito) none).2.1,
      (E.CalcXingPointWith (s.heap sp).body v.hel v.xx v.fid (searchMode fridx di ito) none).2.2,
      1 / 100,
      Event.xing ito v.fid (searchMode fridx di ito)
        (E.CalcXingPointWith (s.heap sp).body v.hel v.xx v.fid (searchMode fridx di ito) none).1,
      Or.inl ⟨_, _, rfl⟩, ?_⟩
    simp only [transport2Body, hsp, hmp, if_pos h]
  · refine ⟨E.SetFromTrack v.rk v.hel, v.xx,
      (E.CalcXingPointWithRK (s.heap sp).body (E.SetFromTrack v.rk v.hel) TVector3.zero
        (1 / 100) (searchMode fridx di ito)).2.1,
      v.fid,
      (E.CalcXingPointWithRK (s.heap sp).body (E.SetFromTrack v.rk v.hel) TVector3.zero
        (1 / 100) (searchMode fridx di ito)).2.2,
      Event.xingRK ito (1 / 100) (searchMode fridx di ito)
        (E.CalcXingPointWithRK (s.heap sp).body (E.SetFromTrack v.rk v.hel) TVector3.zero
          (1 / 100) (searchMode fridx di ito)).1,
      Or.inr ⟨_, _, rfl⟩, ?_⟩
    simp only [transport2Body, hsp, hmp, if_neg h]

/-- The loop of `Transport2` returns when both indices are slots of the array, with
the track pointer set, and what it returns satisfies every property that holds
at the start and that a step keeps. -/
theorem transport2_loop (E : Ext R n α Track RK) (s : CradleState α) (fridx toidx di : Int)
    (I : RKVars R n Track RK → Prop)
    (hdi : di = if fridx > toidx then -1 else 1)
    (hfr : 0 ≤ fridx ∧ fridx < s.cradle.fCont.length)
    (hto : 0 ≤ toidx ∧ toidx < s.cradle.fCont.length)
    (hacc : ∀ (v : RKVars R n Track RK) (ito : Int) (ml : α) (rk : RK) (xx xing : TVector3 R)
      (fid step : R) (ev : Event R n),
      ((∃ seed ret, ev = Event.xing ito seed (searchMode fridx di ito) ret) ∨
        (∃ st ret, ev = Event.xingRK ito st (searchMode fridx di ito) ret)) →
      I v → I (rkAccept E s.cradle fridx di ito ml rk xx xing fid step (v.log ++ [ev]) v))
    (v0 : RKVars R n Track RK) (h0 : I v0) (hifr : v0.ifr = fridx) :
    ∃ v, forLoop (transport2Body E s fridx di) di toidx ((toidx - fridx).natAbs + 1)
      fridx v0 = .ok v ∧ I v ∧ v.trackPtr ≠ TrackRef.null := by
  have hdi2 : di = 1 ∨ di = -1 := by
    rw [hdi]; split <;> simp
  have hc0 : loopCond di toidx fridx := by
    unfold loopCond
    rw [hdi]; split <;> omega
  have key := forLoop_spec (transport2Body E s fridx di) di toidx
    (fun ito v => ((di = 1 → fridx ≤ ito) ∧ (di = -1 → ito ≤ fridx)) ∧
      (0 ≤ v.ifr ∧ v.ifr < s.cradle.fCont.length) ∧ I v ∧
      (ito ≠ fridx → v.trackPtr ≠ TrackRef.null)) hdi2
    (by
      rintro ito v ⟨⟨hup, hdown⟩, ⟨hi0, hi1⟩, hI, _⟩ hc
      have hito : 0 ≤ ito ∧ ito < s.cradle.fCont.length := by
        unfold loopCond at hc
        rcases hdi2 with h | h
        · have := hup h; omega
        · have := hdown h; omega
      obtain ⟨sp, hsp⟩ := At_isSome s.cradle ito hito.1 hito.2
      obtain ⟨mp, hmp⟩ := At_isSome s.cradle v.ifr hi0 hi1
      have hnext : (di = 1 → fridx ≤ ito + di) ∧ (di = -1 → ito + di ≤ fridx) := by
        constructor <;> intro h
        · have := hup h; omega
        · have := hdown h; omega
      obtain ⟨rk, xx, xing, fid, step, ev, hev, hrun⟩ :=
        transport2Body_ok E s fridx di ito v sp mp hsp hmp
      obtain ⟨_, _, _, _, _, hifr1, hptr, _⟩ := rkAccept_spec E s.cradle fridx di ito
        (s.heap mp).body rk xx xing fid step (v.log ++ [ev]) v
      refine ⟨_, hrun, hnext, ?_, hacc v ito _ rk xx xing fid step ev hev hI, fun _ => hptr⟩
      rw [hifr1]
      exact hito)
    ((toidx - fridx).natAbs + 1) fridx v0
    ⟨⟨fun _ => le_refl _, fun _ => le_refl _⟩, by rw [hifr]; exact hfr, h0,
      fun h => absurd rfl h⟩
    (by
      intro _
      rcases hdi2 with h | h <;> rw [h] <;> omega)
  obtain ⟨ito1, v, hrun, ⟨_, _, hI, hptr⟩, hc1⟩ := key
  exact ⟨v, hrun, hI, hptr (fun h => hc1 (h ▸ hc0))⟩

end TransportLemmas

section TransportRuns

variable {R : Type} [LinearOrderedField R] {n : Nat} {α Track RK : Type}

theorem helConsts_di (E : Ext R n α Track RK) (uniformB : Bool) (s1 : CradleState α)
    (site : TKalTrackSite R) (ml_to : Ptr) (help : Track) :
    (helConsts E uniformB s1 site ml_to help).di =
      if (helConsts E uniformB s1 site ml_to help).fridx >
        (helConsts E uniformB s1 site ml_to help).toidx then -1 else 1 := rfl

/-- `Transport` returns when both indices are slots of the array; the variables
the loop ends with satisfy every property that holds at the start and that a
skipped visit and an accepted step keep. -/
theorem Transport_run (E : Ext R n α Track RK) (sort : Heap α → List Ptr → List Ptr)
    (uniformB : Bool) (s : CradleState α) (site : TKalTrackSite R) (ml_to : Ptr)
    (x0 : TVector3 R) (sv : TKalMatrix R n 1) (F Q : TKalMatrix R n n) (help : Track)
    (hrange : IndicesInRange sort s site.measLayer ml_to)
    (I : HelVars R n Track → Prop)
    (h0 : I { hel := help, xx := TVector3.zero, fid := 0, DF := 0, F := 1, Q := 0, sv := sv,
              ifr := (helConsts E uniformB (lazyUpdate sort s) site ml_to help).fridx,
              log := [] })
    (hskip : ∀ (v : HelVars R n Track) (ito : Int) (xx : TVector3 R) (mode ret : Int)
      (far : Bool), I v →
      I { v with xx := xx, log := v.log ++ [Event.xing ito v.fid mode ret] ++
            [Event.skip ito far] })
    (hacc : ∀ (v : HelVars R n Track) (ito : Int) (ml : α) (xx : TVector3 R) (fid : R)
      (mode ret : Int), I v →
      I (helAccept E (lazyUpdate sort s).cradle
        (helConsts E uniformB (lazyUpdate sort s) site ml_to help) ito ml xx fid
        (v.log ++ [Event.xing ito v.fid mode ret]) v)) :
    ∃ v : HelVars R n Track, I v ∧
      Transport E sort uniformB s site ml_to x0 sv F Q help = .ok
        { status := 0, state := lazyUpdate sort s, x0 := E.GetPivot v.hel,
          sv := E.PutInto v.hel v.sv, F := v.F, Q := v.Q, hel := v.hel, log := v.log } := by
  obtain ⟨hfr, hto⟩ := hrange
  obtain ⟨v, hrun, hI⟩ := transport_loop E (lazyUpdate sort s)
    (helConsts E uniformB (lazyUpdate sort s) site ml_to help) I
    (helConsts_di E uniformB _ site ml_to help) hfr hto hskip hacc _ h0 rfl
  refine ⟨v, hI, ?_⟩
  unfold Transport
  simp only [hrun]

/-- `Transport2` returns when both indices are slots of the array; the variables
the loop ends with satisfy every property that holds at the start and that a
step keeps. -/
theorem Transport2_run (E : Ext R n α Track RK) (sort : Heap α → List Ptr → List Ptr)
    (s : CradleState α) (site : TKalTrackSite R) (ml_to : Ptr)
    (x0 : TVector3 R) (sv : TKalMatrix R n 1) (F Q : TKalMatrix R n n) (help : Track)
    (hrange : IndicesInRange sort s site.measLayer ml_to)
    (I : RKVars R n Track RK → Prop)
    (h0 : I { hel := help, rk := E.rkNew, xx := TVector3.zero, fid := 0, DF := 0, F := 1,
              Q := 0, sv := sv, ifr := ((lazyUpdate sort s).heap site.measLayer).fIndex,
              trackPtr := TrackRef.null, log := [] })
    (hacc : ∀ (v : RKVars R n Track RK) (ito : Int) (ml : α) (rk : RK) (xx xing : TVector3 R)
      (fid step : R) (ev : Event R n),
      ((∃ seed ret, ev = Event.xing ito seed
          (searchMode ((lazyUpdate sort s).heap site.measLayer).fIndex
            (if ((lazyUpdate sort s).heap site.measLayer).fIndex >
              ((lazyUpdate sort s).heap ml_to).fIndex then -1 else 1) ito) ret) ∨
        (∃ st ret, ev = Event.xingRK ito st
          (searchMode ((lazyUpdate sort s).heap site.measLayer).fIndex
            (if ((lazyUpdate sort s).heap site.measLayer).fIndex >
              ((lazyUpdate sort s).heap ml_to).fIndex then -1 else 1) ito) ret)) →
      I v → I (rkAccept E (lazyUpdate sort s).cradle
        ((lazyUpdate sort s).heap site.measLayer).fIndex
        (if ((lazyUpdate sort s).heap site.measLayer).fIndex >
          ((lazyUpdate sort s).heap ml_to).fIndex then -1 else 1)
        ito ml rk xx xing fid step (v.log ++ [ev]) v)) :
    ∃ (v : RKVars R n Track RK) (x1 : TVector3 R) (sv1 : TKalMatrix R n 1), I v ∧
      ((v.trackPtr = TrackRef.hel ∧ x1 = E.GetPivot v.hel ∧ sv1 = E.PutInto v.hel v.sv) ∨
        (v.trackPtr = TrackRef.rk ∧ x1 = E.RKGetPivot v.rk ∧ sv1 = E.RKPutInto v.rk v.sv)) ∧
      Transport2 E sort s site ml_to x0 sv F Q help = .ok
        { status := 0, state := lazyUpdate sort s, x0 := x1, sv := sv1, F := v.F, Q := v.Q,
          hel := v.hel, log := v.log } := by
  obtain ⟨hfr, hto⟩ := hrange
  obtain ⟨v, hrun, hI, hptr⟩ := transport2_loop E (lazyUpdate sort s)
    ((lazyUpdate sort s).heap site.measLayer).fIndex ((lazyUpdate sort s).heap ml_to).fIndex
    (if ((lazyUpdate sort s).heap site.measLayer).fIndex >
      ((lazyUpdate sort s).heap ml_to).fIndex then -1 else 1) I rfl hfr hto hacc _ h0 rfl
  cases hp : v.trackPtr with
  | null => exact absurd hp hptr
  | hel =>
    refine ⟨v, E.GetPivot v.hel, E.PutInto v.hel v.sv, hI, Or.inl ⟨hp, rfl, rfl⟩, ?_⟩
    unfold Transport2
    simp only [hrun, hp]
  | rk =>
    refine ⟨v, E.RKGetPivot v.rk, E.RKPutInto v.rk v.sv, hI, Or.inr ⟨hp, rfl, rfl⟩, ?_⟩
    unfold Transport2
    simp only [hrun, hp]

theorem orderedProduct_snoc (l : List (TKalMatrix R n n)) (DF : TKalMatrix R n n) :
    orderedProduct (l ++ [DF]) = DF * orderedProduct l := by
  simp [orderedProduct, List.reverse_append]

theorem foldNoise_snoc (Q0 : TKalMatrix R n n)
    (l : List (TKalMatrix R n n × TKalMatrix R n n)) (DF Qms : TKalMatrix R n n) :
    foldNoise Q0 (l ++ [(DF, Qms)]) = DF * (foldNoise Q0 l + Qms) * DF.transpose := by
  simp [foldNoise, List.foldl_append]

/-- The Jacobian and the noise `Transport` returns, in terms of its accepted steps. -/
theorem Transport_FQ (E : Ext R n α Track RK) (sort : Heap α → List Ptr → List Ptr)
    (uniformB : Bool) (s : CradleState α) (site : TKalTrackSite R) (ml_to : Ptr)
    (x0 : TVector3 R) (sv : TKalMatrix R n 1) (F Q : TKalMatrix R n n) (help : Track)
    (hrange : IndicesInRange sort s site.measLayer ml_to) :
    ∃ r, Transport E sort uniformB s site ml_to x0 sv F Q help = .ok r ∧
      r.status = 0 ∧
      r.F = orderedProduct ((acceptedSteps r.log).map Prod.fst) ∧
      r.Q = foldNoise 0 (acceptedSteps r.log) := by
  obtain ⟨v, ⟨hF, hQ⟩, hrun⟩ := Transport_run E sort uniformB s site ml_to x0 sv F Q help hrange
    (fun v => v.F = orderedProduct ((acceptedSteps v.log).map Prod.fst) ∧
      v.Q = foldNoise 0 (acceptedSteps v.log))
    ⟨by simp [acceptedSteps, orderedProduct], by simp [acceptedSteps, foldNoise]⟩
    (by
      rintro v ito xx mode ret far ⟨hF, hQ⟩
      simp only [acceptedSteps_append, acceptedSteps, List.append_nil]
      exact ⟨hF, hQ⟩)
    (by
      rintro v ito ml xx fid mode ret ⟨hF, hQ⟩
      obtain ⟨DF, Qms, hlog, hF1, hQ1, _⟩ := helAccept_spec E (lazyUpdate sort s).cradle
        (helConsts E uniformB (lazyUpdate sort s) site ml_to help) ito ml xx fid
        (v.log ++ [Event.xing ito v.fid mode ret]) v
      rw [hlog, hF1, hQ1, hF, hQ]
      simp only [acceptedSteps_append, acceptedSteps, List.append_nil, List.map_append,
        List.map_cons, List.map_nil, orderedProduct_snoc, foldNoise_snoc, and_self])
  exact ⟨_, hrun, rfl, hF, hQ⟩

/-- The Jacobian and the noise `Transport2` returns, in terms of its steps. -/
theorem Transport2_FQ (E : Ext R n α Track RK) (sort : Heap α → List Ptr → List Ptr)
    (s : CradleState α) (site : TKalTrackSite R) (ml_to : Ptr)
    (x0 : TVector3 R) (sv : TKalMatrix R n 1) (F Q : TKalMatrix R n n) (help : Track)
    (hrange : IndicesInRange sort s site.measLayer ml_to) :
    ∃ r, Transport2 E sort s site ml_to x0 sv F Q help = .ok r ∧
      r.status = 0 ∧
      r.F = orderedProduct ((acceptedSteps r.log).map Prod.fst) ∧
      r.Q = foldNoise 0 (acceptedSteps r.log) := by
  obtain ⟨v, x1, sv1, ⟨hF, hQ⟩, _, hrun⟩ := Transport2_run E sort s site ml_to x0 sv F Q help
    hrange
    (fun v => v.F = orderedProduct ((acceptedSteps v.log).map Prod.fst) ∧
      v.Q = foldNoise 0 (acceptedSteps v.log))
    ⟨by simp [acceptedSteps, orderedProduct], by simp [acceptedSteps, foldNoise]⟩
    (by
      rintro v ito ml rk xx xing fid step ev hev ⟨hF, hQ⟩
      obtain ⟨DF, Qms, hlog, hF1, hQ1, _⟩ := rkAccept_spec E (lazyUpdate sort s).cradle
        ((lazyUpdate sort s).heap site.measLayer).fIndex
        (if ((lazyUpdate sort s).heap site.measLayer).fIndex >
          ((lazyUpdate sort s).heap ml_to).fIndex then -1 else 1)
        ito ml rk xx xing fid step (v.log ++ [ev]) v
      have hev0 : acceptedSteps [ev] = [] := by
        rcases hev with ⟨_, _, h⟩ | ⟨_, _, h⟩ <;> rw [h] <;> rfl
      rw [hlog, hF1, hQ1, hF, hQ]
      simp only [acceptedSteps_append, hev0, List.append_nil, List.map_append,
        List.map_cons, List.map_nil, orderedProduct_snoc, foldNoise_snoc, and_self])
  exact ⟨_, hrun, rfl, hF, hQ⟩

/-- Every Jacobian segment in the record of a helical `Transport` is what a call of
`MoveTo` left in `DF`, after the statement `if (sdim == 6) DF(5, 5) = 1.;`. -/
theorem Transport_segments (E : Ext R n α Track RK) (sort : Heap α → List Ptr → List Ptr)
    (uniformB : Bool) (s : CradleState α) (site : TKalTrackSite R) (ml_to : Ptr)
    (x0 : TVector3 R) (sv : TKalMatrix R n 1) (F Q : TKalMatrix R n n) (help : Track)
    (hrange : IndicesInRange sort s site.measLayer ml_to) :
    ∃ r, Transport E sort uniformB s site ml_to x0 sv F Q help = .ok r ∧
      ∀ st ∈ acceptedSteps r.log, ∃ (hel : Track) (xx : TVector3 R) (fid : R)
        (DF0 : TKalMatrix R n n), st.1 = fixT0 (E.MoveTo hel xx fid DF0 none).2.2 := by
  obtain ⟨v, hI, hrun⟩ := Transport_run E sort uniformB s site ml_to x0 sv F Q help hrange
    (fun v => ∀ st ∈ acceptedSteps v.log, ∃ (hel : Track) (xx : TVector3 R) (fid : R)
        (DF0 : TKalMatrix R n n), st.1 = fixT0 (E.MoveTo hel xx fid DF0 none).2.2)
    (by simp [acceptedSteps])
    (by
      intro v ito xx mode ret far hI
      simpa only [acceptedSteps_append, acceptedSteps, List.append_nil] using hI)
    (by
      intro v ito ml xx fid mode ret hI st hst
      have hlog : acceptedSteps (helAccept E (lazyUpdate sort s).cradle
          (helConsts E uniformB (lazyUpdate sort s) site ml_to help) ito ml xx fid
          (v.log ++ [Event.xing ito v.fid mode ret]) v).log =
          acceptedSteps v.log ++ [(fixT0 (E.MoveTo v.hel xx fid v.DF none).2.2,
            if ((lazyUpdate sort s).cradle.IsMSOn && decide (ito ≠
              (helConsts E uniformB (lazyUpdate sort s) site ml_to help).fridx)) = true
            then E.CalcQms ml (helConsts E uniformB (lazyUpdate sort s) site ml_to help).isout
              v.hel fid 0 else 0)] := by
        cases hm : ((lazyUpdate sort s).cradle.IsMSOn && decide (ito ≠
            (helConsts E uniformB (lazyUpdate sort s) site ml_to help).fridx)) <;>
          cases hd : ((lazyUpdate sort s).cradle.IsDEDXOn && decide (ito ≠
            (helConsts E uniformB (lazyUpdate sort s) site ml_to help).fridx)) <;>
          simp only [helAccept, hm, hd] <;>
          simp [acceptedSteps_append, acceptedSteps]
      rw [hlog, List.mem_append, List.mem_singleton] at hst
      rcases hst with hst | hst
      · exact hI st hst
      · exact ⟨v.hel, xx, fid, v.DF, by rw [hst]⟩)
  exact ⟨_, hrun, hI⟩

end TransportRuns

section Claims

variable {R : Type} [LinearOrderedField R] {n : Nat} {α Track RK : Type}

/-- A run that passes a check returns a result that satisfies what was checked. -/
theorem exists_of_check {ε β : Type} {x : Except ε β} {P : β → Prop} [DecidablePred P]
    (h : x.toOption.map (fun r => decide (P r)) = some true) : ∃ r, x = .ok r ∧ P r := by
  cases x with
  | error e => simp [Except.toOption] at h
  | ok r =>
    refine ⟨r, rfl, ?_⟩
    simpa [Except.toOption] using h

/-- C1. Helical site-to-layer `Transport`, called with both indices in the array:
it returns, and whatever `F` held on entry the returned `F` is the ordered product
`DF_n * ... * DF_2 * DF_1` of the Jacobian segments of the accepted steps in
visiting order, the latest leftmost (the identity when no step was accepted).  A
step's segment is the matrix `MoveTo` left in `DF`, with entry (5,5) set to 1 when
there are six track parameters. -/
theorem Transport_F_ordered_product (E : Ext R n α Track RK)
    (sort : Heap α → List Ptr → List Ptr) (uniformB : Bool) (s : CradleState α)
    (site : TKalTrackSite R) (ml_to : Ptr) (x0 : TVector3 R) (sv : TKalMatrix R n 1)
    (F Q : TKalMatrix R n n) (help : Track)
    (hrange : IndicesInRange sort s site.measLayer ml_to) :
    ∃ r, Transport E sort uniformB s site ml_to x0 sv F Q help = .ok r ∧
      r.F = orderedProduct ((acceptedSteps r.log).map Prod.fst) ∧
      (acceptedSteps r.log = [] → r.F = 1) ∧
      (∀ st ∈ acceptedSteps r.log, ∃ (hel : Track) (xx : TVector3 R) (fid : R)
        (DF0 : TKalMatrix R n n), st.1 = fixT0 (E.MoveTo hel xx fid DF0 none).2.2) ∧
      ∀ F1 : TKalMatrix R n n,
        Transport E sort uniformB s site ml_to x0 sv F1 Q help = .ok r := by
  obtain ⟨r, hrun, _, hF, _⟩ := Transport_FQ E sort uniformB s site ml_to x0 sv F Q help hrange
  obtain ⟨r1, hrun1, hseg⟩ := Transport_segments E sort uniformB s site ml_to x0 sv F Q help
    hrange
  have hr : r1 = r := by
    rw [hrun] at hrun1
    injection hrun1 with h
    exact h.symm
  subst hr
  refine ⟨r1, hrun, hF, ?_, hseg, fun _ => hrun⟩
  intro h
  rw [hF, h]
  simp [orderedProduct]

theorem Transport_F_ordered_product_witness :
    IndicesInRange Bench.stableSort Bench.state Bench.site.measLayer 12 ∧
    ∃ r, Transport Bench.ext Bench.stableSort true Bench.state Bench.site 12 ⟨0, 0, 0⟩
        Bench.sv0 Bench.stale Bench.stale Bench.track = .ok r ∧
      r.F = orderedProduct ((acceptedSteps r.log).map Prod.fst) ∧
      (acceptedSteps r.log = [] → r.F = 1) ∧
      (∀ st ∈ acceptedSteps r.log, ∃ (hel : Bench.Track) (xx : TVector3 ℚ) (fid : ℚ)
        (DF0 : TKalMatrix ℚ 3 3), st.1 = fixT0 (Bench.ext.MoveTo hel xx fid DF0 none).2.2) ∧
      ∀ F1 : TKalMatrix ℚ 3 3,
        Transport Bench.ext Bench.stableSort true Bench.state Bench.site 12 ⟨0, 0, 0⟩
          Bench.sv0 F1 Bench.stale Bench.track = .ok r :=
  ⟨by decide, Transport_F_ordered_product Bench.ext Bench.stableSort true Bench.state
    Bench.site 12 ⟨0, 0, 0⟩ Bench.sv0 Bench.stale Bench.stale Bench.track (by decide)⟩

/-- C2. Both site-to-layer transports (`Transport` and `Transport2`), called with
both indices in the array, return, and whatever `Q` held on entry the returned `Q`
is the recurrence `Q <- DF * (Q + Qms) * DF^T` folded over the accepted steps in
visiting order, starting from the zero matrix. -/
theorem Transport_Q_fold (E : Ext R n α Track RK)
    (sort : Heap α → List Ptr → List Ptr) (uniformB : Bool) (s : CradleState α)
    (site : TKalTrackSite R) (ml_to : Ptr) (x0 : TVector3 R) (sv : TKalMatrix R n 1)
    (F Q : TKalMatrix R n n) (help : Track)
    (hrange : IndicesInRange sort s site.measLayer ml_to) :
    (∃ r, Transport E sort uniformB s site ml_to x0 sv F Q help = .ok r ∧
      r.Q = foldNoise 0 (acceptedSteps r.log) ∧
      ∀ Q1 : TKalMatrix R n n,
        Transport E sort uniformB s site ml_to x0 sv F Q1 help = .ok r) ∧
    (∃ r, Transport2 E sort s site ml_to x0 sv F Q help = .ok r ∧
      r.Q = foldNoise 0 (acceptedSteps r.log) ∧
      ∀ Q1 : TKalMatrix R n n, Transport2 E sort s site ml_to x0 sv F Q1 help = .ok r) := by
  obtain ⟨r, hrun, _, _, hQ⟩ := Transport_FQ E sort uniformB s site ml_to x0 sv F Q help hrange
  obtain ⟨r2, hrun2, _, _, hQ2⟩ := Transport2_FQ E sort s site ml_to x0 sv F Q help hrange
  exact ⟨⟨r, hrun, hQ, fun _ => hrun⟩, ⟨r2, hrun2, hQ2, fun _ => hrun2⟩⟩

theorem Transport_Q_fold_witness :
    IndicesInRange Bench.stableSort Bench.state Bench.site.measLayer 12 ∧
    ((∃ r, Transport Bench.ext Bench.stableSort true Bench.state Bench.site 12 ⟨0, 0, 0⟩
        Bench.sv0 Bench.stale Bench.stale Bench.track = .ok r ∧
      r.Q = foldNoise 0 (acceptedSteps r.log) ∧
      ∀ Q1 : TKalMatrix ℚ 3 3,
        Transport Bench.ext Bench.stableSort true Bench.state Bench.site 12 ⟨0, 0, 0⟩
          Bench.sv0 Bench.stale Q1 Bench.track = .ok r) ∧
    (∃ r, Transport2 Bench.ext Bench.stableSort Bench.state Bench.site 12 ⟨0, 0, 0⟩
        Bench.sv0 Bench.stale Bench.stale Bench.track = .ok r ∧
      r.Q = foldNoise 0 (acceptedSteps r.log) ∧
      ∀ Q1 : TKalMatrix ℚ 3 3,
        Transport2 Bench.ext Bench.stableSort Bench.state Bench.site 12 ⟨0, 0, 0⟩
          Bench.sv0 Bench.stale Q1 Bench.track = .ok r)) :=
  ⟨by decide, Transport_Q_fold Bench.ext Bench.stableSort true Bench.state
    Bench.site 12 ⟨0, 0, 0⟩ Bench.sv0 Bench.stale Bench.stale Bench.track (by decide)⟩

/-- C3, as stated, fails.  On the bench, the helical transport from the layer in
slot 0 to the layer in slot 1, entered with `Q = 0`, makes exactly two accepted
steps, `(DF1, Qms1) = (drift 1, 0)` and `(DF2, Qms2) = (drift 1, qms)`, and the `Q`
it returns is not `DF2 (DF1 Q0 DF1^T + Qms1) DF2^T + Qms2` with `Q0 = 0`. -/
theorem Transport_two_step_noise_counterexample :
    ∃ r, Transport Bench.ext Bench.stableSort true Bench.state Bench.site 11 ⟨0, 0, 0⟩
        Bench.sv0 1 0 Bench.track = .ok r ∧
      (acceptedSteps r.log = [(Bench.drift 1, 0), (Bench.drift 1, Bench.qms)] ∧
        r.Q ≠ Bench.drift 1 * (Bench.drift 1 * 0 * (Bench.drift 1).transpose + 0) *
          (Bench.drift 1).transpose + Bench.qms) :=
  exists_of_check (by decide!)

/-- C3, amended.  Both transports, called with both indices in the array, return,
and when the run made exactly two accepted steps, with Jacobian segments `DF1`,
`DF2` and scattering contributions `Qms1`, `Qms2`, the returned `Q` is
`DF2 (DF1 (Q0 + Qms1) DF1^T + Qms2) DF2^T` with `Q0` the zero matrix the transport
starts from: each contribution is added before the Jacobian of its own step is
applied, and the noise held on entry is dropped. -/
theorem Transport_two_step_noise (E : Ext R n α Track RK)
    (sort : Heap α → List Ptr → List Ptr) (uniformB : Bool) (s : CradleState α)
    (site : TKalTrackSite R) (ml_to : Ptr) (x0 : TVector3 R) (sv : TKalMatrix R n 1)
    (F Q : TKalMatrix R n n) (help : Track)
    (hrange : IndicesInRange sort s site.measLayer ml_to) :
    (∃ r, Transport E sort uniformB s site ml_to x0 sv F Q help = .ok r ∧
      ∀ DF1 Qms1 DF2 Qms2 : TKalMatrix R n n,
        acceptedSteps r.log = [(DF1, Qms1), (DF2, Qms2)] →
        r.Q = DF2 * (DF1 * (0 + Qms1) * DF1.transpose + Qms2) * DF2.transpose) ∧
    (∃ r, Transport2 E sort s site ml_to x0 sv F Q help = .ok r ∧
      ∀ DF1 Qms1 DF2 Qms2 : TKalMatrix R n n,
        acceptedSteps r.log = [(DF1, Qms1), (DF2, Qms2)] →
        r.Q = DF2 * (DF1 * (0 + Qms1) * DF1.transpose + Qms2) * DF2.transpose) := by
  obtain ⟨r, hrun, _, _, hQ⟩ := Transport_FQ E sort uniformB s site ml_to x0 sv F Q help hrange
  obtain ⟨r2, hrun2, _, _, hQ2⟩ := Transport2_FQ E sort s site ml_to x0 sv F Q help hrange
  refine ⟨⟨r, hrun, ?_⟩, ⟨r2, hrun2, ?_⟩⟩
  · intro DF1 Qms1 DF2 Qms2 h
    rw [hQ, h]
    rfl
  · intro DF1 Qms1 DF2 Qms2 h
    rw [hQ2, h]
    rfl

theorem Transport_two_step_noise_witness :
    IndicesInRange Bench.stableSort Bench.state Bench.site.measLayer 11 ∧
    ((∃ r, Transport Bench.ext Bench.stableSort true Bench.state Bench.site 11 ⟨0, 0, 0⟩
        Bench.sv0 Bench.stale Bench.stale Bench.track = .ok r ∧
      ∀ DF1 Qms1 DF2 Qms2 : TKalMatrix ℚ 3 3,
        acceptedSteps r.log = [(DF1, Qms1), (DF2, Qms2)] →
        r.Q = DF2 * (DF1 * (0 + Qms1) * DF1.transpose + Qms2) * DF2.transpose) ∧
    (∃ r, Transport2 Bench.ext Bench.stableSort Bench.state Bench.site 11 ⟨0, 0, 0⟩
        Bench.sv0 Bench.stale Bench.stale Bench.track = .ok r ∧
      ∀ DF1 Qms1 DF2 Qms2 : TKalMatrix ℚ 3 3,
        acceptedSteps r.log = [(DF1, Qms1), (DF2, Qms2)] →
        r.Q = DF2 * (DF1 * (0 + Qms1) * DF1.transpose + Qms2) * DF2.transpose)) :=
  ⟨by decide, Transport_two_step_noise Bench.ext Bench.stableSort true Bench.state
    Bench.site 11 ⟨0, 0, 0⟩ Bench.sv0 Bench.stale Bench.stale Bench.track (by decide)⟩

theorem lazyUpdate_flags (sort : Heap α → List Ptr → List Ptr) (s : CradleState α) :
    (lazyUpdate sort s).cradle.fIsMSON = s.cradle.fIsMSON ∧
    (lazyUpdate sort s).cradle.fIsDEDXON = s.cradle.fIsDEDXON := by
  unfold lazyUpdate
  split <;> simp [Update]

/-- An accepted step of `Transport` with both toggles off. -/
theorem helAccept_off (E : Ext R n α Track RK) (c : TKalDetCradle) (k : HelConsts R)
    (ito : Int) (ml : α) (xx : TVector3 R) (fid : R) (log1 : List (Event R n))
    (v : HelVars R n Track) (hms : c.fIsMSON = false) (hde : c.fIsDEDXON = false) :
    helAccept E c k ito ml xx fid log1 v =
      { hel := (E.MoveTo v.hel xx fid v.DF none).1,
        xx := xx,
        fid := 0,
        DF := fixT0 (E.MoveTo v.hel xx fid v.DF none).2.2,
        F := fixT0 (E.MoveTo v.hel xx fid v.DF none).2.2 * v.F,
        Q := fixT0 (E.MoveTo v.hel xx fid v.DF none).2.2 * (v.Q + 0) *
          (fixT0 (E.MoveTo v.hel xx fid v.DF none).2.2).transpose,
        sv := v.sv,
        ifr := ito,
        log := log1 ++ [Event.step ito (fixT0 (E.MoveTo v.hel xx fid v.DF none).2.2) 0] } := by
  simp [helAccept, TKalDetCradle.IsMSOn, TKalDetCradle.IsDEDXOn, hms, hde]

/-- A step of `Transport2` with both toggles off. -/
theorem rkAccept_off (E : Ext R n α Track RK) (c : TKalDetCradle) (fridx di ito : Int)
    (ml : α) (rk : RK) (xx xing : TVector3 R) (fid step : R) (log1 : List (Event R n))
    (v : RKVars R n Track RK) (hms : c.fIsMSON = false) (hde : c.fIsDEDXON = false) :
    rkAccept E c fridx di ito ml rk xx xing fid step log1 v =
      { hel := if ito = fridx then (E.MoveTo v.hel xing fid v.DF (some false)).1
          else E.SetToTrack (E.RKMoveTo rk xing step v.DF).1 v.hel,
        rk := if ito = fridx then rk else (E.RKMoveTo rk xing step v.DF).1,
        xx := xx,
        fid := if ito = fridx then (E.MoveTo v.hel xing fid v.DF (some false)).2.1 else fid,
        DF := fixT0 (if ito = fridx then (E.MoveTo v.hel xing fid v.DF (some false)).2.2
          else (E.RKMoveTo rk xing step v.DF).2.2),
        F := fixT0 (if ito = fridx then (E.MoveTo v.hel xing fid v.DF (some false)).2.2
          else (E.RKMoveTo rk xing step v.DF).2.2) * v.F,
        Q := fixT0 (if ito = fridx then (E.MoveTo v.hel xing fid v.DF (some false)).2.2
            else (E.RKMoveTo rk xing step v.DF).2.2) * (v.Q + 0) *
          (fixT0 (if ito = fridx then (E.MoveTo v.hel xing fid v.DF (some false)).2.2
            else (E.RKMoveTo rk xing step v.DF).2.2)).transpose,
        sv := v.sv,
        ifr := ito,
        trackPtr := if ito = fridx then TrackRef.hel else TrackRef.rk,
        log := log1 ++ [Event.step ito
          (fixT0 (if ito = fridx then (E.MoveTo v.hel xing fid v.DF (some false)).2.2
            else (E.RKMoveTo rk xing step v.DF).2.2)) 0] } := by
  simp [rkAccept, TKalDetCradle.IsMSOn, TKalDetCradle.IsDEDXOn, hms, hde]

/-- With both toggles off `Transport` does not depend on the material model nor
on `SetTo`. -/
theorem Transport_off_indep (E : Ext R n α Track RK)
    (sort : Heap α → List Ptr → List Ptr) (uniformB : Bool) (s : CradleState α)
    (site : TKalTrackSite R) (ml_to : Ptr) (x0 : TVector3 R) (sv : TKalMatrix R n 1)
    (F Q : TKalMatrix R n n) (help : Track)
    (f : α → Bool → Track → R → TKalMatrix R n n → TKalMatrix R n n)
    (g : α → Bool → Track → R → R) (h : Track → TKalMatrix R n 1 → TVector3 R → Track)
    (hms : s.cradle.fIsMSON = false) (hde : s.cradle.fIsDEDXON = false) :
    Transport { E with CalcQms := f, GetEnergyLoss := g, SetTo := h } sort uniformB s site
      ml_to x0 sv F Q help = Transport E sort uniformB s site ml_to x0 sv F Q help := by
  have hms1 := (lazyUpdate_flags sort s).1.trans hms
  have hde1 := (lazyUpdate_flags sort s).2.trans hde
  have hb : ∀ k, transportBody { E with CalcQms := f, GetEnergyLoss := g, SetTo := h }
      (lazyUpdate sort s) k = transportBody E (lazyUpdate sort s) k := by
    intro k
    funext ito v
    simp only [transportBody, helAccept_off _ _ _ _ _ _ _ _ _ hms1 hde1]
    rfl
  have hk : helConsts { E with CalcQms := f, GetEnergyLoss := g, SetTo := h } uniformB
      (lazyUpdate sort s) site ml_to help =
      helConsts E uniformB (lazyUpdate sort s) site ml_to help := rfl
  unfold Transport
  simp only [hk, hb]

/-- With both toggles off `Transport2` does not depend on the material model nor
on `SetTo`. -/
theorem Transport2_off_indep (E : Ext R n α Track RK)
    (sort : Heap α → List Ptr → List Ptr) (s : CradleState α)
    (site : TKalTrackSite R) (ml_to : Ptr) (x0 : TVector3 R) (sv : TKalMatrix R n 1)
    (F Q : TKalMatrix R n n) (help : Track)
    (f : α → Bool → Track → R → TKalMatrix R n n → TKalMatrix R n n)
    (g : α → Bool → Track → R → R) (h : Track → TKalMatrix R n 1 → TVector3 R → Track)
    (hms : s.cradle.fIsMSON = false) (hde : s.cradle.fIsDEDXON = false) :
    Transport2 { E with CalcQms := f, GetEnergyLoss := g, SetTo := h } sort s site
      ml_to x0 sv F Q help = Transport2 E sort s site ml_to x0 sv F Q help := by
  have hms1 := (lazyUpdate_flags sort s).1.trans hms
  have hde1 := (lazyUpdate_flags sort s).2.trans hde
  have hb : ∀ fridx di, transport2Body { E with CalcQms := f, GetEnergyLoss := g, SetTo := h }
      (lazyUpdate sort s) fridx di = transport2Body E (lazyUpdate sort s) fridx di := by
    intro fridx di
    funext ito v
    simp only [transport2Body, rkAccept_off _ _ _ _ _ _ _ _ _ _ _ _ _ hms1 hde1]
  unfold Transport2
  simp only [hb]

/-- C4. With the multiple-scattering and the energy-loss toggles both off, each
site-to-layer transport (`Transport`, `Transport2`), called with both indices in
the array, returns with `Q` the zero matrix; its run holds no call of `CalcQms`
nor of `GetEnergyLoss` (so nothing was added to `sv(2,0)`); the result is the same
whatever `CalcQms`, `GetEnergyLoss` and `SetTo` are, so the track is what the
crossing searches and moves made of it; and the state vector returned is that
final track written over the state vector of entry. -/
theorem Transport_toggles_off (E : Ext R n α Track RK)
    (sort : Heap α → List Ptr → List Ptr) (uniformB : Bool) (s : CradleState α)
    (site : TKalTrackSite R) (ml_to : Ptr) (x0 : TVector3 R) (sv : TKalMatrix R n 1)
    (F Q : TKalMatrix R n n) (help : Track)
    (f : α → Bool → Track → R → TKalMatrix R n n → TKalMatrix R n n)
    (g : α → Bool → Track → R → R) (h : Track → TKalMatrix R n 1 → TVector3 R → Track)
    (hrange : IndicesInRange sort s site.measLayer ml_to)
    (hms : s.cradle.fIsMSON = false) (hde : s.cradle.fIsDEDXON = false) :
    (∃ r, Transport E sort uniformB s site ml_to x0 sv F Q help = .ok r ∧
      r.Q = 0 ∧ (∀ e ∈ r.log, materialCall e = false) ∧
      r.sv = E.PutInto r.hel sv ∧
      Transport { E with CalcQms := f, GetEnergyLoss := g, SetTo := h } sort uniformB s site
        ml_to x0 sv F Q help = .ok r) ∧
    (∃ r, Transport2 E sort s site ml_to x0 sv F Q help = .ok r ∧
      r.Q = 0 ∧ (∀ e ∈ r.log, materialCall e = false) ∧
      (r.sv = E.PutInto r.hel sv ∨ ∃ rk, r.sv = E.RKPutInto rk sv) ∧
      Transport2 { E with CalcQms := f, GetEnergyLoss := g, SetTo := h } sort s site
        ml_to x0 sv F Q help = .ok r) := by
  have hms1 := (lazyUpdate_flags sort s).1.trans hms
  have hde1 := (lazyUpdate_flags sort s).2.trans hde
  constructor
  · obtain ⟨v, ⟨hQ, hsv, hlog⟩, hrun⟩ := Transport_run E sort uniformB s site ml_to x0 sv F Q
      help hrange
      (fun v => v.Q = 0 ∧ v.sv = sv ∧ ∀ e ∈ v.log, materialCall e = false)
      ⟨rfl, rfl, by simp⟩
      (by
        rintro v ito xx mode ret far ⟨hQ, hsv, hlog⟩
        refine ⟨hQ, hsv, ?_⟩
        intro e he
        simp only [List.mem_append, List.mem_singleton] at he
        rcases he with (he | he) | he
        · exact hlog e he
        · rw [he]; rfl
        · rw [he]; rfl)
      (by
        rintro v ito ml xx fid mode ret ⟨hQ, hsv, hlog⟩
        rw [helAccept_off _ _ _ _ _ _ _ _ _ hms1 hde1]
        refine ⟨by simp [hQ], hsv, ?_⟩
        intro e he
        simp only [List.mem_append, List.mem_singleton] at he
        rcases he with (he | he) | he
        · exact hlog e he
        · rw [he]; rfl
        · rw [he]; rfl)
    refine ⟨_, hrun, hQ, hlog, ?_, ?_⟩
    · simp only [hsv]
    · rw [Transport_off_indep E sort uniformB s site ml_to x0 sv F Q help f g h hms hde, hrun]
  · obtain ⟨v, x1, sv1, ⟨hQ, hsv, hlog⟩, hptr, hrun⟩ := Transport2_run E sort s site ml_to x0
      sv F Q help hrange
      (fun v => v.Q = 0 ∧ v.sv = sv ∧ ∀ e ∈ v.log, materialCall e = false)
      ⟨rfl, rfl, by simp⟩
      (by
        rintro v ito ml rk xx xing fid step ev hev ⟨hQ, hsv, hlog⟩
        rw [rkAccept_off _ _ _ _ _ _ _ _ _ _ _ _ _ hms1 hde1]
        refine ⟨by simp [hQ], hsv, ?_⟩
        intro e he
        simp only [List.mem_append, List.mem_singleton] at he
        rcases he with (he | he) | he
        · exact hlog e he
        · rw [he]
          rcases hev with ⟨_, _, h1⟩ | ⟨_, _, h1⟩ <;> rw [h1] <;> rfl
        · rw [he]; rfl)
    refine ⟨_, hrun, hQ, hlog, ?_, ?_⟩
    · rcases hptr with ⟨_, _, h1⟩ | ⟨_, _, h1⟩
      · exact Or.inl (by simp only [h1, hsv])
      · exact Or.inr ⟨v.rk, by simp only [h1, hsv]⟩
    · rw [Transport2_off_indep E sort s site ml_to x0 sv F Q help f g h hms hde, hrun]

theorem Transport_toggles_off_witness :
    (IndicesInRange Bench.stableSort Bench.stateOff Bench.site.measLayer 12 ∧
      Bench.stateOff.cradle.fIsMSON = false ∧ Bench.stateOff.cradle.fIsDEDXON = false) ∧
    ((∃ r, Transport Bench.ext Bench.stableSort true Bench.stateOff Bench.site 12 ⟨0, 0, 0⟩
        Bench.sv0 Bench.stale Bench.stale Bench.track = .ok r ∧
      r.Q = 0 ∧ (∀ e ∈ r.log, materialCall e = false) ∧
      r.sv = Bench.ext.PutInto r.hel Bench.sv0 ∧
      Transport { Bench.ext with CalcQms := fun _ _ _ _ _ => 1, GetEnergyLoss := fun _ _ _ _ => 1,
                                 SetTo := fun t _ _ => t }
        Bench.stableSort true Bench.stateOff Bench.site 12 ⟨0, 0, 0⟩
        Bench.sv0 Bench.stale Bench.stale Bench.track = .ok r) ∧
    (∃ r, Transport2 Bench.ext Bench.stableSort Bench.stateOff Bench.site 12 ⟨0, 0, 0⟩
        Bench.sv0 Bench.stale Bench.stale Bench.track = .ok r ∧
      r.Q = 0 ∧ (∀ e ∈ r.log, materialCall e = false) ∧
      (r.sv = Bench.ext.PutInto r.hel Bench.sv0 ∨ ∃ rk, r.sv = Bench.ext.RKPutInto rk Bench.sv0) ∧
      Transport2 { Bench.ext with CalcQms := fun _ _ _ _ _ => 1,
                                  GetEnergyLoss := fun _ _ _ _ => 1, SetTo := fun t _ _ => t }
        Bench.stableSort Bench.stateOff Bench.site 12 ⟨0, 0, 0⟩
        Bench.sv0 Bench.stale Bench.stale Bench.track = .ok r)) :=
  ⟨⟨by decide, rfl, rfl⟩,
    Transport_toggles_off Bench.ext Bench.stableSort true Bench.stateOff Bench.site 12
      ⟨0, 0, 0⟩ Bench.sv0 Bench.stale Bench.stale Bench.track (fun _ _ _ _ _ => 1)
      (fun _ _ _ _ => 1) (fun t _ _ => t) (by decide) rfl rfl⟩

/-- C5. In the loop of the helical `Transport`, a visit of a layer of the array
whose crossing search returns 0 is skipped: the body returns, with `F`, `Q`, `DF`,
the track, the state vector and the remembered layer as they were and with the
angle of deflection at its value before the search, whatever the search left in
it; and the loop goes on with the next index. -/
theorem transport_skips_layer_without_crossing (E : Ext R n α Track RK) (s : CradleState α)
    (k : HelConsts R) (ito : Int) (v : HelVars R n Track) (sp : Ptr) (fuel : Nat)
    (hsp : s.cradle.At ito = some sp)
    (hret : (E.CalcXingPointWith (s.heap sp).body v.hel v.xx v.fid
      (searchMode k.fridx k.di ito) (some k.eps)).1 = 0)
    (hc : loopCond k.di k.toidx ito) :
    ∃ v1, transportBody E s k ito v = .ok v1 ∧
      (v1.F = v.F ∧ v1.Q = v.Q ∧ v1.DF = v.DF ∧ v1.hel = v.hel ∧ v1.sv = v.sv ∧
        v1.ifr = v.ifr ∧ v1.fid = v.fid ∧ acceptedSteps v1.log = acceptedSteps v.log) ∧
      forLoop (transportBody E s k) k.di k.toidx (fuel + 1) ito v =
        forLoop (transportBody E s k) k.di k.toidx fuel (ito + k.di) v1 := by
  refine ⟨_, transportBody_noXing E s k ito v sp hsp hret,
    ⟨rfl, rfl, rfl, rfl, rfl, rfl, rfl, ?_⟩, ?_⟩
  · simp [acceptedSteps_append, acceptedSteps]
  · simp only [forLoop, hc, if_true, transportBody_noXing E s k ito v sp hsp hret]

theorem transport_skips_layer_without_crossing_witness :
    (Bench.state.cradle.At 3 = some 13 ∧
      (Bench.ext.CalcXingPointWith (Bench.state.heap 13).body Bench.track ⟨0, 0, 0⟩ 0
        (searchMode 0 1 3) (some (1 / 100000000))).1 = 0 ∧
      loopCond 1 3 3) ∧
    (Bench.ext.CalcXingPointWith (Bench.state.heap 13).body Bench.track ⟨0, 0, 0⟩ 0
        (searchMode 0 1 3) (some (1 / 100000000))).2.2 = 1 ∧
    ∃ v1, transportBody Bench.ext Bench.state
        { fridx := 0, toidx := 3, di := 1, xfrom := ⟨0, 0, 0⟩, xto := ⟨4, 0, 0⟩, isout := true,
          eps := 1 / 100000000 } 3
        { hel := Bench.track, xx := ⟨0, 0, 0⟩, fid := 0, DF := 0, F := 1, Q := 0,
          sv := Bench.sv0, ifr := 0, log := [] } = .ok v1 ∧
      (v1.F = 1 ∧ v1.Q = 0 ∧ v1.DF = 0 ∧ v1.hel = Bench.track ∧ v1.sv = Bench.sv0 ∧
        v1.ifr = 0 ∧ v1.fid = 0 ∧ acceptedSteps v1.log = acceptedSteps []) ∧
      forLoop (transportBody Bench.ext Bench.state
          { fridx := 0, toidx := 3, di := 1, xfrom := ⟨0, 0, 0⟩, xto := ⟨4, 0, 0⟩,
            isout := true, eps := 1 / 100000000 }) 1 3 (0 + 1) 3
          { hel := Bench.track, xx := ⟨0, 0, 0⟩, fid := 0, DF := 0, F := 1, Q := 0,
            sv := Bench.sv0, ifr := 0, log := [] } =
        forLoop (transportBody Bench.ext Bench.state
          { fridx := 0, toidx := 3, di := 1, xfrom := ⟨0, 0, 0⟩, xto := ⟨4, 0, 0⟩,
            isout := true, eps := 1 / 100000000 }) 1 3 0 (3 + 1) v1 :=
  ⟨⟨by decide, by decide!, by decide⟩, by decide!,
    transport_skips_layer_without_crossing Bench.ext Bench.state
      { fridx := 0, toidx := 3, di := 1, xfrom := ⟨0, 0, 0⟩, xto := ⟨4, 0, 0⟩, isout := true,
        eps := 1 / 100000000 } 3
      { hel := Bench.track, xx := ⟨0, 0, 0⟩, fid := 0, DF := 0, F := 1, Q := 0,
        sv := Bench.sv0, ifr := 0, log := [] } 13 0 (by decide) (by decide!) (by decide)⟩

/-- C6. In the loop of the helical `Transport`, take a visit of a layer of the
array whose crossing search found a point `xx`.  If
`|xx - xfrom| - 1 > |xto - xfrom|` the crossing is skipped: the body returns with
`F`, `Q`, `DF`, the track, the state vector and the remembered layer as they were
and the deflection angle at its value before the search.  If
`|xx - xfrom| - 1 ≤ |xto - xfrom|` the crossing is not rejected: the body makes an
accepted step to that layer. -/
theorem transport_far_side_test (E : Ext R n α Track RK) (s : CradleState α)
    (k : HelConsts R) (ito : Int) (v : HelVars R n Track) (sp : Ptr)
    (hsp : s.cradle.At ito = some sp)
    (hret : (E.CalcXingPointWith (s.heap sp).body v.hel v.xx v.fid
      (searchMode k.fridx k.di ito) (some k.eps)).1 ≠ 0) :
    (((E.CalcXingPointWith (s.heap sp).body v.hel v.xx v.fid
          (searchMode k.fridx k.di ito) (some k.eps)).2.1.sub k.xfrom).Mag E.sqrt - 1 >
        (k.xto.sub k.xfrom).Mag E.sqrt →
      ∃ v1, transportBody E s k ito v = .ok v1 ∧
        (v1.F = v.F ∧ v1.Q = v.Q ∧ v1.DF = v.DF ∧ v1.hel = v.hel ∧ v1.sv = v.sv ∧
          v1.ifr = v.ifr ∧ v1.fid = v.fid ∧ acceptedSteps v1.log = acceptedSteps v.log)) ∧
    (((E.CalcXingPointWith (s.heap sp).body v.hel v.xx v.fid
          (searchMode k.fridx k.di ito) (some k.eps)).2.1.sub k.xfrom).Mag E.sqrt - 1 ≤
        (k.xto.sub k.xfrom).Mag E.sqrt →
      ∀ mp, s.cradle.At v.ifr = some mp →
      ∃ v1 DF Qms, transportBody E s k ito v = .ok v1 ∧
        acceptedSteps v1.log = acceptedSteps v.log ++ [(DF, Qms)] ∧
        v1.F = DF * v.F ∧ v1.Q = DF * (v.Q + Qms) * DF.transpose ∧ v1.ifr = ito) := by
  constructor
  · intro hfar
    refine ⟨_, transportBody_far E s k ito v sp hsp hret hfar,
      rfl, rfl, rfl, rfl, rfl, rfl, rfl, ?_⟩
    simp [acceptedSteps_append, acceptedSteps]
  · intro hnear mp hmp
    have hfar : ¬ farSide E k (E.CalcXingPointWith (s.heap sp).body v.hel v.xx v.fid
        (searchMode k.fridx k.di ito) (some k.eps)).2.1 := not_lt.mpr hnear
    obtain ⟨DF, Qms, hlog, hF, hQ, hifr, _⟩ := helAccept_spec E s.cradle k ito (s.heap mp).body
      (E.CalcXingPointWith (s.heap sp).body v.hel v.xx v.fid
        (searchMode k.fridx k.di ito) (some k.eps)).2.1
      (E.CalcXingPointWith (s.heap sp).body v.hel v.xx v.fid
        (searchMode k.fridx k.di ito) (some k.eps)).2.2
      (v.log ++ [Event.xing ito v.fid (searchMode k.fridx k.di ito)
        (E.CalcXingPointWith (s.heap sp).body v.hel v.xx v.fid
          (searchMode k.fridx k.di ito) (some k.eps)).1]) v
    refine ⟨_, DF, Qms, transportBody_accept E s k ito v sp mp hsp hmp hret hfar, ?_, hF, hQ,
      hifr⟩
    rw [hlog]
    simp [acceptedSteps_append, acceptedSteps]

theorem transport_far_side_test_witness :
    (Bench.stateFar.cradle.At 1 = some 21 ∧
      (Bench.ext.CalcXingPointWith (Bench.stateFar.heap 21).body ⟨1, 1⟩ ⟨1, 0, 0⟩ 0
        (searchMode 0 1 1) (some (1 / 100000000))).1 ≠ 0 ∧
      ((Bench.ext.CalcXingPointWith (Bench.stateFar.heap 21).body ⟨1, 1⟩ ⟨1, 0, 0⟩ 0
          (searchMode 0 1 1) (some (1 / 100000000))).2.1.sub ⟨0, 0, 0⟩).Mag Bench.sqrt - 1 >
        (TVector3.sub ⟨2, 0, 0⟩ ⟨0, 0, 0⟩).Mag Bench.sqrt) ∧
    ∃ v1, transportBody Bench.ext Bench.stateFar
        { fridx := 0, toidx := 2, di := 1, xfrom := ⟨0, 0, 0⟩, xto := ⟨2, 0, 0⟩, isout := true,
          eps := 1 / 100000000 } 1
        { hel := ⟨1, 1⟩, xx := ⟨1, 0, 0⟩, fid := 0, DF := Bench.drift 1, F := Bench.drift 1,
          Q := 0, sv := Bench.sv0, ifr := 0, log := [] } = .ok v1 ∧
      (v1.F = Bench.drift 1 ∧ v1.Q = 0 ∧ v1.DF = Bench.drift 1 ∧ v1.hel = ⟨1, 1⟩ ∧
        v1.sv = Bench.sv0 ∧ v1.ifr = 0 ∧ v1.fid = 0 ∧
        acceptedSteps v1.log = acceptedSteps []) :=
  ⟨⟨by decide, by decide!, by decide!⟩,
    (transport_far_side_test Bench.ext Bench.stateFar
      { fridx := 0, toidx := 2, di := 1, xfrom := ⟨0, 0, 0⟩, xto := ⟨2, 0, 0⟩, isout := true,
        eps := 1 / 100000000 } 1
      { hel := ⟨1, 1⟩, xx := ⟨1, 0, 0⟩, fid := 0, DF := Bench.drift 1, F := Bench.drift 1,
        Q := 0, sv := Bench.sv0, ifr := 0, log := [] } 21 (by decide) (by decide!)).1
      (by decide!)⟩

/-- C7, as stated, fails.  On the bench, the helical transport from slot 0 to slot
2 makes an accepted step to the destination layer, the one from slot 0 to slot 3
skips the visit of the destination layer (its surface is never crossed) and makes
no step to it, and both return the same status, 0. -/
theorem Transport_status_counterexample :
    (∃ r, Transport Bench.ext Bench.stableSort true Bench.state Bench.site 12 ⟨0, 0, 0⟩
        Bench.sv0 Bench.stale Bench.stale Bench.track = .ok r ∧
      (visitAccepted 2 r.log = true ∧ visitSkipped 2 r.log = false ∧ r.status = 0)) ∧
    (∃ r, Transport Bench.ext Bench.stableSort true Bench.state Bench.site 13 ⟨0, 0, 0⟩
        Bench.sv0 Bench.stale Bench.stale Bench.track = .ok r ∧
      (visitAccepted 3 r.log = false ∧ visitSkipped 3 r.log = true ∧ r.status = 0)) :=
  ⟨exists_of_check (by decide!), exists_of_check (by decide!)⟩

/-- C7, amended.  Both site-to-layer transports, called with both indices in the
array, return the status 0, whether or not the run made an accepted step to the
destination layer: the status does not tell whether the destination was
reached. -/
theorem Transport_status_zero (E : Ext R n α Track RK)
    (sort : Heap α → List Ptr → List Ptr) (uniformB : Bool) (s : CradleState α)
    (site : TKalTrackSite R) (ml_to : Ptr) (x0 : TVector3 R) (sv : TKalMatrix R n 1)
    (F Q : TKalMatrix R n n) (help : Track)
    (hrange : IndicesInRange sort s site.measLayer ml_to) :
    (∃ r, Transport E sort uniformB s site ml_to x0 sv F Q help = .ok r ∧ r.status = 0) ∧
    (∃ r, Transport2 E sort s site ml_to x0 sv F Q help = .ok r ∧ r.status = 0) := by
  obtain ⟨r, hrun, hs, _⟩ := Transport_FQ E sort uniformB s site ml_to x0 sv F Q help hrange
  obtain ⟨r2, hrun2, hs2, _⟩ := Transport2_FQ E sort s site ml_to x0 sv F Q help hrange
  exact ⟨⟨r, hrun, hs⟩, ⟨r2, hrun2, hs2⟩⟩

theorem Transport_status_zero_witness :
    IndicesInRange Bench.stableSort Bench.state Bench.site.measLayer 13 ∧
    ((∃ r, Transport Bench.ext Bench.stableSort true Bench.state Bench.site 13 ⟨0, 0, 0⟩
        Bench.sv0 Bench.stale Bench.stale Bench.track = .ok r ∧ r.status = 0) ∧
    (∃ r, Transport2 Bench.ext Bench.stableSort Bench.state Bench.site 13 ⟨0, 0, 0⟩
        Bench.sv0 Bench.stale Bench.stale Bench.track = .ok r ∧ r.status = 0)) :=
  ⟨by decide, Transport_status_zero Bench.ext Bench.stableSort true Bench.state
    Bench.site 13 ⟨0, 0, 0⟩ Bench.sv0 Bench.stale Bench.stale Bench.track (by decide)⟩

end Claims

section CradleClaims

variable {α : Type}

theorem setIndices_not_mem (l : List Ptr) (i : Int) (heap : Heap α) (q : Ptr) (hq : q ∉ l) :
    setIndices l i heap q = heap q := by
  induction l generalizing i heap with
  | nil => rfl
  | cons p ps ih =>
    simp only [List.mem_cons, not_or] at hq
    rw [setIndices, ih _ _ hq.2]
    simp [SetIndex, hq.1]

theorem setIndices_body (l : List Ptr) (i : Int) (heap : Heap α) (q : Ptr) :
    (setIndices l i heap q).body = (heap q).body ∧
    (setIndices l i heap q).fParentPtr = (heap q).fParentPtr := by
  induction l generalizing i heap with
  | nil => exact ⟨rfl, rfl⟩
  | cons p ps ih =>
    rw [setIndices]
    refine ⟨(ih _ _).1.trans ?_, (ih _ _).2.trans ?_⟩ <;>
      · unfold SetIndex
        split <;> rfl

/-- Numbering distinct layers gives the layer in slot `k` the index `i + k`. -/
theorem setIndices_index (l : List Ptr) (i : Int) (heap : Heap α) (hnd : l.Nodup)
    (k : Nat) (hk : k < l.length) :
    (setIndices l i heap (l.get ⟨k, hk⟩)).fIndex = i + k := by
  induction l generalizing i heap k with
  | nil => exact absurd hk (Nat.not_lt_zero _)
  | cons p ps ih =>
    rw [List.nodup_cons] at hnd
    cases k with
    | zero =>
      simp only [List.get_eq_getElem, List.getElem_cons_zero, setIndices]
      rw [setIndices_not_mem ps _ _ p hnd.1]
      simp [SetIndex]
    | succ k =>
      simp only [List.get_eq_getElem, List.getElem_cons_succ, setIndices]
      have hk1 : k < ps.length := by simpa using hk
      have := ih (i + 1) (SetIndex heap p i) hnd.2 k hk1
      simp only [List.get_eq_getElem] at this
      rw [this]
      push_cast
      ring

/-- Numbering the same slots gives the same heap from two heaps that differ only
in the indices of the layers in those slots. -/
theorem setIndices_congr (l : List Ptr) (i : Int) (h1 h2 : Heap α)
    (hagree : ∀ q, (h1 q).body = (h2 q).body ∧ (h1 q).fParentPtr = (h2 q).fParentPtr ∧
      (q ∉ l → (h1 q).fIndex = (h2 q).fIndex)) :
    setIndices l i h1 = setIndices l i h2 := by
  induction l generalizing i h1 h2 with
  | nil =>
    funext q
    obtain ⟨hb, hp, hi⟩ := hagree q
    have hi := hi (List.not_mem_nil q)
    simp only [setIndices]
    cases hq1 : h1 q
    cases hq2 : h2 q
    simp_all
  | cons p ps ih =>
    simp only [setIndices]
    apply ih
    intro q
    obtain ⟨hb, hp, hi⟩ := hagree q
    unfold SetIndex
    by_cases hqp : q = p
    · simp [hqp, hb, hp]
      subst hqp
      exact ⟨hb, hp⟩
    · simp only [hqp, if_false]
      exact ⟨hb, hp, fun hq => hi (by simp [hqp, hq])⟩

theorem setIndices_idem (l : List Ptr) (i : Int) (heap : Heap α) :
    setIndices l i (setIndices l i heap) = setIndices l i heap := by
  apply setIndices_congr
  intro q
  exact ⟨(setIndices_body l i heap q).1, (setIndices_body l i heap q).2,
    fun hq => by rw [setIndices_not_mem l i heap q hq]⟩

theorem Bench.insertionSort_sorted (heap : Heap Bench.Layer) (l : List Ptr) :
    (l.insertionSort (fun p q => Bench.le (heap p).body (heap q).body)).Pairwise
      (fun p q => Bench.le (heap p).body (heap q).body) := by
  haveI : IsTotal Ptr (fun p q => Bench.le (heap p).body (heap q).body) :=
    ⟨fun a b => le_total (heap a).body.policy (heap b).body.policy⟩
  haveI : IsTrans Ptr (fun p q => Bench.le (heap p).body (heap q).body) :=
    ⟨fun a b c hab hbc => le_trans (α := ℚ) hab hbc⟩
  exact List.sorted_insertionSort _ l

theorem Bench.stableSort_contract : SortContract Bench.le Bench.stableSort :=
  fun heap l => ⟨List.perm_insertionSort _ l, Bench.insertionSort_sorted heap l⟩

theorem Bench.reversingSort_contract : SortContract Bench.le Bench.reversingSort :=
  fun heap l => ⟨(List.perm_insertionSort _ l.reverse).trans (List.reverse_perm l),
    Bench.insertionSort_sorted heap l.reverse⟩

/-- C8. After `Update()` on a cradle whose array holds `N` distinct layers, with a
library sort that meets its contract: the dirty flag is cleared (`fDone` is set),
the array holds the same layers ordered by the sorting predicate, and the layer in
slot `i` has index `i` for every `i < N`, so the indices read in slot order are
`0, 1, ..., N-1`. -/
theorem Update_numbers_layers (le : α → α → Prop) (sort : Heap α → List Ptr → List Ptr)
    (hsort : SortContract le sort) (s : CradleState α) (hnd : s.cradle.fCont.Nodup) :
    (Update sort s).cradle.fDone = true ∧
    (Update sort s).cradle.fCont.Perm s.cradle.fCont ∧
    (Update sort s).cradle.fCont.Pairwise
      (fun p q => le ((Update sort s).heap p).body ((Update sort s).heap q).body) ∧
    (∀ (i : Nat) (hi : i < (Update sort s).cradle.fCont.length),
      ((Update sort s).heap ((Update sort s).cradle.fCont.get ⟨i, hi⟩)).fIndex = i) ∧
    (Update sort s).cradle.fCont.map (fun p => ((Update sort s).heap p).fIndex) =
      (List.range s.cradle.fCont.length).map Int.ofNat := by
  obtain ⟨hperm, hsorted⟩ := hsort s.heap s.cradle.fCont
  have hnd1 : (sort s.heap s.cradle.fCont).Nodup := hperm.nodup_iff.mpr hnd
  have hidx : ∀ (i : Nat) (hi : i < (sort s.heap s.cradle.fCont).length),
      (setIndices (sort s.heap s.cradle.fCont) 0 s.heap
        ((sort s.heap s.cradle.fCont).get ⟨i, hi⟩)).fIndex = i := by
    intro i hi
    rw [setIndices_index _ 0 s.heap hnd1 i hi]
    simp
  refine ⟨rfl, hperm, ?_, hidx, ?_⟩
  · simp only [Update]
    refine hsorted.imp ?_
    intro p q hpq
    rw [(setIndices_body _ 0 s.heap p).1, (setIndices_body _ 0 s.heap q).1]
    exact hpq
  · simp only [Update]
    apply List.ext_get
    · simp [hperm.length_eq]
    · intro i h1 h2
      simp only [List.get_eq_getElem, List.getElem_map, List.getElem_range]
      have := hidx i (by simpa using h1)
      simpa using this

theorem Update_numbers_layers_witness :
    (SortContract Bench.le Bench.stableSort ∧ Bench.stateDirty.cradle.fCont.Nodup) ∧
    (Update Bench.stableSort Bench.stateDirty).cradle.fCont = [10, 11, 12] ∧
    ((Update Bench.stableSort Bench.stateDirty).cradle.fDone = true ∧
    (Update Bench.stableSort Bench.stateDirty).cradle.fCont.Perm Bench.stateDirty.cradle.fCont ∧
    (Update Bench.stableSort Bench.stateDirty).cradle.fCont.Pairwise
      (fun p q => Bench.le ((Update Bench.stableSort Bench.stateDirty).heap p).body
        ((Update Bench.stableSort Bench.stateDirty).heap q).body) ∧
    (∀ (i : Nat) (hi : i < (Update Bench.stableSort Bench.stateDirty).cradle.fCont.length),
      ((Update Bench.stableSort Bench.stateDirty).heap
        ((Update Bench.stableSort Bench.stateDirty).cradle.fCont.get ⟨i, hi⟩)).fIndex = i) ∧
    (Update Bench.stableSort Bench.stateDirty).cradle.fCont.map
        (fun p => ((Update Bench.stableSort Bench.stateDirty).heap p).fIndex) =
      (List.range Bench.stateDirty.cradle.fCont.length).map Int.ofNat) :=
  ⟨⟨Bench.stableSort_contract, by decide⟩, by decide!,
    Update_numbers_layers Bench.le Bench.stableSort Bench.stableSort_contract
      Bench.stateDirty (by decide)⟩

/-- C9, as stated, fails.  With a library sort that meets its contract but
reverses the order of layers that compare equal, on a cradle holding two layers
that compare equal, the second `Update()` in a row changes the order of the array
and the index of both layers. -/
theorem Update_twice_counterexample :
    SortContract Bench.le Bench.reversingSort ∧
    Bench.le (Bench.heap 30).body (Bench.heap 31).body ∧
    Bench.le (Bench.heap 31).body (Bench.heap 30).body ∧
    (Update Bench.reversingSort Bench.stateTie).cradle.fCont = [31, 30] ∧
    (Update Bench.reversingSort (Update Bench.reversingSort Bench.stateTie)).cradle.fCont =
      [30, 31] ∧
    ((Update Bench.reversingSort Bench.stateTie).heap 30).fIndex = 1 ∧
    ((Update Bench.reversingSort (Update Bench.reversingSort Bench.stateTie)).heap 30).fIndex
      = 0 ∧
    ((Update Bench.reversingSort Bench.stateTie).heap 31).fIndex = 0 ∧
    ((Update Bench.reversingSort (Update Bench.reversingSort Bench.stateTie)).heap 31).fIndex
      = 1 :=
  ⟨Bench.reversingSort_contract, by decide!, by decide!, by decide!, by decide!, by decide!,
    by decide!, by decide!, by decide!⟩

/-- C9, amended.  With a library sort that meets its contract, on a cradle in
which no two different layers compare equal under the sorting predicate, a second
`Update()` in a row changes nothing: the array, the flags and every layer (so
every index) are as after the first. -/
theorem Update_twice (le : α → α → Prop) (sort : Heap α → List Ptr → List Ptr)
    (hsort : SortContract le sort) (s : CradleState α)
    (hties : ∀ p ∈ s.cradle.fCont, ∀ q ∈ s.cradle.fCont,
      le (s.heap p).body (s.heap q).body → le (s.heap q).body (s.heap p).body → p = q) :
    Update sort (Update sort s) = Update sort s := by
  obtain ⟨hperm, hsorted⟩ := hsort s.heap s.cradle.fCont
  obtain ⟨hperm2, hsorted2⟩ := hsort (setIndices (sort s.heap s.cradle.fCont) 0 s.heap)
    (sort s.heap s.cradle.fCont)
  have hbody : ∀ p, (setIndices (sort s.heap s.cradle.fCont) 0 s.heap p).body =
      (s.heap p).body := fun p => (setIndices_body _ 0 s.heap p).1
  have hsorted2' : (sort (setIndices (sort s.heap s.cradle.fCont) 0 s.heap)
      (sort s.heap s.cradle.fCont)).Pairwise
      (fun p q => le (s.heap p).body (s.heap q).body) := by
    refine hsorted2.imp ?_
    intro p q hpq
    rw [hbody p, hbody q] at hpq
    exact hpq
  have heq : sort (setIndices (sort s.heap s.cradle.fCont) 0 s.heap)
      (sort s.heap s.cradle.fCont) = sort s.heap s.cradle.fCont := by
    refine List.Perm.eq_of_sorted ?_ hsorted2' hsorted hperm2
    intro a b ha hb hab hba
    exact hties a (hperm.subset (hperm2.subset ha)) b (hperm.subset hb) hab hba
  simp only [Update, heq, setIndices_idem]

theorem Update_twice_witness :
    (SortContract Bench.le Bench.reversingSort ∧
      ∀ p ∈ Bench.stateDirty.cradle.fCont, ∀ q ∈ Bench.stateDirty.cradle.fCont,
        Bench.le (Bench.stateDirty.heap p).body (Bench.stateDirty.heap q).body →
        Bench.le (Bench.stateDirty.heap q).body (Bench.stateDirty.heap p).body → p = q) ∧
    Update Bench.reversingSort (Update Bench.reversingSort Bench.stateDirty) =
      Update Bench.reversingSort Bench.stateDirty :=
  ⟨⟨Bench.reversingSort_contract, by decide!⟩,
    Update_twice Bench.le Bench.reversingSort Bench.reversingSort_contract Bench.stateDirty
      (by decide!)⟩

/-- C10. `Install` aborts exactly when the cradle is closed, and a run that
aborts reaches `abort()` with the cradle, the layers and the detector group as
they were on entry: no layer added, no parent pointer set, the dirty flag
untouched. -/
theorem Install_aborts_iff_closed (s : InstallState α) :
    ((∃ s1, Install s = .error s1) ↔ s.cradle.fIsClosed = true) ∧
    (∀ s1, Install s = .error s1 →
      s1 = s ∧ s1.cradle.fCont = s.cradle.fCont ∧ s1.cradle.fDone = s.cradle.fDone ∧
        s1.heap = s.heap ∧ s1.det = s.det) := by
  by_cases h : s.cradle.fIsClosed = true
  · have hI : Install s = .error s := by
      simp [Install, TKalDetCradle.IsClosed, h]
    refine ⟨⟨fun _ => h, fun _ => ⟨s, hI⟩⟩, fun s1 h1 => ?_⟩
    rw [hI] at h1
    injection h1 with h1
    subst h1
    exact ⟨rfl, rfl, rfl, rfl, rfl⟩
  · have hI : ∃ s2, Install s = .ok s2 := by
      simp only [Install, TKalDetCradle.IsClosed, h]
      exact ⟨_, rfl⟩
    obtain ⟨s2, hI⟩ := hI
    refine ⟨⟨fun ⟨s1, h1⟩ => ?_, fun h1 => absurd h1 h⟩, fun s1 h1 => ?_⟩
    · rw [hI] at h1
      cases h1
    · rw [hI] at h1
      cases h1

end CradleClaims

section InstallClaims

variable {α : Type}

theorem installLoop_cradle (l : List Ptr) (s : InstallState α) :
    (l.foldl installStep s).cradle = { s.cradle with fCont := s.cradle.fCont ++ l } := by
  induction l generalizing s with
  | nil => simp
  | cons p ps ih =>
    rw [List.foldl_cons, ih]
    simp [installStep]

/-- What `Install` leaves in the cradle of an open cradle. -/
theorem Install_open (s : InstallState α) (hopen : s.cradle.fIsClosed = false) :
    ∃ s1, Install s = .ok s1 ∧
      s1.cradle = { s.cradle with fCont := s.cradle.fCont ++ s.det.layers, fDone := false } := by
  refine ⟨_, by simp only [Install, TKalDetCradle.IsClosed, hopen]; rfl, ?_⟩
  simp [installLoop_cradle]

/-- C13. `Install` on an open cradle whose array holds `L`, given a detector group
whose layers are `g_1, ..., g_m` in iteration order, returns with the array equal
to `L` followed by `g_1, ..., g_m`, the closed flag as it was and the cradle
dirty (`fDone` false); so too when the group is empty. -/
theorem Install_appends (s : InstallState α) (hopen : s.cradle.fIsClosed = false) :
    ∃ s1, Install s = .ok s1 ∧
      s1.cradle.fCont = s.cradle.fCont ++ s.det.layers ∧
      s1.cradle.fIsClosed = s.cradle.fIsClosed ∧
      s1.cradle.fDone = false ∧
      (s.det.layers = [] → s1.cradle.fCont = s.cradle.fCont) := by
  obtain ⟨s1, hrun, hc⟩ := Install_open s hopen
  refine ⟨s1, hrun, ?_, ?_, ?_, ?_⟩
  · rw [hc]
  · rw [hc]
  · rw [hc]
  · intro h
    rw [hc, h]
    simp

theorem Install_appends_witness :
    Bench.installState.cradle.fIsClosed = false ∧
    ∃ s1, Install Bench.installState = .ok s1 ∧
      s1.cradle.fCont = [10, 11] ++ [30, 31] ∧
      s1.cradle.fIsClosed = Bench.installState.cradle.fIsClosed ∧
      s1.cradle.fDone = false ∧
      (Bench.installState.det.layers = [] → s1.cradle.fCont = Bench.installState.cradle.fCont) :=
  ⟨rfl, Install_appends Bench.installState rfl⟩

end InstallClaims

section LoopControl

variable {R : Type} [LinearOrderedField R] {n : Nat} {α Track RK : Type}

theorem increment_cases (fridx toidx : Int) :
    (increment fridx toidx = 1 ∧ fridx ≤ toidx) ∨ (increment fridx toidx = -1 ∧ toidx < fridx) := by
  unfold increment
  split
  · exact Or.inr ⟨rfl, by omega⟩
  · exact Or.inl ⟨rfl, by omega⟩

/-- A loop with `m` rounds left runs its body on the `m` indices from `ito` on. -/
theorem forLoop_rounds {σ : Type} (body : Int → σ → Except Fault σ) (di toidx : Int)
    (hdi : di = 1 ∨ di = -1) :
    ∀ (m : Nat) (ito : Int) (s : σ), (toidx - ito) * di + 1 = m →
      forLoop body di toidx m ito s =
        visitAll body ((List.range m).map fun j : Nat => ito + di * (j : Int)) s := by
  intro m
  induction m with
  | zero =>
    intro ito s hm
    have hc : ¬ loopCond di toidx ito := by
      unfold loopCond
      rcases hdi with h | h <;> subst h <;> omega
    simp [forLoop, hc, visitAll]
  | succ m ih =>
    intro ito s hm
    have hc : loopCond di toidx ito := by
      unfold loopCond
      rcases hdi with h | h <;> subst h <;> omega
    have hnext : (toidx - (ito + di)) * di + 1 = m := by
      rcases hdi with h | h <;> subst h <;> push_cast at hm <;> omega
    have hlist : ((List.range (m + 1)).map fun j : Nat => ito + di * (j : Int)) =
        ito :: ((List.range m).map fun j : Nat => ito + di + di * (j : Int)) := by
      rw [List.range_succ_eq_map, List.map_cons, List.map_map]
      congr 1
      · simp
      · apply List.map_congr_left
        intro j _
        simp only [Function.comp, Nat.succ_eq_add_one]
        push_cast
        ring
    rw [hlist]
    simp only [forLoop, hc, if_true, visitAll]
    cases body ito s with
    | error e => rfl
    | ok s1 => exact ih (ito + di) s1 hnext

/-- The layer loop runs its body on `fridx, fridx + di, ..., toidx` in this order,
whatever the body and the indices. -/
theorem forLoop_eq_visitAll {σ : Type} (body : Int → σ → Except Fault σ) (fridx toidx : Int)
    (s : σ) :
    forLoop body (increment fridx toidx) toidx ((toidx - fridx).natAbs + 1) fridx s =
      visitAll body (visitOrder fridx toidx) s := by
  unfold visitOrder
  apply forLoop_rounds
  · rcases increment_cases fridx toidx with ⟨h, _⟩ | ⟨h, _⟩
    · exact Or.inl h
    · exact Or.inr h
  · rcases increment_cases fridx toidx with ⟨h, h1⟩ | ⟨h, h1⟩ <;> rw [h] <;> omega

omit [LinearOrderedField R] in
theorem visitOrder_mem (fridx toidx i : Int) (hi : i ∈ visitOrder fridx toidx) :
    (fridx ≤ i ∧ i ≤ toidx) ∨ (toidx ≤ i ∧ i ≤ fridx) := by
  unfold visitOrder at hi
  rw [List.mem_map] at hi
  obtain ⟨j, hj, rfl⟩ := hi
  rw [List.mem_range] at hj
  rcases increment_cases fridx toidx with ⟨h, h1⟩ | ⟨h, h1⟩ <;> rw [h] <;> omega

omit [LinearOrderedField R] in
theorem visitOrder_self (a : Int) : visitOrder a a = [a] := by
  simp [visitOrder, increment, List.range_succ]

/-- Running a body over a list keeps a property of the indices done so far. -/
theorem visitAll_trace {σ : Type} (body : Int → σ → Except Fault σ)
    (P : List Int → σ → Prop) :
    ∀ (l done : List Int) (s : σ), P done s →
      (∀ (d : List Int) (i : Int) (s1 : σ), i ∈ l → P d s1 →
        ∃ s2, body i s1 = .ok s2 ∧ P (d ++ [i]) s2) →
      ∃ s1, visitAll body l s = .ok s1 ∧ P (done ++ l) s1 := by
  intro l
  induction l with
  | nil =>
    intro done s hP _
    exact ⟨s, rfl, by simpa using hP⟩
  | cons i rest ih =>
    intro done s hP hbody
    obtain ⟨s2, hb, hP2⟩ := hbody done i s (List.mem_cons_self _ _) hP
    obtain ⟨s3, hrun, hP3⟩ := ih (done ++ [i]) s2 hP2
      (fun d j s1 hj h => hbody d j s1 (List.mem_cons_of_mem _ hj) h)
    refine ⟨s3, ?_, by simpa using hP3⟩
    simp only [visitAll, hb, hrun]

omit [LinearOrderedField R] in
theorem visited_append (l1 l2 : List (Event R n)) :
    visited (l1 ++ l2) = visited l1 ++ visited l2 := by
  induction l1 with
  | nil => rfl
  | cons e l ih => cases e <;> simp [visited, ih]

end LoopControl

section Traces

variable {R : Type} [LinearOrderedField R] {n : Nat} {α Track RK : Type}

theorem At_range (c : TKalDetCradle) (i : Int) (p : Ptr) (h : c.At i = some p) :
    0 ≤ i ∧ i < c.fCont.length := by
  unfold TKalDetCradle.At at h
  split at h
  · rename_i h0
    refine ⟨h0, ?_⟩
    have := List.get?_eq_some.mp h
    obtain ⟨hlt, _⟩ := this
    omega
  · cases h

/-- The record an accepted step of `Transport` adds. -/
theorem helAccept_log (E : Ext R n α Track RK) (c : TKalDetCradle) (k : HelConsts R)
    (ito : Int) (ml : α) (xx : TVector3 R) (fid : R) (log1 : List (Event R n))
    (v : HelVars R n Track) :
    (helAccept E c k ito ml xx fid log1 v).log =
      log1 ++
      (if (c.IsMSOn && decide (ito ≠ k.fridx)) = true then
        [Event.qms v.ifr k.isout fid] else []) ++
      [Event.step ito (fixT0 (E.MoveTo v.hel xx fid v.DF none).2.2)
        (if (c.IsMSOn && decide (ito ≠ k.fridx)) = true then
          E.CalcQms ml k.isout v.hel fid 0 else 0)] ++
      (if (c.IsDEDXOn && decide (ito ≠ k.fridx)) = true then
        [Event.eloss v.ifr k.isout (E.MoveTo v.hel xx fid v.DF none).2.1
          (E.GetEnergyLoss ml k.isout (E.MoveTo v.hel xx fid v.DF none).1
            (E.MoveTo v.hel xx fid v.DF none).2.1)] else []) := by
  cases hm : (c.IsMSOn && decide (ito ≠ k.fridx)) <;>
    cases hd : (c.IsDEDXOn && decide (ito ≠ k.fridx)) <;>
    simp only [helAccept, hm, hd] <;>
    simp

/-- The record a step of `Transport2` adds. -/
theorem rkAccept_log (E : Ext R n α Track RK) (c : TKalDetCradle) (fridx di ito : Int)
    (ml : α) (rk : RK) (xx xing : TVector3 R) (fid step : R) (log1 : List (Event R n))
    (v : RKVars R n Track RK) :
    (rkAccept E c fridx di ito ml rk xx xing fid step log1 v).log =
      log1 ++
      (if (c.IsMSOn && decide (ito ≠ fridx)) = true then
        [Event.qms v.ifr (decide (di > 0)) fid] else []) ++
      [Event.step ito
        (fixT0 (if ito = fridx then (E.MoveTo v.hel xing fid v.DF (some false)).2.2
          else (E.RKMoveTo rk xing step v.DF).2.2))
        (if (c.IsMSOn && decide (ito ≠ fridx)) = true then
          E.CalcQms ml (decide (di > 0)) v.hel fid 0 else 0)] ++
      (if (c.IsDEDXOn && decide (ito ≠ fridx)) = true then
        [Event.eloss v.ifr (decide (di > 0))
          (if ito = fridx then (E.MoveTo v.hel xing fid v.DF (some false)).2.1 else fid)
          (E.GetEnergyLoss ml (decide (di > 0))
            (if ito = fridx then (E.MoveTo v.hel xing fid v.DF (some false)).1
              else E.SetToTrack (E.RKMoveTo rk xing step v.DF).1 v.hel)
            (if ito = fridx then (E.MoveTo v.hel xing fid v.DF (some false)).2.1 else fid))]
        else []) := by
  cases hm : (c.IsMSOn && decide (ito ≠ fridx)) <;>
    cases hd : (c.IsDEDXOn && decide (ito ≠ fridx)) <;>
    simp only [rkAccept, hm, hd] <;>
    simp

/-- The body of the loop of `Transport` returns when both slots it reads exist,
with a skipped visit or an accepted step. -/
theorem transportBody_summary (E : Ext R n α Track RK) (s : CradleState α) (k : HelConsts R)
    (ito : Int) (v : HelVars R n Track) (sp mp : Ptr) (hsp : s.cradle.At ito = some sp)
    (hmp : s.cradle.At v.ifr = some mp) :
    ∃ v1, transportBody E s k ito v = .ok v1 ∧
      ((∃ (xx : TVector3 R) (ret : Int) (far : Bool),
          v1 = { v with xx := xx, log := v.log ++
            [Event.xing ito v.fid (searchMode k.fridx k.di ito) ret] ++
            [Event.skip ito far] }) ∨
        (∃ (xx : TVector3 R) (fid : R) (ret : Int),
          v1 = helAccept E s.cradle k ito (s.heap mp).body xx fid
            (v.log ++ [Event.xing ito v.fid (searchMode k.fridx k.di ito) ret]) v)) := by
  by_cases hx : (E.CalcXingPointWith (s.heap sp).body v.hel v.xx v.fid
      (searchMode k.fridx k.di ito) (some k.eps)).1 = 0
  · exact ⟨_, transportBody_noXing E s k ito v sp hsp hx, Or.inl ⟨_, _, _, rfl⟩⟩
  · by_cases hfar : farSide E k (E.CalcXingPointWith (s.heap sp).body v.hel v.xx v.fid
        (searchMode k.fridx k.di ito) (some k.eps)).2.1
    · exact ⟨_, transportBody_far E s k ito v sp hsp hx hfar, Or.inl ⟨_, _, _, rfl⟩⟩
    · exact ⟨_, transportBody_accept E s k ito v sp mp hsp hmp hx hfar, Or.inr ⟨_, _, _, rfl⟩⟩

/-- `Transport` as a run of its loop body over the visiting order. -/
theorem Transport_eq_visitAll (E : Ext R n α Track RK) (sort : Heap α → List Ptr → List Ptr)
    (uniformB : Bool) (s : CradleState α) (site : TKalTrackSite R) (ml_to : Ptr)
    (x0 : TVector3 R) (sv : TKalMatrix R n 1) (F Q : TKalMatrix R n n) (help : Track) :
    Transport E sort uniformB s site ml_to x0 sv F Q help =
      match visitAll
          (transportBody E (lazyUpdate sort s)
            (helConsts E uniformB (lazyUpdate sort s) site ml_to help))
          (visitOrder ((lazyUpdate sort s).heap site.measLayer).fIndex
            ((lazyUpdate sort s).heap ml_to).fIndex)
          { hel := help, xx := TVector3.zero, fid := 0, DF := 0, F := 1, Q := 0, sv := sv,
            ifr := ((lazyUpdate sort s).heap site.measLayer).fIndex, log := [] } with
      | .error e => .error e
      | .ok v =>
        .ok { status := 0, state := lazyUpdate sort s, x0 := E.GetPivot v.hel,
              sv := E.PutInto v.hel v.sv, F := v.F, Q := v.Q, hel := v.hel, log := v.log } := by
  rw [← forLoop_eq_visitAll]
  rfl

/-- `Transport2` as a run of its loop body over the visiting order. -/
theorem Transport2_eq_visitAll (E : Ext R n α Track RK)
    (sort : Heap α → List Ptr → List Ptr)
    (s : CradleState α) (site : TKalTrackSite R) (ml_to : Ptr)
    (x0 : TVector3 R) (sv : TKalMatrix R n 1) (F Q : TKalMatrix R n n) (help : Track) :
    Transport2 E sort s site ml_to x0 sv F Q help =
      match visitAll
          (transport2Body E (lazyUpdate sort s)
            ((lazyUpdate sort s).heap site.measLayer).fIndex
            (increment ((lazyUpdate sort s).heap site.measLayer).fIndex
              ((lazyUpdate sort s).heap ml_to).fIndex))
          (visitOrder ((lazyUpdate sort s).heap site.measLayer).fIndex
            ((lazyUpdate sort s).heap ml_to).fIndex)
          { hel := help, rk := E.rkNew, xx := TVector3.zero, fid := 0, DF := 0, F := 1, Q := 0,
            sv := sv, ifr := ((lazyUpdate sort s).heap site.measLayer).fIndex,
            trackPtr := TrackRef.null, log := [] } with
      | .error e => .error e
      | .ok v =>
        match v.trackPtr with
        | TrackRef.null => .error .nullDeref
        | TrackRef.hel =>
          .ok { status := 0, state := lazyUpdate sort s, x0 := E.GetPivot v.hel,
                sv := E.PutInto v.hel v.sv, F := v.F, Q := v.Q, hel := v.hel, log := v.log }
        | TrackRef.rk =>
          .ok { status := 0, state := lazyUpdate sort s, x0 := E.RKGetPivot v.rk,
                sv := E.RKPutInto v.rk v.sv, F := v.F, Q := v.Q, hel := v.hel,
                log := v.log } := by
  rw [← forLoop_eq_visitAll]
  rfl

/-- `Transport` returns when both indices are slots of the array; the variables the
loop ends with satisfy every property of the indices done so far that holds at
the start and that a skipped visit and an accepted step keep. -/
theorem Transport_trace (E : Ext R n α Track RK) (sort : Heap α → List Ptr → List Ptr)
    (uniformB : Bool) (s : CradleState α) (site : TKalTrackSite R) (ml_to : Ptr)
    (x0 : TVector3 R) (sv : TKalMatrix R n 1) (F Q : TKalMatrix R n n) (help : Track)
    (hrange : IndicesInRange sort s site.measLayer ml_to)
    (P : List Int → HelVars R n Track → Prop)
    (h0 : P [] { hel := help, xx := TVector3.zero, fid := 0, DF := 0, F := 1, Q := 0, sv := sv,
                 ifr := ((lazyUpdate sort s).heap site.measLayer).fIndex, log := [] })
    (hskip : ∀ (d : List Int) (i : Int) (v : HelVars R n Track) (xx : TVector3 R) (ret : Int)
      (far : Bool),
      i ∈ visitOrder ((lazyUpdate sort s).heap site.measLayer).fIndex
        ((lazyUpdate sort s).heap ml_to).fIndex →
      P d v →
      P (d ++ [i]) { v with xx := xx, log := v.log ++
        [Event.xing i v.fid
          (searchMode (helConsts E uniformB (lazyUpdate sort s) site ml_to help).fridx
            (helConsts E uniformB (lazyUpdate sort s) site ml_to help).di i) ret] ++
        [Event.skip i far] })
    (hacc : ∀ (d : List Int) (i : Int) (v : HelVars R n Track) (mp : Ptr) (xx : TVector3 R)
      (fid : R) (ret : Int),
      i ∈ visitOrder ((lazyUpdate sort s).heap site.measLayer).fIndex
        ((lazyUpdate sort s).heap ml_to).fIndex →
      (lazyUpdate sort s).cradle.At v.ifr = some mp →
      P d v →
      P (d ++ [i]) (helAccept E (lazyUpdate sort s).cradle
        (helConsts E uniformB (lazyUpdate sort s) site ml_to help) i
        ((lazyUpdate sort s).heap mp).body xx fid
        (v.log ++ [Event.xing i v.fid
          (searchMode (helConsts E uniformB (lazyUpdate sort s) site ml_to help).fridx
            (helConsts E uniformB (lazyUpdate sort s) site ml_to help).di i) ret]) v)) :
    ∃ v : HelVars R n Track,
      P (visitOrder ((lazyUpdate sort s).heap site.measLayer).fIndex
        ((lazyUpdate sort s).heap ml_to).fIndex) v ∧
      Transport E sort uniformB s site ml_to x0 sv F Q help = .ok
        { status := 0, state := lazyUpdate sort s, x0 := E.GetPivot v.hel,
          sv := E.PutInto v.hel v.sv, F := v.F, Q := v.Q, hel := v.hel, log := v.log } := by
  obtain ⟨hfr, hto⟩ := hrange
  have hin : ∀ i, i ∈ visitOrder ((lazyUpdate sort s).heap site.measLayer).fIndex
      ((lazyUpdate sort s).heap ml_to).fIndex →
      0 ≤ i ∧ i < (lazyUpdate sort s).cradle.fCont.length := by
    intro i hi
    rcases visitOrder_mem _ _ i hi with h | h <;> omega
  obtain ⟨v, hrun, hP, _⟩ := visitAll_trace
    (transportBody E (lazyUpdate sort s)
      (helConsts E uniformB (lazyUpdate sort s) site ml_to help))
    (fun d v => P d v ∧ (0 ≤ v.ifr ∧ v.ifr < (lazyUpdate sort s).cradle.fCont.length))
    (visitOrder ((lazyUpdate sort s).heap site.measLayer).fIndex
      ((lazyUpdate sort s).heap ml_to).fIndex) []
    { hel := help, xx := TVector3.zero, fid := 0, DF := 0, F := 1, Q := 0, sv := sv,
      ifr := ((lazyUpdate sort s).heap site.measLayer).fIndex, log := [] }
    ⟨h0, hfr⟩
    (by
      rintro d i v hi ⟨hP, hi0, hi1⟩
      obtain ⟨sp, hsp⟩ := At_isSome (lazyUpdate sort s).cradle i (hin i hi).1 (hin i hi).2
      obtain ⟨mp, hmp⟩ := At_isSome (lazyUpdate sort s).cradle v.ifr hi0 hi1
      obtain ⟨v1, hb, hform⟩ := transportBody_summary E (lazyUpdate sort s)
        (helConsts E uniformB (lazyUpdate sort s) site ml_to help) i v sp mp hsp hmp
      refine ⟨v1, hb, ?_⟩
      rcases hform with ⟨xx, ret, far, rfl⟩ | ⟨xx, fid, ret, rfl⟩
      · exact ⟨hskip d i v xx ret far hi hP, hi0, hi1⟩
      · exact ⟨hacc d i v mp xx fid ret hi hmp hP, hin i hi⟩)
  refine ⟨v, by simpa using hP, ?_⟩
  rw [Transport_eq_visitAll, hrun]

/-- `Transport2` returns when both indices are slots of the array; the variables
the loop ends with satisfy every property of the indices done so far that holds
at the start and that a step keeps. -/
theorem Transport2_trace (E : Ext R n α Track RK) (sort : Heap α → List Ptr → List Ptr)
    (s : CradleState α) (site : TKalTrackSite R) (ml_to : Ptr)
    (x0 : TVector3 R) (sv : TKalMatrix R n 1) (F Q : TKalMatrix R n n) (help : Track)
    (hrange : IndicesInRange sort s site.measLayer ml_to)
    (P : List Int → RKVars R n Track RK → Prop)
    (h0 : P [] { hel := help, rk := E.rkNew, xx := TVector3.zero, fid := 0, DF := 0, F := 1,
                 Q := 0, sv := sv, ifr := ((lazyUpdate sort s).heap site.measLayer).fIndex,
                 trackPtr := TrackRef.null, log := [] })
    (hacc : ∀ (d : List Int) (i : Int) (v : RKVars R n Track RK) (mp : Ptr) (rk : RK)
      (xx xing : TVector3 R) (fid step : R) (ev : Event R n),
      i ∈ visitOrder ((lazyUpdate sort s).heap site.measLayer).fIndex
        ((lazyUpdate sort s).heap ml_to).fIndex →
      (lazyUpdate sort s).cradle.At v.ifr = some mp →
      ((∃ seed ret, ev = Event.xing i seed
          (searchMode ((lazyUpdate sort s).heap site.measLayer).fIndex
            (increment ((lazyUpdate sort s).heap site.measLayer).fIndex
              ((lazyUpdate sort s).heap ml_to).fIndex) i) ret) ∨
        (∃ st ret, ev = Event.xingRK i st
          (searchMode ((lazyUpdate sort s).heap site.measLayer).fIndex
            (increment ((lazyUpdate sort s).heap site.measLayer).fIndex
              ((lazyUpdate sort s).heap ml_to).fIndex) i) ret)) →
      P d v →
      P (d ++ [i]) (rkAccept E (lazyUpdate sort s).cradle
        ((lazyUpdate sort s).heap site.measLayer).fIndex
        (increment ((lazyUpdate sort s).heap site.measLayer).fIndex
          ((lazyUpdate sort s).heap ml_to).fIndex)
        i ((lazyUpdate sort s).heap mp).body rk xx xing fid step (v.log ++ [ev]) v)) :
    ∃ (v : RKVars R n Track RK) (x1 : TVector3 R) (sv1 : TKalMatrix R n 1),
      P (visitOrder ((lazyUpdate sort s).heap site.measLayer).fIndex
        ((lazyUpdate sort s).heap ml_to).fIndex) v ∧
      ((v.trackPtr = TrackRef.hel ∧ x1 = E.GetPivot v.hel ∧ sv1 = E.PutInto v.hel v.sv) ∨
        (v.trackPtr = TrackRef.rk ∧ x1 = E.RKGetPivot v.rk ∧ sv1 = E.RKPutInto v.rk v.sv)) ∧
      Transport2 E sort s site ml_to x0 sv F Q help = .ok
        { status := 0, state := lazyUpdate sort s, x0 := x1, sv := sv1, F := v.F, Q := v.Q,
          hel := v.hel, log := v.log } := by
  obtain ⟨hfr, hto⟩ := hrange
  have hin : ∀ i, i ∈ visitOrder ((lazyUpdate sort s).heap site.measLayer).fIndex
      ((lazyUpdate sort s).heap ml_to).fIndex →
      0 ≤ i ∧ i < (lazyUpdate sort s).cradle.fCont.length := by
    intro i hi
    rcases visitOrder_mem _ _ i hi with h | h <;> omega
  obtain ⟨v, hrun, hP, _, hptr⟩ := visitAll_trace
    (transport2Body E (lazyUpdate sort s) ((lazyUpdate sort s).heap site.measLayer).fIndex
      (increment ((lazyUpdate sort s).heap site.measLayer).fIndex
        ((lazyUpdate sort s).heap ml_to).fIndex))
    (fun d v => P d v ∧ (0 ≤ v.ifr ∧ v.ifr < (lazyUpdate sort s).cradle.fCont.length) ∧
      (d ≠ [] → v.trackPtr ≠ TrackRef.null))
    (visitOrder ((lazyUpdate sort s).heap site.measLayer).fIndex
      ((lazyUpdate sort s).heap ml_to).fIndex) []
    { hel := help, rk := E.rkNew, xx := TVector3.zero, fid := 0, DF := 0, F := 1, Q := 0,
      sv := sv, ifr := ((lazyUpdate sort s).heap site.measLayer).fIndex,
      trackPtr := TrackRef.null, log := [] }
    ⟨h0, hfr, fun h => absurd rfl h⟩
    (by
      rintro d i v hi ⟨hP, ⟨hi0, hi1⟩, _⟩
      obtain ⟨sp, hsp⟩ := At_isSome (lazyUpdate sort s).cradle i (hin i hi).1 (hin i hi).2
      obtain ⟨mp, hmp⟩ := At_isSome (lazyUpdate sort s).cradle v.ifr hi0 hi1
      obtain ⟨rk, xx, xing, fid, step, ev, hev, hb⟩ := transport2Body_ok E (lazyUpdate sort s)
        ((lazyUpdate sort s).heap site.measLayer).fIndex
        (increment ((lazyUpdate sort s).heap site.measLayer).fIndex
          ((lazyUpdate sort s).heap ml_to).fIndex) i v sp mp hsp hmp
      obtain ⟨_, _, _, _, _, hifr1, hptr, _⟩ := rkAccept_spec E (lazyUpdate sort s).cradle
        ((lazyUpdate sort s).heap site.measLayer).fIndex
        (increment ((lazyUpdate sort s).heap site.measLayer).fIndex
          ((lazyUpdate sort s).heap ml_to).fIndex) i
        ((lazyUpdate sort s).heap mp).body rk xx xing fid step (v.log ++ [ev]) v
      refine ⟨_, hb, hacc d i v mp rk xx xing fid step ev hi hmp hev hP, ?_, fun _ => hptr⟩
      rw [hifr1]
      exact hin i hi)
  have hne : ([] : List Int) ++ visitOrder ((lazyUpdate sort s).heap site.measLayer).fIndex
      ((lazyUpdate sort s).heap ml_to).fIndex ≠ [] := by
    simp [visitOrder, List.range_succ]
  have hP' : P (visitOrder ((lazyUpdate sort s).heap site.measLayer).fIndex
      ((lazyUpdate sort s).heap ml_to).fIndex) v := by simpa using hP
  cases hp : v.trackPtr with
  | null => exact absurd hp (hptr hne)
  | hel =>
    refine ⟨v, E.GetPivot v.hel, E.PutInto v.hel v.sv, hP', Or.inl ⟨hp, rfl, rfl⟩, ?_⟩
    rw [Transport2_eq_visitAll, hrun]
    simp only [hp]
  | rk =>
    refine ⟨v, E.RKGetPivot v.rk, E.RKPutInto v.rk v.sv, hP', Or.inr ⟨hp, rfl, rfl⟩, ?_⟩
    rw [Transport2_eq_visitAll, hrun]
    simp only [hp]

/-- The slots a helical `Transport` visits and names in its record. -/
theorem Transport_visits (E : Ext R n α Track RK) (sort : Heap α → List Ptr → List Ptr)
    (uniformB : Bool) (s : CradleState α) (site : TKalTrackSite R) (ml_to : Ptr)
    (x0 : TVector3 R) (sv : TKalMatrix R n 1) (F Q : TKalMatrix R n n) (help : Track)
    (hrange : IndicesInRange sort s site.measLayer ml_to) :
    ∃ r, Transport E sort uniformB s site ml_to x0 sv F Q help = .ok r ∧
      r.state = lazyUpdate sort s ∧
      visited r.log = visitOrder ((lazyUpdate sort s).heap site.measLayer).fIndex
        ((lazyUpdate sort s).heap ml_to).fIndex ∧
      ∀ e ∈ r.log, 0 ≤ eventLayer e ∧
        eventLayer e < (lazyUpdate sort s).cradle.fCont.length := by
  have hin : ∀ i, i ∈ visitOrder ((lazyUpdate sort s).heap site.measLayer).fIndex
      ((lazyUpdate sort s).heap ml_to).fIndex →
      0 ≤ i ∧ i < (lazyUpdate sort s).cradle.fCont.length := by
    intro i hi
    obtain ⟨hfr, hto⟩ := hrange
    rcases visitOrder_mem _ _ i hi with h | h <;> omega
  obtain ⟨v, ⟨hvis, hlay⟩, hrun⟩ := Transport_trace E sort uniformB s site ml_to x0 sv F Q help
    hrange
    (fun d v => visited v.log = d ∧ ∀ e ∈ v.log, 0 ≤ eventLayer e ∧
      eventLayer e < (lazyUpdate sort s).cradle.fCont.length)
    ⟨rfl, by simp⟩
    (by
      rintro d i v xx ret far hi ⟨hvis, hlay⟩
      refine ⟨by simp [visited_append, visited, hvis], ?_⟩
      intro e he
      simp only [List.mem_append, List.mem_singleton] at he
      rcases he with (he | he) | he
      · exact hlay e he
      · rw [he]; exact hin i hi
      · rw [he]; exact hin i hi)
    (by
      rintro d i v mp xx fid ret hi hmp ⟨hvis, hlay⟩
      have hifr := At_range _ _ _ hmp
      rw [helAccept_log]
      refine ⟨?_, ?_⟩
      · simp only [visited_append, hvis]
        split <;> split <;> simp [visited]
      · intro e he
        simp only [List.mem_append, List.mem_singleton] at he
        rcases he with (((he | he) | he) | he) | he
        · exact hlay e he
        · rw [he]; exact hin i hi
        · split at he
          · rw [List.mem_singleton] at he
            rw [he]; exact hifr
          · cases he
        · rw [he]; exact hin i hi
        · split at he
          · rw [List.mem_singleton] at he
            rw [he]; exact hifr
          · cases he)
  exact ⟨_, hrun, rfl, hvis, hlay⟩

/-- The slots `Transport2` visits and names in its record; it makes a step at each. -/
theorem Transport2_visits (E : Ext R n α Track RK) (sort : Heap α → List Ptr → List Ptr)
    (s : CradleState α) (site : TKalTrackSite R) (ml_to : Ptr)
    (x0 : TVector3 R) (sv : TKalMatrix R n 1) (F Q : TKalMatrix R n n) (help : Track)
    (hrange : IndicesInRange sort s site.measLayer ml_to) :
    ∃ r, Transport2 E sort s site ml_to x0 sv F Q help = .ok r ∧
      r.state = lazyUpdate sort s ∧
      visited r.log = visitOrder ((lazyUpdate sort s).heap site.measLayer).fIndex
        ((lazyUpdate sort s).heap ml_to).fIndex ∧
      (∀ e ∈ r.log, 0 ≤ eventLayer e ∧
        eventLayer e < (lazyUpdate sort s).cradle.fCont.length) ∧
      (acceptedSteps r.log).length = (visited r.log).length := by
  have hin : ∀ i, i ∈ visitOrder ((lazyUpdate sort s).heap site.measLayer).fIndex
      ((lazyUpdate sort s).heap ml_to).fIndex →
      0 ≤ i ∧ i < (lazyUpdate sort s).cradle.fCont.length := by
    intro i hi
    obtain ⟨hfr, hto⟩ := hrange
    rcases visitOrder_mem _ _ i hi with h | h <;> omega
  obtain ⟨v, x1, sv1, ⟨hvis, hlay, hlen⟩, _, hrun⟩ := Transport2_trace E sort s site ml_to x0
    sv F Q help hrange
    (fun d v => visited v.log = d ∧ (∀ e ∈ v.log, 0 ≤ eventLayer e ∧
      eventLayer e < (lazyUpdate sort s).cradle.fCont.length) ∧
      (acceptedSteps v.log).length = (visited v.log).length)
    ⟨rfl, by simp, rfl⟩
    (by
      rintro d i v mp rk xx xing fid step ev hi hmp hev ⟨hvis, hlay, hlen⟩
      have hifr := At_range _ _ _ hmp
      have hev1 : visited [ev] = [i] ∧ acceptedSteps [ev] = [] ∧ eventLayer ev = i := by
        rcases hev with ⟨_, _, h⟩ | ⟨_, _, h⟩ <;> rw [h] <;> exact ⟨rfl, rfl, rfl⟩
      rw [rkAccept_log]
      cases hm : ((lazyUpdate sort s).cradle.IsMSOn &&
          decide (i ≠ ((lazyUpdate sort s).heap site.measLayer).fIndex)) <;>
        cases hd : ((lazyUpdate sort s).cradle.IsDEDXOn &&
          decide (i ≠ ((lazyUpdate sort s).heap site.measLayer).fIndex)) <;>
        simp only [Bool.false_eq_true, if_false, if_true, List.append_nil] <;>
        refine ⟨?_, ?_, ?_⟩ <;>
        first
        | (simp only [visited_append, acceptedSteps_append, hvis, hev1.1, hev1.2.1,
            List.length_append, hlen]
           simp [visited, acceptedSteps])
        | (intro e he
           simp only [List.mem_append, List.mem_singleton] at he
           rcases he with he | he
           · rcases he with he | he
             · first
               | exact hlay e he
               | (rcases he with he | he
                  · first
                    | exact hlay e he
                    | (rcases he with he | he
                       · exact hlay e he
                       · rw [he, hev1.2.2]; exact hin i hi)
                  · first
                    | (rw [he, hev1.2.2]; exact hin i hi)
                    | (rw [he]; exact hifr))
             · first
               | (rw [he, hev1.2.2]; exact hin i hi)
               | (rw [he]; exact hifr)
               | (rw [he]; exact hin i hi)
           · first
             | (rw [he]; exact hin i hi)
             | (rw [he]; exact hifr)))
  exact ⟨_, hrun, rfl, hvis, hlay, hlen⟩

/-- An accepted step of `Transport` that visits the source layer, whatever the
toggles. -/
theorem helAccept_source (E : Ext R n α Track RK) (c : TKalDetCradle) (k : HelConsts R)
    (ml : α) (xx : TVector3 R) (fid : R) (log1 : List (Event R n)) (v : HelVars R n Track) :
    helAccept E c k k.fridx ml xx fid log1 v =
      { hel := (E.MoveTo v.hel xx fid v.DF none).1,
        xx := xx,
        fid := 0,
        DF := fixT0 (E.MoveTo v.hel xx fid v.DF none).2.2,
        F := fixT0 (E.MoveTo v.hel xx fid v.DF none).2.2 * v.F,
        Q := fixT0 (E.MoveTo v.hel xx fid v.DF none).2.2 * (v.Q + 0) *
          (fixT0 (E.MoveTo v.hel xx fid v.DF none).2.2).transpose,
        sv := v.sv,
        ifr := k.fridx,
        log := log1 ++ [Event.step k.fridx (fixT0 (E.MoveTo v.hel xx fid v.DF none).2.2) 0] } := by
  simp [helAccept]

/-- The step of `Transport2` that visits the source layer, whatever the toggles. -/
theorem rkAccept_source (E : Ext R n α Track RK) (c : TKalDetCradle) (fridx di : Int)
    (ml : α) (rk : RK) (xx xing : TVector3 R) (fid step : R) (log1 : List (Event R n))
    (v : RKVars R n Track RK) :
    rkAccept E c fridx di fridx ml rk xx xing fid step log1 v =
      { hel := (E.MoveTo v.hel xing fid v.DF (some false)).1,
        rk := rk,
        xx := xx,
        fid := (E.MoveTo v.hel xing fid v.DF (some false)).2.1,
        DF := fixT0 (E.MoveTo v.hel xing fid v.DF (some false)).2.2,
        F := fixT0 (E.MoveTo v.hel xing fid v.DF (some false)).2.2 * v.F,
        Q := fixT0 (E.MoveTo v.hel xing fid v.DF (some false)).2.2 * (v.Q + 0) *
          (fixT0 (E.MoveTo v.hel xing fid v.DF (some false)).2.2).transpose,
        sv := v.sv,
        ifr := fridx,
        trackPtr := TrackRef.hel,
        log := log1 ++
          [Event.step fridx (fixT0 (E.MoveTo v.hel xing fid v.DF (some false)).2.2) 0] } := by
  simp [rkAccept]

end Traces

section LoopClaims

variable {R : Type} [LinearOrderedField R] {n : Nat} {α Track RK : Type}

/-- C18. The layer loop of `Transport` and `Transport2`, for every source index
`fridx` and destination index `toidx` and whatever its body: it runs the body on
the `|toidx - fridx| + 1` indices `fridx, fridx + di, ..., toidx`, once each in
this order, with `di = +1` when `toidx ≥ fridx` and `-1` otherwise, and stops
(short of a body that faults).  When both indices are slots of the array, so is
every index visited, both transports return, the slots they searched are
exactly these, and every slot their record names (visited layer or remembered
layer) is a slot of the array. -/
theorem transport_loop_visits (E : Ext R n α Track RK) (sort : Heap α → List Ptr → List Ptr)
    (uniformB : Bool) (s : CradleState α) (site : TKalTrackSite R) (ml_to : Ptr)
    (x0 : TVector3 R) (sv : TKalMatrix R n 1) (F Q : TKalMatrix R n n) (help : Track)
    (hrange : IndicesInRange sort s site.measLayer ml_to) :
    (∀ (σ : Type) (body : Int → σ → Except Fault σ) (fridx toidx : Int) (s0 : σ),
      forLoop body (if fridx > toidx then -1 else 1) toidx ((toidx - fridx).natAbs + 1) fridx s0 =
        visitAll body (visitOrder fridx toidx) s0) ∧
    (∀ fridx toidx : Int,
      (visitOrder fridx toidx).length = (toidx - fridx).natAbs + 1 ∧
      (∀ (j : Nat) (hj : j < (visitOrder fridx toidx).length),
        (visitOrder fridx toidx).get ⟨j, hj⟩ =
          fridx + (if toidx ≥ fridx then 1 else -1) * (j : Int)) ∧
      fridx + (if toidx ≥ fridx then 1 else -1) * ((toidx - fridx).natAbs : Int) = toidx ∧
      (visitOrder fridx toidx).Nodup) ∧
    (∀ i ∈ visitOrder ((lazyUpdate sort s).heap site.measLayer).fIndex
        ((lazyUpdate sort s).heap ml_to).fIndex,
      0 ≤ i ∧ i < (lazyUpdate sort s).cradle.fCont.length) ∧
    (∃ r, Transport E sort uniformB s site ml_to x0 sv F Q help = .ok r ∧
      visited r.log = visitOrder ((lazyUpdate sort s).heap site.measLayer).fIndex
        ((lazyUpdate sort s).heap ml_to).fIndex ∧
      ∀ e ∈ r.log, 0 ≤ eventLayer e ∧
        eventLayer e < (lazyUpdate sort s).cradle.fCont.length) ∧
    (∃ r, Transport2 E sort s site ml_to x0 sv F Q help = .ok r ∧
      visited r.log = visitOrder ((lazyUpdate sort s).heap site.measLayer).fIndex
        ((lazyUpdate sort s).heap ml_to).fIndex ∧
      ∀ e ∈ r.log, 0 ≤ eventLayer e ∧
        eventLayer e < (lazyUpdate sort s).cradle.fCont.length) := by
  refine ⟨?_, ?_, ?_, ?_, ?_⟩
  · intro σ body fridx toidx s0
    exact forLoop_eq_visitAll body fridx toidx s0
  · intro fridx toidx
    have hinc : increment fridx toidx = if toidx ≥ fridx then 1 else -1 := by
      unfold increment
      split <;> split <;> first | rfl | omega
    refine ⟨by simp [visitOrder], ?_, ?_, ?_⟩
    · intro j hj
      simp [visitOrder, hinc]
    · split <;> omega
    · unfold visitOrder
      refine (List.nodup_range _).map ?_
      intro a b hab
      have hab1 : fridx + increment fridx toidx * (a : Int) =
          fridx + increment fridx toidx * (b : Int) := hab
      rcases increment_cases fridx toidx with ⟨h, _⟩ | ⟨h, _⟩ <;> rw [h] at hab1 <;> omega
  · intro i hi
    obtain ⟨hfr, hto⟩ := hrange
    rcases visitOrder_mem _ _ i hi with h | h <;> omega
  · obtain ⟨r, hrun, _, hvis, hlay⟩ := Transport_visits E sort uniformB s site ml_to x0 sv F Q
      help hrange
    exact ⟨r, hrun, hvis, hlay⟩
  · obtain ⟨r, hrun, _, hvis, hlay, _⟩ := Transport2_visits E sort s site ml_to x0 sv F Q
      help hrange
    exact ⟨r, hrun, hvis, hlay⟩

theorem transport_loop_visits_witness :
    IndicesInRange Bench.stableSort Bench.state Bench.site.measLayer 12 ∧
    visitOrder 0 2 = [0, 1, 2] ∧
    ∃ r, Transport Bench.ext Bench.stableSort true Bench.state Bench.site 12 ⟨0, 0, 0⟩
        Bench.sv0 Bench.stale Bench.stale Bench.track = .ok r ∧
      visited r.log = visitOrder ((lazyUpdate Bench.stableSort Bench.state).heap
          Bench.site.measLayer).fIndex
        ((lazyUpdate Bench.stableSort Bench.state).heap 12).fIndex ∧
      ∀ e ∈ r.log, 0 ≤ eventLayer e ∧
        eventLayer e < (lazyUpdate Bench.stableSort Bench.state).cradle.fCont.length :=
  ⟨by decide, by decide,
    (transport_loop_visits Bench.ext Bench.stableSort true Bench.state Bench.site 12
      ⟨0, 0, 0⟩ Bench.sv0 Bench.stale Bench.stale Bench.track (by decide)).2.2.2.1⟩

/-- C17. In one helical `Transport` call, made with both indices in the array, the
out-going flag is the one value computed before the loop from the crossing with
the destination surface, `-fito * (tangent(fito) . outwardNormal(xto)) < 0`, and
every call of `CalcQms` and of `GetEnergyLoss` of the run is given this value,
whichever layer is visited. -/
theorem Transport_isout_once (E : Ext R n α Track RK) (sort : Heap α → List Ptr → List Ptr)
    (uniformB : Bool) (s : CradleState α) (site : TKalTrackSite R) (ml_to : Ptr)
    (x0 : TVector3 R) (sv : TKalMatrix R n 1) (F Q : TKalMatrix R n n) (help : Track)
    (hrange : IndicesInRange sort s site.measLayer ml_to) :
    (helConsts E uniformB (lazyUpdate sort s) site ml_to help).isout =
      decide
        ((-(E.CalcXingPointWith ((lazyUpdate sort s).heap ml_to).body help TVector3.zero 0 0
              (some (if uniformB then 1 / 100000000 else 1 / 100000))).2.2) *
          (TVector3.Dot
            ⟨E.CalcDxDphi help (E.CalcXingPointWith ((lazyUpdate sort s).heap ml_to).body help
                TVector3.zero 0 0 (some (if uniformB then 1 / 100000000 else 1 / 100000))).2.2
              0 0,
             E.CalcDxDphi help (E.CalcXingPointWith ((lazyUpdate sort s).heap ml_to).body help
                TVector3.zero 0 0 (some (if uniformB then 1 / 100000000 else 1 / 100000))).2.2
              1 0,
             E.CalcDxDphi help (E.CalcXingPointWith ((lazyUpdate sort s).heap ml_to).body help
                TVector3.zero 0 0 (some (if uniformB then 1 / 100000000 else 1 / 100000))).2.2
              2 0⟩
            (E.GetOutwardNormal ((lazyUpdate sort s).heap ml_to).body
              (E.CalcXingPointWith ((lazyUpdate sort s).heap ml_to).body help TVector3.zero 0 0
                (some (if uniformB then 1 / 100000000 else 1 / 100000))).2.1)) < 0) ∧
    ∃ r, Transport E sort uniformB s site ml_to x0 sv F Q help = .ok r ∧
      ∀ e ∈ r.log, ∀ b, eventIsout e = some b →
        b = (helConsts E uniformB (lazyUpdate sort s) site ml_to help).isout := by
  refine ⟨rfl, ?_⟩
  obtain ⟨v, hI, hrun⟩ := Transport_run E sort uniformB s site ml_to x0 sv F Q help hrange
    (fun v => ∀ e ∈ v.log, ∀ b, eventIsout e = some b →
      b = (helConsts E uniformB (lazyUpdate sort s) site ml_to help).isout)
    (by simp)
    (by
      intro v ito xx mode ret far hI e he b hb
      simp only [List.mem_append, List.mem_singleton] at he
      rcases he with (he | he) | he
      · exact hI e he b hb
      · rw [he] at hb; cases hb
      · rw [he] at hb; cases hb)
    (by
      intro v ito ml xx fid mode ret hI e he b hb
      rw [helAccept_log] at he
      simp only [List.mem_append, List.mem_singleton] at he
      rcases he with (((he | he) | he) | he) | he
      · exact hI e he b hb
      · rw [he] at hb; cases hb
      · split at he
        · rw [List.mem_singleton] at he
          rw [he] at hb
          injection hb with hb
          exact hb.symm
        · cases he
      · rw [he] at hb; cases hb
      · split at he
        · rw [List.mem_singleton] at he
          rw [he] at hb
          injection hb with hb
          exact hb.symm
        · cases he)
  exact ⟨_, hrun, hI⟩

theorem Transport_isout_once_witness :
    IndicesInRange Bench.stableSort Bench.state Bench.site.measLayer 12 ∧
    (helConsts Bench.ext true (lazyUpdate Bench.stableSort Bench.state) Bench.site 12
      Bench.track).isout = true ∧
    ∃ r, Transport Bench.ext Bench.stableSort true Bench.state Bench.site 12 ⟨0, 0, 0⟩
        Bench.sv0 Bench.stale Bench.stale Bench.track = .ok r ∧
      ∀ e ∈ r.log, ∀ b, eventIsout e = some b →
        b = (helConsts Bench.ext true (lazyUpdate Bench.stableSort Bench.state) Bench.site 12
          Bench.track).isout :=
  ⟨by decide, by decide!,
    (Transport_isout_once Bench.ext Bench.stableSort true Bench.state Bench.site 12
      ⟨0, 0, 0⟩ Bench.sv0 Bench.stale Bench.stale Bench.track (by decide)).2⟩

/-- C15. In both transport loops the step that visits the source layer applies no
material effect, whatever the toggles: the scattering contribution in its update
of `Q` is the zero matrix, the state vector is left as it was (no energy-loss
delta), and the step records no call of the material model.  So a transport
whose destination index is the source index, called with that index in the
array, returns `Q = 0` and records no material call; `Transport2` makes one step
and returns its Jacobian segment in `F`; the helical `Transport` does the same
when the crossing with the source layer is accepted, and returns the identity in
`F` when that visit is skipped. -/
theorem source_step_no_material (E : Ext R n α Track RK)
    (sort : Heap α → List Ptr → List Ptr) (uniformB : Bool) (s : CradleState α)
    (site : TKalTrackSite R) (ml_to : Ptr) (x0 : TVector3 R) (sv : TKalMatrix R n 1)
    (F Q : TKalMatrix R n n) (help : Track)
    (hrange : IndicesInRange sort s site.measLayer ml_to)
    (hsame : ((lazyUpdate sort s).heap ml_to).fIndex =
      ((lazyUpdate sort s).heap site.measLayer).fIndex) :
    (∀ (c : TKalDetCradle) (k : HelConsts R) (ml : α) (xx : TVector3 R) (fid : R)
        (log1 : List (Event R n)) (v : HelVars R n Track),
      (helAccept E c k k.fridx ml xx fid log1 v).Q =
          fixT0 (E.MoveTo v.hel xx fid v.DF none).2.2 * (v.Q + 0) *
            (fixT0 (E.MoveTo v.hel xx fid v.DF none).2.2).transpose ∧
        (helAccept E c k k.fridx ml xx fid log1 v).sv = v.sv ∧
        (helAccept E c k k.fridx ml xx fid log1 v).hel = (E.MoveTo v.hel xx fid v.DF none).1 ∧
        (helAccept E c k k.fridx ml xx fid log1 v).log =
          log1 ++ [Event.step k.fridx (fixT0 (E.MoveTo v.hel xx fid v.DF none).2.2) 0]) ∧
    (∀ (c : TKalDetCradle) (fridx di : Int) (ml : α) (rk : RK) (xx xing : TVector3 R)
        (fid step : R) (log1 : List (Event R n)) (v : RKVars R n Track RK),
      (rkAccept E c fridx di fridx ml rk xx xing fid step log1 v).Q =
          fixT0 (E.MoveTo v.hel xing fid v.DF (some false)).2.2 * (v.Q + 0) *
            (fixT0 (E.MoveTo v.hel xing fid v.DF (some false)).2.2).transpose ∧
        (rkAccept E c fridx di fridx ml rk xx xing fid step log1 v).sv = v.sv ∧
        (rkAccept E c fridx di fridx ml rk xx xing fid step log1 v).hel =
          (E.MoveTo v.hel xing fid v.DF (some false)).1 ∧
        (rkAccept E c fridx di fridx ml rk xx xing fid step log1 v).log =
          log1 ++
            [Event.step fridx (fixT0 (E.MoveTo v.hel xing fid v.DF (some false)).2.2) 0]) ∧
    (∃ r, Transport E sort uniformB s site ml_to x0 sv F Q help = .ok r ∧
      r.Q = 0 ∧ (∀ e ∈ r.log, materialCall e = false) ∧
      ((acceptedSteps r.log = [] ∧ r.F = 1) ∨
        ∃ DF, acceptedSteps r.log = [(DF, 0)] ∧ r.F = DF)) ∧
    (∃ r, Transport2 E sort s site ml_to x0 sv F Q help = .ok r ∧
      r.Q = 0 ∧ (∀ e ∈ r.log, materialCall e = false) ∧
      ∃ DF, acceptedSteps r.log = [(DF, 0)] ∧ r.F = DF) := by
  have hvo : visitOrder ((lazyUpdate sort s).heap site.measLayer).fIndex
      ((lazyUpdate sort s).heap ml_to).fIndex =
      [((lazyUpdate sort s).heap site.measLayer).fIndex] := by
    rw [hsame, visitOrder_self]
  obtain ⟨sp, hsp⟩ := At_isSome (lazyUpdate sort s).cradle
    ((lazyUpdate sort s).heap site.measLayer).fIndex hrange.1.1 hrange.1.2
  refine ⟨?_, ?_, ?_, ?_⟩
  · intro c k ml xx fid log1 v
    rw [helAccept_source]
    exact ⟨rfl, rfl, rfl, rfl⟩
  · intro c fridx di ml rk xx xing fid step log1 v
    rw [rkAccept_source]
    exact ⟨rfl, rfl, rfl, rfl⟩
  · rw [Transport_eq_visitAll, hvo]
    obtain ⟨v1, hb, hform⟩ := transportBody_summary E (lazyUpdate sort s)
      (helConsts E uniformB (lazyUpdate sort s) site ml_to help)
      ((lazyUpdate sort s).heap site.measLayer).fIndex
      { hel := help, xx := TVector3.zero, fid := 0, DF := 0, F := 1, Q := 0, sv := sv,
        ifr := ((lazyUpdate sort s).heap site.measLayer).fIndex, log := [] } sp sp hsp hsp
    simp only [visitAll, hb]
    refine ⟨_, rfl, ?_⟩
    rcases hform with ⟨xx, ret, far, rfl⟩ | ⟨xx, fid, ret, rfl⟩
    · refine ⟨rfl, ?_, Or.inl ⟨by simp [acceptedSteps], rfl⟩⟩
      intro e he
      simp only [List.nil_append, List.cons_append, List.mem_cons, List.mem_singleton,
        List.not_mem_nil, or_false] at he
      rcases he with he | he <;> rw [he] <;> rfl
    · have hk : (helConsts E uniformB (lazyUpdate sort s) site ml_to help).fridx =
          ((lazyUpdate sort s).heap site.measLayer).fIndex := rfl
      rw [← hk, helAccept_source]
      refine ⟨by simp, ?_, Or.inr ⟨fixT0 (E.MoveTo help xx fid 0 none).2.2,
        by simp [acceptedSteps], by simp⟩⟩
      intro e he
      simp only [List.nil_append, List.cons_append, List.mem_cons, List.mem_singleton,
        List.not_mem_nil, or_false] at he
      rcases he with he | he <;> rw [he] <;> rfl
  · rw [Transport2_eq_visitAll, hvo]
    obtain ⟨rk, xx, xing, fid, step, ev, hev, hb⟩ := transport2Body_ok E (lazyUpdate sort s)
      ((lazyUpdate sort s).heap site.measLayer).fIndex
      (increment ((lazyUpdate sort s).heap site.measLayer).fIndex
        ((lazyUpdate sort s).heap ml_to).fIndex)
      ((lazyUpdate sort s).heap site.measLayer).fIndex
      { hel := help, rk := E.rkNew, xx := TVector3.zero, fid := 0, DF := 0, F := 1, Q := 0,
        sv := sv, ifr := ((lazyUpdate sort s).heap site.measLayer).fIndex,
        trackPtr := TrackRef.null, log := [] } sp sp hsp hsp
    simp only [visitAll, hb, rkAccept_source]
    refine ⟨_, rfl, by simp, ?_,
      ⟨fixT0 (E.MoveTo help xing fid 0 (some false)).2.2, ?_, by simp⟩⟩
    · intro e he
      simp only [List.nil_append, List.cons_append, List.mem_cons, List.mem_singleton,
        List.not_mem_nil, or_false] at he
      rcases he with he | he
      · rw [he]
        rcases hev with ⟨_, _, h⟩ | ⟨_, _, h⟩ <;> rw [h] <;> rfl
      · rw [he]; rfl
    · rcases hev with ⟨_, _, h⟩ | ⟨_, _, h⟩ <;> rw [h] <;> simp [acceptedSteps]

theorem source_step_no_material_witness :
    (IndicesInRange Bench.stableSort Bench.state Bench.site.measLayer 10 ∧
      ((lazyUpdate Bench.stableSort Bench.state).heap 10).fIndex =
        ((lazyUpdate Bench.stableSort Bench.state).heap Bench.site.measLayer).fIndex) ∧
    (∃ r, Transport Bench.ext Bench.stableSort true Bench.state Bench.site 10 ⟨0, 0, 0⟩
        Bench.sv0 Bench.stale Bench.stale Bench.track = .ok r ∧
      r.Q = 0 ∧ (∀ e ∈ r.log, materialCall e = false) ∧
      ((acceptedSteps r.log = [] ∧ r.F = 1) ∨
        ∃ DF, acceptedSteps r.log = [(DF, 0)] ∧ r.F = DF)) ∧
    (∃ r, Transport2 Bench.ext Bench.stableSort Bench.state Bench.site 10 ⟨0, 0, 0⟩
        Bench.sv0 Bench.stale Bench.stale Bench.track = .ok r ∧
      r.Q = 0 ∧ (∀ e ∈ r.log, materialCall e = false) ∧
      ∃ DF, acceptedSteps r.log = [(DF, 0)] ∧ r.F = DF) :=
  ⟨⟨by decide, by decide⟩,
    (source_step_no_material Bench.ext Bench.stableSort true Bench.state Bench.site 10
      ⟨0, 0, 0⟩ Bench.sv0 Bench.stale Bench.stale Bench.track (by decide) (by decide)).2.2⟩

/-- C16, as stated, fails.  On the bench with a material model that depends on the
layer, the helical transport from slot 0 to slot 1 makes its second step to the
layer in slot 1 (at address 11), and the scattering contribution of that step
and the energy-loss delta added to `sv(2,0)` are those of the layer in slot 0 (at
address 10), not those of the layer visited. -/
theorem material_layer_counterexample :
    ∃ r, Transport Bench.extMat Bench.stableSort true Bench.state Bench.site 11 ⟨0, 0, 0⟩
        Bench.sv0 Bench.stale Bench.stale Bench.track = .ok r ∧
      (acceptedSteps r.log =
          [(Bench.drift 1, 0),
           (Bench.drift 1, Bench.extMat.CalcQms (Bench.heap 10).body true ⟨1, 1⟩ 1 0)] ∧
        Bench.extMat.CalcQms (Bench.heap 10).body true ⟨1, 1⟩ 1 0 ≠
          Bench.extMat.CalcQms (Bench.heap 11).body true ⟨1, 1⟩ 1 0 ∧
        r.sv 2 0 = 1 + Bench.extMat.GetEnergyLoss (Bench.heap 10).body true ⟨2, 1⟩ 1 ∧
        r.sv 2 0 ≠ 1 + Bench.extMat.GetEnergyLoss (Bench.heap 11).body true ⟨2, 1⟩ 1) :=
  exists_of_check (by decide!)

/-- C16, amended.  At an accepted step that visits a layer other than the source
layer, in slot `ito`, the scattering contribution (when enabled) and the
energy-loss delta (when enabled) are those of the material model of the layer in
slot `ifr`, the layer remembered from before the step (the source layer, or the
layer of the latest accepted step), and the step then remembers `ito`; so in
`Transport` (first part) and in `Transport2` (second part). -/
theorem material_from_remembered_layer (E : Ext R n α Track RK) (s : CradleState α)
    (k : HelConsts R) (ito : Int) (v : HelVars R n Track) (w : RKVars R n Track RK)
    (sp mp mq : Ptr)
    (hsp : s.cradle.At ito = some sp) (hmp : s.cradle.At v.ifr = some mp)
    (hmq : s.cradle.At w.ifr = some mq) (hne : ito ≠ k.fridx)
    (hret : (E.CalcXingPointWith (s.heap sp).body v.hel v.xx v.fid
      (searchMode k.fridx k.di ito) (some k.eps)).1 ≠ 0)
    (hnear : ¬ farSide E k (E.CalcXingPointWith (s.heap sp).body v.hel v.xx v.fid
      (searchMode k.fridx k.di ito) (some k.eps)).2.1) :
    (∃ v1, transportBody E s k ito v = .ok v1 ∧ v1.ifr = ito ∧
      v1.Q = v1.DF * (v.Q +
        (if s.cradle.IsMSOn = true then
          E.CalcQms (s.heap mp).body k.isout v.hel
            (E.CalcXingPointWith (s.heap sp).body v.hel v.xx v.fid
              (searchMode k.fridx k.di ito) (some k.eps)).2.2 0
        else 0)) * v1.DF.transpose ∧
      v1.sv =
        (if s.cradle.IsDEDXOn = true then
          addKappa
            (E.PutInto (E.MoveTo v.hel
              (E.CalcXingPointWith (s.heap sp).body v.hel v.xx v.fid
                (searchMode k.fridx k.di ito) (some k.eps)).2.1
              (E.CalcXingPointWith (s.heap sp).body v.hel v.xx v.fid
                (searchMode k.fridx k.di ito) (some k.eps)).2.2 v.DF none).1 v.sv)
            (E.GetEnergyLoss (s.heap mp).body k.isout
              (E.MoveTo v.hel
                (E.CalcXingPointWith (s.heap sp).body v.hel v.xx v.fid
                  (searchMode k.fridx k.di ito) (some k.eps)).2.1
                (E.CalcXingPointWith (s.heap sp).body v.hel v.xx v.fid
                  (searchMode k.fridx k.di ito) (some k.eps)).2.2 v.DF none).1
              (E.MoveTo v.hel
                (E.CalcXingPointWith (s.heap sp).body v.hel v.xx v.fid
                  (searchMode k.fridx k.di ito) (some k.eps)).2.1
                (E.CalcXingPointWith (s.heap sp).body v.hel v.xx v.fid
                  (searchMode k.fridx k.di ito) (some k.eps)).2.2 v.DF none).2.1)
        else v.sv)) ∧
    (∃ w1, transport2Body E s k.fridx k.di ito w = .ok w1 ∧ w1.ifr = ito ∧
      w1.Q = w1.DF * (w.Q +
        (if s.cradle.IsMSOn = true then
          E.CalcQms (s.heap mq).body (decide (k.di > 0)) w.hel w.fid 0
        else 0)) * w1.DF.transpose ∧
      w1.sv =
        (if s.cradle.IsDEDXOn = true then
          addKappa
            (E.PutInto (E.SetToTrack (E.RKMoveTo (E.SetFromTrack w.rk w.hel)
              (E.CalcXingPointWithRK (s.heap sp).body (E.SetFromTrack w.rk w.hel)
                TVector3.zero (1 / 100) (searchMode k.fridx k.di ito)).2.1
              (E.CalcXingPointWithRK (s.heap sp).body (E.SetFromTrack w.rk w.hel)
                TVector3.zero (1 / 100) (searchMode k.fridx k.di ito)).2.2 w.DF).1 w.hel) w.sv)
            (E.GetEnergyLoss (s.heap mq).body (decide (k.di > 0))
              (E.SetToTrack (E.RKMoveTo (E.SetFromTrack w.rk w.hel)
                (E.CalcXingPointWithRK (s.heap sp).body (E.SetFromTrack w.rk w.hel)
                  TVector3.zero (1 / 100) (searchMode k.fridx k.di ito)).2.1
                (E.CalcXingPointWithRK (s.heap sp).body (E.SetFromTrack w.rk w.hel)
                  TVector3.zero (1 / 100) (searchMode k.fridx k.di ito)).2.2 w.DF).1 w.hel)
              w.fid)
        else w.sv)) := by
  constructor
  · refine ⟨_, transportBody_accept E s k ito v sp mp hsp hmp hret hnear, rfl, ?_, ?_⟩
    · cases hm : s.cradle.IsMSOn <;> simp [helAccept, hm, hne]
    · cases hd : s.cradle.IsDEDXOn <;> simp [helAccept, hd, hne]
  · have hb : transport2Body E s k.fridx k.di ito w = .ok
        (rkAccept E s.cradle k.fridx k.di ito (s.heap mq).body (E.SetFromTrack w.rk w.hel) w.xx
          (E.CalcXingPointWithRK (s.heap sp).body (E.SetFromTrack w.rk w.hel) TVector3.zero
            (1 / 100) (searchMode k.fridx k.di ito)).2.1
          w.fid
          (E.CalcXingPointWithRK (s.heap sp).body (E.SetFromTrack w.rk w.hel) TVector3.zero
            (1 / 100) (searchMode k.fridx k.di ito)).2.2
          (w.log ++ [Event.xingRK ito (1 / 100) (searchMode k.fridx k.di ito)
            (E.CalcXingPointWithRK (s.heap sp).body (E.SetFromTrack w.rk w.hel) TVector3.zero
              (1 / 100) (searchMode k.fridx k.di ito)).1]) w) := by
      simp only [transport2Body, hsp, hmq, if_neg hne]
    refine ⟨_, hb, rfl, ?_, ?_⟩
    · cases hm : s.cradle.IsMSOn <;> simp [rkAccept, hm, hne]
    · cases hd : s.cradle.IsDEDXOn <;> simp [rkAccept, hd, hne]

theorem material_from_remembered_layer_witness :
    (Bench.state.cradle.At 1 = some 11 ∧ Bench.state.cradle.At Bench.afterSource.ifr = some 10 ∧
      Bench.state.cradle.At Bench.afterSourceRK.ifr = some 10 ∧
      (1 : Int) ≠ Bench.consts01.fridx ∧
      (Bench.extMat.CalcXingPointWith (Bench.state.heap 11).body Bench.afterSource.hel
        Bench.afterSource.xx Bench.afterSource.fid
        (searchMode Bench.consts01.fridx Bench.consts01.di 1) (some Bench.consts01.eps)).1 ≠ 0 ∧
      ¬ farSide Bench.extMat Bench.consts01
        (Bench.extMat.CalcXingPointWith (Bench.state.heap 11).body Bench.afterSource.hel
          Bench.afterSource.xx Bench.afterSource.fid
          (searchMode Bench.consts01.fridx Bench.consts01.di 1)
          (some Bench.consts01.eps)).2.1) ∧
    (∃ v1, transportBody Bench.extMat Bench.state Bench.consts01 1 Bench.afterSource = .ok v1 ∧
      v1.ifr = 1) ∧
    (∃ w1, transport2Body Bench.extMat Bench.state Bench.consts01.fridx Bench.consts01.di 1
        Bench.afterSourceRK = .ok w1 ∧ w1.ifr = 1) :=
  ⟨⟨by decide, by decide, by decide, by decide, by decide!, by decide!⟩,
    (material_from_remembered_layer Bench.extMat Bench.state Bench.consts01 1 Bench.afterSource
      Bench.afterSourceRK 11 10 10 (by decide) (by decide) (by decide) (by decide)
      (by decide!) (by decide!)).1.imp (fun _ h => ⟨h.1, h.2.1⟩),
    (material_from_remembered_layer Bench.extMat Bench.state Bench.consts01 1 Bench.afterSource
      Bench.afterSourceRK 11 10 10 (by decide) (by decide) (by decide) (by decide)
      (by decide!) (by decide!)).2.imp (fun _ h => ⟨h.1, h.2.1⟩)⟩

/-- C12 fails on the code.  On the bench, `Transport2` from slot 0 to slot 3, whose
surface is never crossed: the crossing search on slot 3 returns 0, and yet the run
makes a step to slot 3, skips nothing, and moves the track to the point the
search left untouched, the origin.  The helical `Transport` on the same input
skips that visit. -/
theorem Transport2_steps_after_failed_search :
    (∃ r, Transport2 Bench.ext Bench.stableSort Bench.state Bench.site 13 ⟨0, 0, 0⟩
        Bench.sv0 Bench.stale Bench.stale Bench.track = .ok r ∧
      (searchFailed 3 r.log = true ∧ visitAccepted 3 r.log = true ∧
        visitSkipped 3 r.log = false ∧ (acceptedSteps r.log).length = 4 ∧
        r.x0 = ⟨0, 0, 0⟩)) ∧
    (∃ r, Transport Bench.ext Bench.stableSort true Bench.state Bench.site 13 ⟨0, 0, 0⟩
        Bench.sv0 Bench.stale Bench.stale Bench.track = .ok r ∧
      (searchFailed 3 r.log = true ∧ visitAccepted 3 r.log = false ∧
        visitSkipped 3 r.log = true)) :=
  ⟨exists_of_check (by decide!), exists_of_check (by decide!)⟩

end LoopClaims

section SiteClaims

variable {R : Type} [LinearOrderedField R] {n : Nat} {α Track RK Frame Str : Type}

theorem lazyUpdate_fDone (sort : Heap α → List Ptr → List Ptr) (s : CradleState α) :
    (lazyUpdate sort s).cradle.fDone = true := by
  unfold lazyUpdate
  split
  · assumption
  · rfl

theorem lazyUpdate_idem (sort : Heap α → List Ptr → List Ptr) (s : CradleState α) :
    lazyUpdate sort (lazyUpdate sort s) = lazyUpdate sort s := by
  have h := lazyUpdate_fDone sort s
  generalize lazyUpdate sort s = t at h
  simp [lazyUpdate, h]

theorem lazyUpdate_dirty (sort : Heap α → List Ptr → List Ptr) (s : CradleState α)
    (h : s.cradle.fDone = false) : lazyUpdate sort s = Update sort s := by
  simp [lazyUpdate, h]

/-- The internal `Transport` on a cradle is the same run as on the cradle after
`if (!fDone) Update();`. -/
theorem Transport_lazy (E : Ext R n α Track RK) (sort : Heap α → List Ptr → List Ptr)
    (uniformB : Bool) (s : CradleState α) (site : TKalTrackSite R) (ml_to : Ptr)
    (x0 : TVector3 R) (sv : TKalMatrix R n 1) (F Q : TKalMatrix R n n) (help : Track) :
    Transport E sort uniformB (lazyUpdate sort s) site ml_to x0 sv F Q help =
      Transport E sort uniformB s site ml_to x0 sv F Q help := by
  simp only [Transport, lazyUpdate_idem]

/-- `Transport2` on a cradle is the same run as on the cradle after
`if (!fDone) Update();`. -/
theorem Transport2_lazy (E : Ext R n α Track RK) (sort : Heap α → List Ptr → List Ptr)
    (s : CradleState α) (site : TKalTrackSite R) (ml_to : Ptr)
    (x0 : TVector3 R) (sv : TKalMatrix R n 1) (F Q : TKalMatrix R n n) (help : Track) :
    Transport2 E sort (lazyUpdate sort s) site ml_to x0 sv F Q help =
      Transport2 E sort s site ml_to x0 sv F Q help := by
  simp only [Transport2, lazyUpdate_idem]

/-- The site-to-site transport is the selected layer transport followed by the
move to the hit. -/
theorem TransportToSite_eq (E : Ext R n α Track RK) (S : SiteExt R n Track Frame Str)
    (sort : Heap α → List Ptr → List Ptr) (fUseRKTrack uniformB : Bool) (s : CradleState α)
    (site : TKalTrackSite R) (created : Track) (toSite : TKalTrackSiteTo R Frame)
    (sv : TKalMatrix R n 1) (F Q : TKalMatrix R n n) :
    TransportToSite E S sort fUseRKTrack uniformB s site created toSite sv F Q =
      match (if fUseRKTrack then
          Transport2 E sort s site toSite.measLayer TVector3.zero sv F Q created
        else Transport E sort uniformB s site toSite.measLayer TVector3.zero sv F Q created) with
      | .error e => .error e
      | .ok r => .ok (moveToHit E S uniformB toSite r) := by
  simp only [TransportToSite, layerTransport, Transport_lazy, Transport2_lazy]

/-- The selected layer transport returns when both indices are slots of the array. -/
theorem layer_transport_returns (E : Ext R n α Track RK)
    (sort : Heap α → List Ptr → List Ptr) (fUseRKTrack uniformB : Bool) (s : CradleState α)
    (site : TKalTrackSite R) (ml_to : Ptr) (x0 : TVector3 R) (sv : TKalMatrix R n 1)
    (F Q : TKalMatrix R n n) (help : Track)
    (hrange : IndicesInRange sort s site.measLayer ml_to) :
    ∃ rl, (if fUseRKTrack then Transport2 E sort s site ml_to x0 sv F Q help
      else Transport E sort uniformB s site ml_to x0 sv F Q help) = .ok rl := by
  cases fUseRKTrack
  · obtain ⟨r, hrun, _⟩ := Transport_FQ E sort uniformB s site ml_to x0 sv F Q help hrange
    exact ⟨r, by simpa using hrun⟩
  · obtain ⟨r, hrun, _⟩ := Transport2_FQ E sort s site ml_to x0 sv F Q help hrange
    exact ⟨r, by simpa using hrun⟩

/-- C19. Site-to-site `Transport` to a hit of dimension at most 1, called with both
indices in the array: the layer transport the flag selects returns, no move is
made after it, the `F`, `Q` and state vector returned are exactly those of that
layer transport, and with a uniform field the pivot of the destination site is
set to the pivot `x0` that transport returned (with a non-uniform field, to `x0`
transformed to the global frame of the track). -/
theorem TransportToSite_one_dim (E : Ext R n α Track RK) (S : SiteExt R n Track Frame Str)
    (sort : Heap α → List Ptr → List Ptr) (fUseRKTrack uniformB : Bool) (s : CradleState α)
    (site : TKalTrackSite R) (created : Track) (toSite : TKalTrackSiteTo R Frame)
    (sv : TKalMatrix R n 1) (F Q : TKalMatrix R n n)
    (hrange : IndicesInRange sort s site.measLayer toSite.measLayer)
    (hdim : toSite.dimension ≤ 1) :
    ∃ rl r,
      (if fUseRKTrack then
          Transport2 E sort s site toSite.measLayer TVector3.zero sv F Q created
        else Transport E sort uniformB s site toSite.measLayer TVector3.zero sv F Q created)
        = .ok rl ∧
      TransportToSite E S sort fUseRKTrack uniformB s site created toSite sv F Q = .ok r ∧
      r.F = rl.F ∧ r.Q = rl.Q ∧ r.sv = rl.sv ∧
      (uniformB = true → r.toSite.pivot = rl.x0) ∧
      (uniformB = false → r.toSite.pivot = S.Transform (S.GetFrame rl.hel) rl.x0) := by
  obtain ⟨rl, hrl⟩ := layer_transport_returns E sort fUseRKTrack uniformB s site
    toSite.measLayer TVector3.zero sv F Q created hrange
  have hnd : ¬ toSite.dimension > 1 := by omega
  refine ⟨rl, moveToHit E S uniformB toSite rl, hrl, ?_, ?_⟩
  · rw [TransportToSite_eq, hrl]
  · have hm : moveToHit E S uniformB toSite rl =
        { state := rl.state
          toSite := setFrameAndField S uniformB rl.hel
            { toSite with
              pivot := if uniformB then rl.x0 else S.Transform (S.GetFrame rl.hel) rl.x0 }
          sv := rl.sv, F := rl.F, Q := rl.Q, log := rl.log } := by
      simp only [moveToHit, hnd, if_false]
    rw [hm]
    refine ⟨rfl, rfl, rfl, ?_, ?_⟩
    · intro hu
      simp [setFrameAndField, hu]
    · intro hu
      simp [setFrameAndField, hu]

theorem TransportToSite_one_dim_witness :
    (IndicesInRange Bench.stableSort Bench.state Bench.site.measLayer Bench.toSite1.measLayer ∧
      Bench.toSite1.dimension ≤ 1) ∧
    ∃ rl r,
      (if false = true then
          Transport2 Bench.ext Bench.stableSort Bench.state Bench.site Bench.toSite1.measLayer
            TVector3.zero Bench.sv0 Bench.stale Bench.stale Bench.track
        else Transport Bench.ext Bench.stableSort true Bench.state Bench.site
          Bench.toSite1.measLayer TVector3.zero Bench.sv0 Bench.stale Bench.stale Bench.track)
        = .ok rl ∧
      TransportToSite Bench.ext Bench.siteExt Bench.stableSort false true Bench.state Bench.site
        Bench.track Bench.toSite1 Bench.sv0 Bench.stale Bench.stale = .ok r ∧
      r.F = rl.F ∧ r.Q = rl.Q ∧ r.sv = rl.sv ∧
      (true = true → r.toSite.pivot = rl.x0) ∧
      (true = false → r.toSite.pivot =
        Bench.siteExt.Transform (Bench.siteExt.GetFrame rl.hel) rl.x0) :=
  ⟨⟨by decide, by decide⟩,
    TransportToSite_one_dim Bench.ext Bench.siteExt Bench.stableSort false true Bench.state
      Bench.site Bench.track Bench.toSite1 Bench.sv0 Bench.stale Bench.stale (by decide)
      (by decide)⟩

/-- C20. Site-to-site `Transport` to a hit of dimension above 1, called with both
indices in the array: the layer transport the flag selects returns with `F_layer`,
`Q`, a state vector, a pivot `x0` and a track, and the `F` returned is
`DF_last * F_layer`, with `DF_last` the segment of the last move: of the track
moved to the global pivot of the hit when the field of the hit is not zero, of a
straight track built from that state vector and `x0` and moved to the pivot of
the hit when it is zero.  `Q` is that of the layer transport and the state vector
returned is that of the moved track. -/
theorem TransportToSite_multi_dim (E : Ext R n α Track RK) (S : SiteExt R n Track Frame Str)
    (sort : Heap α → List Ptr → List Ptr) (fUseRKTrack uniformB : Bool) (s : CradleState α)
    (site : TKalTrackSite R) (created : Track) (toSite : TKalTrackSiteTo R Frame)
    (sv : TKalMatrix R n 1) (F Q : TKalMatrix R n n)
    (hrange : IndicesInRange sort s site.measLayer toSite.measLayer)
    (hdim : toSite.dimension > 1) :
    ∃ rl r,
      (if fUseRKTrack then
          Transport2 E sort s site toSite.measLayer TVector3.zero sv F Q created
        else Transport E sort uniformB s site toSite.measLayer TVector3.zero sv F Q created)
        = .ok rl ∧
      TransportToSite E S sort fUseRKTrack uniformB s site created toSite sv F Q = .ok r ∧
      r.Q = rl.Q ∧
      (toSite.hitBfield ≠ 0 →
        r.F = (E.MoveTo rl.hel toSite.globalPivot 0 0 (some false)).2.2 * rl.F ∧
        r.sv = E.PutInto (E.MoveTo rl.hel toSite.globalPivot 0 0 (some false)).1 rl.sv) ∧
      (toSite.hitBfield = 0 →
        r.F = (S.StrMoveTo (S.StraightTrack rl.sv rl.x0) toSite.pivot 0 0).2.2 * rl.F ∧
        r.sv = S.StrPutInto
          (S.StrMoveTo (S.StraightTrack rl.sv rl.x0) toSite.pivot 0 0).1 rl.sv) := by
  obtain ⟨rl, hrl⟩ := layer_transport_returns E sort fUseRKTrack uniformB s site
    toSite.measLayer TVector3.zero sv F Q created hrange
  refine ⟨rl, moveToHit E S uniformB toSite rl, hrl, ?_, ?_, ?_, ?_⟩
  · rw [TransportToSite_eq, hrl]
  · simp only [moveToHit, hdim, if_true]
    split <;> rfl
  · intro hB
    constructor <;> simp only [moveToHit, hdim, if_true, hB, ne_eq, not_false_eq_true]
  · intro hB
    constructor <;>
      simp only [moveToHit, hdim, if_true, hB, ne_eq, not_true_eq_false, if_false]

theorem TransportToSite_multi_dim_witness :
    (IndicesInRange Bench.stableSort Bench.state Bench.site.measLayer Bench.toSite2.measLayer ∧
      Bench.toSite2.dimension > 1) ∧
    ∃ r, TransportToSite Bench.ext Bench.siteExt Bench.stableSort false true Bench.state
        Bench.site Bench.track Bench.toSite2 Bench.sv0 Bench.stale Bench.stale = .ok r :=
  ⟨⟨by decide, by decide⟩,
    (TransportToSite_multi_dim Bench.ext Bench.siteExt Bench.stableSort false true Bench.state
      Bench.site Bench.track Bench.toSite2 Bench.sv0 Bench.stale Bench.stale (by decide)
      (by decide)).elim (fun _ h => h.elim (fun r h1 => ⟨r, h1.2.1⟩))⟩

/-- C14 fails on the code.  On the bench, with `fUseRKTrack` set, the public
site-to-layer `Transport` to the layer in slot 2 searches no crossing with the
Runge-Kutta track and returns the state vector of the helical transport, entry
(2,0) equal to 1/2, where `Transport2` on the same input searches with the
Runge-Kutta track and returns 3/4; the site-to-site `Transport` with the flag set
does run `Transport2`. -/
theorem TransportToLayer_helical_with_flag_set :
    (∃ r, TransportToLayer Bench.ext Bench.stableSort true true Bench.state Bench.site
        Bench.track 12 ⟨0, 0, 0⟩ Bench.sv0 Bench.stale Bench.stale = .ok r ∧
      (usesRK r.log = false ∧ r.sv 2 0 = 1 / 2)) ∧
    (∃ r, Transport2 Bench.ext Bench.stableSort Bench.state Bench.site 12 ⟨0, 0, 0⟩
        Bench.sv0 Bench.stale Bench.stale Bench.track = .ok r ∧
      (usesRK r.log = true ∧ r.sv 2 0 = 3 / 4)) ∧
    (∃ r, TransportToSite Bench.ext Bench.siteExt Bench.stableSort true true Bench.state
        Bench.site Bench.track Bench.toSite1 Bench.sv0 Bench.stale Bench.stale = .ok r ∧
      (usesRK r.log = true ∧ r.sv 2 0 = 3 / 4)) :=
  ⟨exists_of_check (by decide!), exists_of_check (by decide!), exists_of_check (by decide!)⟩

/-- After `Update`, a layer of the array has the index of a slot that holds it. -/
theorem Update_mem_index (le : α → α → Prop) (sort : Heap α → List Ptr → List Ptr)
    (hsort : SortContract le sort) (s : CradleState α) (hnd : s.cradle.fCont.Nodup)
    (p : Ptr) (hp : p ∈ s.cradle.fCont) :
    ∃ k : Nat, k < (Update sort s).cradle.fCont.length ∧
      ((Update sort s).heap p).fIndex = k ∧ (Update sort s).cradle.fCont.get? k = some p := by
  obtain ⟨hperm, _⟩ := hsort s.heap s.cradle.fCont
  have hnd1 : (sort s.heap s.cradle.fCont).Nodup := hperm.nodup_iff.mpr hnd
  have hp1 : p ∈ sort s.heap s.cradle.fCont := hperm.mem_iff.mpr hp
  obtain ⟨⟨k, hk⟩, hget⟩ := List.mem_iff_get.mp hp1
  refine ⟨k, hk, ?_, ?_⟩
  · have h := setIndices_index _ 0 s.heap hnd1 k hk
    rw [hget] at h
    simpa [Update] using h
  · simp only [Update]
    rw [List.get?_eq_get hk, hget]

/-- A run of `Install` that returns started on an open cradle. -/
theorem Install_ok (si so : InstallState α) (h : Install si = .ok so) :
    si.cradle.fIsClosed = false ∧
    so.cradle = { si.cradle with fCont := si.cradle.fCont ++ si.det.layers, fDone := false } := by
  cases hc : si.cradle.fIsClosed with
  | true => simp [Install, TKalDetCradle.IsClosed, hc] at h
  | false =>
    obtain ⟨s1, h1, h2⟩ := Install_open si hc
    rw [h1] at h
    cases h
    exact ⟨rfl, h2⟩

/-- The record and the cradle of a site-to-site transport are those of its layer
transport. -/
theorem moveToHit_state_log (E : Ext R n α Track RK) (S : SiteExt R n Track Frame Str)
    (uniformB : Bool) (toSite : TKalTrackSiteTo R Frame) (r : TransportResult R n α Track) :
    (moveToHit E S uniformB toSite r).state = r.state ∧
    (moveToHit E S uniformB toSite r).log = r.log := by
  unfold moveToHit
  split
  · split <;> exact ⟨rfl, rfl⟩
  · exact ⟨rfl, rfl⟩

/-- With both indices in the array, each of the four entry points returns, leaves
the cradle as `if (!fDone) Update();` made it, and visits the slots between the
two indices read from that cradle. -/
theorem entry_points_visit (E : Ext R n α Track RK) (S : SiteExt R n Track Frame Str)
    (sort : Heap α → List Ptr → List Ptr) (fUseRKTrack uniformB : Bool) (s : CradleState α)
    (site : TKalTrackSite R) (created : Track) (toSite : TKalTrackSiteTo R Frame)
    (x0 : TVector3 R) (sv : TKalMatrix R n 1) (F Q : TKalMatrix R n n)
    (hrange : IndicesInRange sort s site.measLayer toSite.measLayer) :
    (∃ r, Transport E sort uniformB s site toSite.measLayer x0 sv F Q created = .ok r ∧
      r.state = lazyUpdate sort s ∧
      visited r.log = visitOrder ((lazyUpdate sort s).heap site.measLayer).fIndex
        ((lazyUpdate sort s).heap toSite.measLayer).fIndex) ∧
    (∃ r, Transport2 E sort s site toSite.measLayer x0 sv F Q created = .ok r ∧
      r.state = lazyUpdate sort s ∧
      visited r.log = visitOrder ((lazyUpdate sort s).heap site.measLayer).fIndex
        ((lazyUpdate sort s).heap toSite.measLayer).fIndex) ∧
    (∃ r, TransportToLayer E sort fUseRKTrack uniformB s site created toSite.measLayer x0 sv
        F Q = .ok r ∧
      r.state = lazyUpdate sort s ∧
      visited r.log = visitOrder ((lazyUpdate sort s).heap site.measLayer).fIndex
        ((lazyUpdate sort s).heap toSite.measLayer).fIndex) ∧
    (∃ r, TransportToSite E S sort fUseRKTrack uniformB s site created toSite sv F Q = .ok r ∧
      r.state = lazyUpdate sort s ∧
      visited r.log = visitOrder ((lazyUpdate sort s).heap site.measLayer).fIndex
        ((lazyUpdate sort s).heap toSite.measLayer).fIndex) := by
  have h1 : ∀ x1 : TVector3 R,
      ∃ r, Transport E sort uniformB s site toSite.measLayer x1 sv F Q created = .ok r ∧
        r.state = lazyUpdate sort s ∧
        visited r.log = visitOrder ((lazyUpdate sort s).heap site.measLayer).fIndex
          ((lazyUpdate sort s).heap toSite.measLayer).fIndex := by
    intro x1
    obtain ⟨r, hr, hs, hv, _⟩ := Transport_visits E sort uniformB s site toSite.measLayer x1 sv
      F Q created hrange
    exact ⟨r, hr, hs, hv⟩
  have h2 : ∀ x1 : TVector3 R,
      ∃ r, Transport2 E sort s site toSite.measLayer x1 sv F Q created = .ok r ∧
        r.state = lazyUpdate sort s ∧
        visited r.log = visitOrder ((lazyUpdate sort s).heap site.measLayer).fIndex
          ((lazyUpdate sort s).heap toSite.measLayer).fIndex := by
    intro x1
    obtain ⟨r, hr, hs, hv, _⟩ := Transport2_visits E sort s site toSite.measLayer x1 sv
      F Q created hrange
    exact ⟨r, hr, hs, hv⟩
  refine ⟨h1 x0, h2 x0, ?_, ?_⟩
  · simp only [TransportToLayer, Transport_lazy]
    exact h1 x0
  · rw [TransportToSite_eq]
    cases fUseRKTrack
    · obtain ⟨r, hr, hs, hv⟩ := h1 TVector3.zero
      refine ⟨moveToHit E S uniformB toSite r, ?_, ?_, ?_⟩
      · simp only [Bool.false_eq_true, if_false, hr]
      · rw [(moveToHit_state_log E S uniformB toSite r).1, hs]
      · rw [(moveToHit_state_log E S uniformB toSite r).2, hv]
    · obtain ⟨r, hr, hs, hv⟩ := h2 TVector3.zero
      refine ⟨moveToHit E S uniformB toSite r, ?_, ?_, ?_⟩
      · simp only [if_true, hr]
      · rw [(moveToHit_state_log E S uniformB toSite r).1, hs]
      · rw [(moveToHit_state_log E S uniformB toSite r).2, hv]

/-- C11. Each of the four transport entry points (site-to-site `Transport`, the
public site-to-layer `Transport`, the internal `Transport` and `Transport2`) does
`if (!fDone) Update();` before it reads an index or a slot.  On any cradle the run
is the run on the cradle that statement leaves, whose `fDone` is set, and which is
`Update` of the cradle when it was dirty; called with both indices of that cradle
in the array, the entry point returns with that cradle and visits the slots
between the two indices read from it.  After an `Install` that returned, leaving
an array of distinct layers that holds the layer of the source site and the
destination layer, the cradle is dirty, every entry point returns with the cradle
`Update` makes of it, in which slot `i` holds the layer of index `i` and every
newly installed layer sits in the slot of its index, and the slots visited are
those between the indices of the two layers in that cradle. -/
theorem transport_updates_dirty_cradle (E : Ext R n α Track RK)
    (S : SiteExt R n Track Frame Str) (le : α → α → Prop)
    (sort : Heap α → List Ptr → List Ptr) (hsort : SortContract le sort)
    (fUseRKTrack uniformB : Bool) (si so : InstallState α) (hinst : Install si = .ok so)
    (hnd : so.cradle.fCont.Nodup) (site : TKalTrackSite R) (created : Track)
    (toSite : TKalTrackSiteTo R Frame) (hfrom : site.measLayer ∈ so.cradle.fCont)
    (hto : toSite.measLayer ∈ so.cradle.fCont)
    (x0 : TVector3 R) (sv : TKalMatrix R n 1) (F Q : TKalMatrix R n n) :
    (∀ s0 : CradleState α,
      (lazyUpdate sort s0).cradle.fDone = true ∧
      (s0.cradle.fDone = false → lazyUpdate sort s0 = Update sort s0) ∧
      Transport E sort uniformB s0 site toSite.measLayer x0 sv F Q created =
        Transport E sort uniformB (lazyUpdate sort s0) site toSite.measLayer x0 sv F Q
          created ∧
      Transport2 E sort s0 site toSite.measLayer x0 sv F Q created =
        Transport2 E sort (lazyUpdate sort s0) site toSite.measLayer x0 sv F Q created ∧
      TransportToLayer E sort fUseRKTrack uniformB s0 site created toSite.measLayer x0 sv F Q =
        TransportToLayer E sort fUseRKTrack uniformB (lazyUpdate sort s0) site created
          toSite.measLayer x0 sv F Q ∧
      TransportToSite E S sort fUseRKTrack uniformB s0 site created toSite sv F Q =
        TransportToSite E S sort fUseRKTrack uniformB (lazyUpdate sort s0) site created toSite
          sv F Q ∧
      (IndicesInRange sort s0 site.measLayer toSite.measLayer →
        (∃ r, Transport E sort uniformB s0 site toSite.measLayer x0 sv F Q created = .ok r ∧
          r.state = lazyUpdate sort s0 ∧
          visited r.log = visitOrder ((lazyUpdate sort s0).heap site.measLayer).fIndex
            ((lazyUpdate sort s0).heap toSite.measLayer).fIndex) ∧
        (∃ r, Transport2 E sort s0 site toSite.measLayer x0 sv F Q created = .ok r ∧
          r.state = lazyUpdate sort s0 ∧
          visited r.log = visitOrder ((lazyUpdate sort s0).heap site.measLayer).fIndex
            ((lazyUpdate sort s0).heap toSite.measLayer).fIndex) ∧
        (∃ r, TransportToLayer E sort fUseRKTrack uniformB s0 site created toSite.measLayer
            x0 sv F Q = .ok r ∧
          r.state = lazyUpdate sort s0 ∧
          visited r.log = visitOrder ((lazyUpdate sort s0).heap site.measLayer).fIndex
            ((lazyUpdate sort s0).heap toSite.measLayer).fIndex) ∧
        (∃ r, TransportToSite E S sort fUseRKTrack uniformB s0 site created toSite sv F Q
            = .ok r ∧
          r.state = lazyUpdate sort s0 ∧
          visited r.log = visitOrder ((lazyUpdate sort s0).heap site.measLayer).fIndex
            ((lazyUpdate sort s0).heap toSite.measLayer).fIndex))) ∧
    so.cradle.fDone = false ∧
    so.cradle.fCont = si.cradle.fCont ++ si.det.layers ∧
    (∀ (i : Nat) (hi : i < (Update sort ⟨so.cradle, so.heap⟩).cradle.fCont.length),
      ((Update sort ⟨so.cradle, so.heap⟩).heap
        ((Update sort ⟨so.cradle, so.heap⟩).cradle.fCont.get ⟨i, hi⟩)).fIndex = i) ∧
    (∀ p ∈ si.det.layers,
      ∃ k : Nat, k < (Update sort ⟨so.cradle, so.heap⟩).cradle.fCont.length ∧
        ((Update sort ⟨so.cradle, so.heap⟩).heap p).fIndex = k ∧
        (Update sort ⟨so.cradle, so.heap⟩).cradle.fCont.get? k = some p) ∧
    (∃ r, Transport E sort uniformB ⟨so.cradle, so.heap⟩ site toSite.measLayer x0 sv F Q
        created = .ok r ∧
      r.state = Update sort ⟨so.cradle, so.heap⟩ ∧
      visited r.log =
        visitOrder ((Update sort ⟨so.cradle, so.heap⟩).heap site.measLayer).fIndex
          ((Update sort ⟨so.cradle, so.heap⟩).heap toSite.measLayer).fIndex) ∧
    (∃ r, Transport2 E sort ⟨so.cradle, so.heap⟩ site toSite.measLayer x0 sv F Q created
        = .ok r ∧
      r.state = Update sort ⟨so.cradle, so.heap⟩ ∧
      visited r.log =
        visitOrder ((Update sort ⟨so.cradle, so.heap⟩).heap site.measLayer).fIndex
          ((Update sort ⟨so.cradle, so.heap⟩).heap toSite.measLayer).fIndex) ∧
    (∃ r, TransportToLayer E sort fUseRKTrack uniformB ⟨so.cradle, so.heap⟩ site created
        toSite.measLayer x0 sv F Q = .ok r ∧
      r.state = Update sort ⟨so.cradle, so.heap⟩ ∧
      visited r.log =
        visitOrder ((Update sort ⟨so.cradle, so.heap⟩).heap site.measLayer).fIndex
          ((Update sort ⟨so.cradle, so.heap⟩).heap toSite.measLayer).fIndex) ∧
    (∃ r, TransportToSite E S sort fUseRKTrack uniformB ⟨so.cradle, so.heap⟩ site created
        toSite sv F Q = .ok r ∧
      r.state = Update sort ⟨so.cradle, so.heap⟩ ∧
      visited r.log =
        visitOrder ((Update sort ⟨so.cradle, so.heap⟩).heap site.measLayer).fIndex
          ((Update sort ⟨so.cradle, so.heap⟩).heap toSite.measLayer).fIndex) := by
  obtain ⟨_, hcr⟩ := Install_ok si so hinst
  have hdirty : so.cradle.fDone = false := by rw [hcr]
  have hcont : so.cradle.fCont = si.cradle.fCont ++ si.det.layers := by rw [hcr]
  have hlazy : lazyUpdate sort (⟨so.cradle, so.heap⟩ : CradleState α) =
      Update sort ⟨so.cradle, so.heap⟩ := lazyUpdate_dirty sort _ hdirty
  have hidx := Update_mem_index le sort hsort (⟨so.cradle, so.heap⟩ : CradleState α) hnd
  have hrange : IndicesInRange sort (⟨so.cradle, so.heap⟩ : CradleState α) site.measLayer
      toSite.measLayer := by
    obtain ⟨k1, hk1, he1, _⟩ := hidx site.measLayer hfrom
    obtain ⟨k2, hk2, he2, _⟩ := hidx toSite.measLayer hto
    simp only [IndicesInRange, hlazy]
    rw [he1, he2]
    exact ⟨⟨Int.natCast_nonneg _, by exact_mod_cast hk1⟩,
      ⟨Int.natCast_nonneg _, by exact_mod_cast hk2⟩⟩
  refine ⟨?_, hdirty, hcont, ?_, ?_, ?_⟩
  · intro s0
    refine ⟨lazyUpdate_fDone sort s0, lazyUpdate_dirty sort s0,
      (Transport_lazy E sort uniformB s0 site toSite.measLayer x0 sv F Q created).symm,
      (Transport2_lazy E sort s0 site toSite.measLayer x0 sv F Q created).symm, ?_, ?_, ?_⟩
    · simp only [TransportToLayer, lazyUpdate_idem]
    · simp only [TransportToSite, lazyUpdate_idem]
    · intro hr0
      exact entry_points_visit E S sort fUseRKTrack uniformB s0 site created toSite x0 sv F Q hr0
  · intro i hi
    obtain ⟨hperm, _⟩ := hsort so.heap so.cradle.fCont
    have hnd1 : (sort so.heap so.cradle.fCont).Nodup := hperm.nodup_iff.mpr hnd
    have h := setIndices_index _ 0 so.heap hnd1 i hi
    simpa [Update] using h
  · intro p hp
    exact hidx p (by rw [hcont]; exact List.mem_append_right _ hp)
  · have h := entry_points_visit E S sort fUseRKTrack uniformB
      (⟨so.cradle, so.heap⟩ : CradleState α) site created toSite x0 sv F Q hrange
    rw [hlazy] at h
    exact h

theorem transport_updates_dirty_cradle_witness :
    (SortContract Bench.le Bench.stableSort ∧
      Install Bench.installState = .ok Bench.installed ∧
      Bench.installed.cradle.fCont.Nodup ∧
      Bench.siteNew.measLayer ∈ Bench.installed.cradle.fCont ∧
      Bench.toSiteOld.measLayer ∈ Bench.installed.cradle.fCont) ∧
    Bench.installed.cradle.fCont = [10, 11, 30, 31] ∧
    (Bench.heap 30).fIndex = -1 ∧
    visitOrder
      ((Update Bench.stableSort ⟨Bench.installed.cradle, Bench.installed.heap⟩).heap 30).fIndex
      ((Update Bench.stableSort ⟨Bench.installed.cradle, Bench.installed.heap⟩).heap 10).fIndex
      = [2, 1, 0] ∧
    ∃ r, TransportToSite Bench.ext Bench.siteExt Bench.stableSort false true
        ⟨Bench.installed.cradle, Bench.installed.heap⟩ Bench.siteNew Bench.track
        Bench.toSiteOld Bench.sv0 Bench.stale Bench.stale = .ok r ∧
      r.state = Update Bench.stableSort ⟨Bench.installed.cradle, Bench.installed.heap⟩ ∧
      visited r.log =
        visitOrder
          ((Update Bench.stableSort ⟨Bench.installed.cradle, Bench.installed.heap⟩).heap
            Bench.siteNew.measLayer).fIndex
          ((Update Bench.stableSort ⟨Bench.installed.cradle, Bench.installed.heap⟩).heap
            Bench.toSiteOld.measLayer).fIndex :=
  ⟨⟨Bench.stableSort_contract, rfl, by decide, by decide, by decide⟩, rfl, rfl, by decide,
    (transport_updates_dirty_cradle Bench.ext Bench.siteExt Bench.le Bench.stableSort
      Bench.stableSort_contract false true Bench.installState Bench.installed rfl (by decide)
      Bench.siteNew Bench.track Bench.toSiteOld (by decide) (by decide) ⟨0, 0, 0⟩ Bench.sv0
      Bench.stale Bench.stale).2.2.2.2.2.2.2.2⟩

end SiteClaims

section SeedClaims

theorem searchSeeds_append {R : Type} {n : Nat} (a b : List (Event R n)) :
    searchSeeds (a ++ b) = searchSeeds a ++ searchSeeds b := by
  induction a with
  | nil => rfl
  | cons e rest ih => cases e <;> simp [searchSeeds, ih]

theorem mem_searchSeeds {R : Type} {n : Nat} (log : List (Event R n)) (l : Int) (seed : R)
    (mode ret : Int)
    (h : Event.xing l seed mode ret ∈ log) : seed ∈ searchSeeds log := by
  induction log with
  | nil => simp at h
  | cons e rest ih =>
    rcases List.mem_cons.mp h with h1 | h1
    · subst h1
      simp [searchSeeds]
    · cases e <;> simp [searchSeeds, ih h1]

variable {R : Type} [LinearOrderedField R] {n : Nat} {α Track RK : Type}

/-- An accepted step of `Transport` searches no crossing of its own. -/
theorem helAccept_seeds (E : Ext R n α Track RK) (c : TKalDetCradle) (k : HelConsts R)
    (ito : Int) (ml : α) (xx : TVector3 R) (fid : R) (log1 : List (Event R n))
    (v : HelVars R n Track) :
    searchSeeds (helAccept E c k ito ml xx fid log1 v).log = searchSeeds log1 := by
  rw [helAccept_log]
  cases hm : (c.IsMSOn && decide (ito ≠ k.fridx)) <;>
    cases hd : (c.IsDEDXOn && decide (ito ≠ k.fridx)) <;>
    simp [searchSeeds_append, searchSeeds]

/-- C21. In the loop of the helical `Transport` the deflection angle handed to each
crossing search as its starting guess is 0, whatever the surfaces return.  A visit
skipped because the search found no crossing (first part) or because the far-side
test rejected it (second part) leaves `fid` as it was before the search, whatever
the search wrote into it; an accepted step leaves `fid = 0` (third part).  So a
run called with both indices in the array returns, makes one search per slot
visited, each with the seed 0, and no search of its record has another seed. -/
theorem Transport_search_seed_zero (E : Ext R n α Track RK)
    (sort : Heap α → List Ptr → List Ptr) (uniformB : Bool) (s : CradleState α)
    (site : TKalTrackSite R) (ml_to : Ptr) (x0 : TVector3 R) (sv : TKalMatrix R n 1)
    (F Q : TKalMatrix R n n) (help : Track)
    (hrange : IndicesInRange sort s site.measLayer ml_to) :
    (∀ (s1 : CradleState α) (k : HelConsts R) (ito : Int) (v : HelVars R n Track) (sp : Ptr),
      s1.cradle.At ito = some sp →
      (E.CalcXingPointWith (s1.heap sp).body v.hel v.xx v.fid (searchMode k.fridx k.di ito)
        (some k.eps)).1 = 0 →
      ∃ v1, transportBody E s1 k ito v = .ok v1 ∧ v1.fid = v.fid ∧
        searchSeeds v1.log = searchSeeds v.log ++ [v.fid]) ∧
    (∀ (s1 : CradleState α) (k : HelConsts R) (ito : Int) (v : HelVars R n Track) (sp : Ptr),
      s1.cradle.At ito = some sp →
      (E.CalcXingPointWith (s1.heap sp).body v.hel v.xx v.fid (searchMode k.fridx k.di ito)
        (some k.eps)).1 ≠ 0 →
      farSide E k (E.CalcXingPointWith (s1.heap sp).body v.hel v.xx v.fid
        (searchMode k.fridx k.di ito) (some k.eps)).2.1 →
      ∃ v1, transportBody E s1 k ito v = .ok v1 ∧ v1.fid = v.fid ∧
        searchSeeds v1.log = searchSeeds v.log ++ [v.fid]) ∧
    (∀ (s1 : CradleState α) (k : HelConsts R) (ito : Int) (v : HelVars R n Track)
        (sp mp : Ptr),
      s1.cradle.At ito = some sp → s1.cradle.At v.ifr = some mp →
      (E.CalcXingPointWith (s1.heap sp).body v.hel v.xx v.fid (searchMode k.fridx k.di ito)
        (some k.eps)).1 ≠ 0 →
      ¬ farSide E k (E.CalcXingPointWith (s1.heap sp).body v.hel v.xx v.fid
        (searchMode k.fridx k.di ito) (some k.eps)).2.1 →
      ∃ v1, transportBody E s1 k ito v = .ok v1 ∧ v1.fid = 0 ∧
        searchSeeds v1.log = searchSeeds v.log ++ [v.fid]) ∧
    ∃ r, Transport E sort uniformB s site ml_to x0 sv F Q help = .ok r ∧
      searchSeeds r.log =
        List.replicate ((((lazyUpdate sort s).heap ml_to).fIndex -
          ((lazyUpdate sort s).heap site.measLayer).fIndex).natAbs + 1) 0 ∧
      ∀ (l : Int) (seed : R) (mode ret : Int), Event.xing l seed mode ret ∈ r.log → seed = 0 := by
  refine ⟨?_, ?_, ?_, ?_⟩
  · intro s1 k ito v sp hsp h0
    refine ⟨_, transportBody_noXing E s1 k ito v sp hsp h0, rfl, ?_⟩
    simp [searchSeeds_append, searchSeeds]
  · intro s1 k ito v sp hsp h0 hfar
    refine ⟨_, transportBody_far E s1 k ito v sp hsp h0 hfar, rfl, ?_⟩
    simp [searchSeeds_append, searchSeeds]
  · intro s1 k ito v sp mp hsp hmp h0 hfar
    refine ⟨_, transportBody_accept E s1 k ito v sp mp hsp hmp h0 hfar, rfl, ?_⟩
    rw [helAccept_seeds]
    simp [searchSeeds_append, searchSeeds]
  · obtain ⟨v, ⟨_, hseeds⟩, hrun⟩ := Transport_trace E sort uniformB s site ml_to x0 sv F Q help
      hrange
      (fun d v => v.fid = 0 ∧ searchSeeds v.log = List.replicate d.length 0)
      ⟨rfl, rfl⟩
      (by
        rintro d i v xx ret far _ ⟨hfid, hs⟩
        refine ⟨hfid, ?_⟩
        simp only [searchSeeds_append, searchSeeds, hs, hfid, List.append_nil,
          List.length_append, List.length_singleton, List.length_nil, List.length_cons,
          Nat.zero_add]
        exact (List.replicate_succ' _ _).symm)
      (by
        rintro d i v mp xx fid ret _ _ ⟨hfid, hs⟩
        refine ⟨rfl, ?_⟩
        rw [helAccept_seeds]
        simp only [searchSeeds_append, searchSeeds, hs, hfid, List.append_nil,
          List.length_append, List.length_singleton, List.length_nil, List.length_cons,
          Nat.zero_add]
        exact (List.replicate_succ' _ _).symm)
    have hlen : (visitOrder ((lazyUpdate sort s).heap site.measLayer).fIndex
        ((lazyUpdate sort s).heap ml_to).fIndex).length =
        (((lazyUpdate sort s).heap ml_to).fIndex -
          ((lazyUpdate sort s).heap site.measLayer).fIndex).natAbs + 1 := by
      simp [visitOrder]
    rw [hlen] at hseeds
    refine ⟨_, hrun, hseeds, ?_⟩
    intro l seed mode ret hmem
    have h1 := mem_searchSeeds _ l seed mode ret hmem
    have h2 : seed ∈ List.replicate ((((lazyUpdate sort s).heap ml_to).fIndex -
        ((lazyUpdate sort s).heap site.measLayer).fIndex).natAbs + 1) (0 : R) := by
      rw [← hseeds]
      exact h1
    exact (List.mem_replicate.mp h2).2

theorem Transport_search_seed_zero_witness :
    IndicesInRange Bench.stableSort Bench.stateFar Bench.siteFar.measLayer 22 ∧
    (∃ r, Transport Bench.ext Bench.stableSort true Bench.stateFar Bench.siteFar 22 ⟨0, 0, 0⟩
        Bench.sv0 Bench.stale Bench.stale Bench.track = .ok r ∧
      (visited r.log = [0, 1, 2] ∧ visitSkipped 1 r.log = true ∧
        visitAccepted 2 r.log = true)) ∧
    ∃ r, Transport Bench.ext Bench.stableSort true Bench.stateFar Bench.siteFar 22 ⟨0, 0, 0⟩
        Bench.sv0 Bench.stale Bench.stale Bench.track = .ok r ∧
      searchSeeds r.log = [0, 0, 0] ∧
      ∀ (l : Int) (seed : ℚ) (mode ret : Int),
        Event.xing l seed mode ret ∈ r.log → seed = 0 :=
  ⟨by decide, exists_of_check (by decide!),
    (Transport_search_seed_zero Bench.ext Bench.stableSort true Bench.stateFar Bench.siteFar 22
      ⟨0, 0, 0⟩ Bench.sv0 Bench.stale Bench.stale Bench.track (by decide)).2.2.2⟩

end SeedClaims

end KalTest
